import Mathlib

/-!
# twoptimizer: the Total War allocation problem, the Smite build optimizer and
the solver facade

A shallow embedding of `src/tw/problem.cpp`, `src/tw/province.cpp`,
`src/tw/effect.cpp`, `src/tw/building.cpp`, `src/solver/solver_ortools.cpp`,
`src/smite/item.cpp`, `src/smite/god.cpp` and `src/smite/god_builder.cpp`.

Conventions of the embedding:

* C++ `double` values are represented by rationals, and the arithmetic the
  code performs on them (the sums, products, quotients and comparisons of
  `god.cpp` and `god_builder.cpp`) is exact rational arithmetic; rounding is
  not modelled.
* A `std::shared_ptr` to a Province, Region or Building is represented by the
  value it points to at the time of the call.
* A `void*` variable handle is `none` for `nullptr` and `some i` for the i-th
  variable created in a solver.
* A member function that mutates `*this` returns an `Outcome`: what the call
  produced (a value, or the message of the `std::runtime_error` it threw)
  together with the object as it is after the call.
* OR-Tools is an external library. `MPSolver` records the model data the
  repository writes into it and the data it reads back; the search itself is a
  parameter (`Backend`).
* The static `hash_counter` of `building.cpp` is explicit state: the
  constructor takes its value and returns the new one. It is an `int` that
  starts at 0 and is only incremented; incrementing it at `INT_MAX` is an
  `error`.
* A pool entry of `GodBuilder` is a possibly null pointer; `optimizeBuild`
  dereferences every entry of a pool of six or more, so a null entry there is
  an `error` run. A loop over an index `i` that reads two vectors of the same
  length at `i` runs over the two vectors zipped.
-/

namespace twoptimizer

/-! ## OR-Tools boundary -/

/-- Result status of `operations_research::MPSolver::Solve`. -/
inductive ResultStatus where
  | OPTIMAL
  | FEASIBLE
  | INFEASIBLE
  | UNBOUNDED
  | ABNORMAL
  | MODEL_INVALID
  | NOT_SOLVED
  deriving DecidableEq, Repr

/-- One variable of an `MPSolver` model: name, integrality, bounds
(`ub = none` is `MPSolver::infinity()`). -/
structure MPVariable where
  name : String
  integer : Bool
  lb : ℚ
  ub : Option ℚ
  deriving DecidableEq, Repr

/-- One row `lb ≤ Σ coefficient · variable ≤ ub` of an `MPSolver` model. -/
structure MPConstraint where
  name : String
  lb : ℚ
  ub : ℚ
  coefficients : List (Nat × ℚ)
  deriving DecidableEq, Repr

/-- The objective of an `MPSolver` model: direction, the coefficients set with
`SetCoefficient`, and the value reported by `Value()`. -/
structure MPObjective where
  maximization : Bool
  coefficients : List (Nat × ℚ)
  value : ℚ
  deriving DecidableEq, Repr

/-- The state of an `operations_research::MPSolver`: the model, the status
of the most recent `Solve` (`none` before the first one) and the solution
values of the variables. -/
structure MPSolver where
  name : String
  variables_ : List MPVariable
  constraints : List MPConstraint
  objective : MPObjective
  lastStatus : Option ResultStatus
  solution : List ℚ
  deriving DecidableEq, Repr

/-- What the external search reports for a model. -/
structure SolveReply where
  status : ResultStatus
  objectiveValue : ℚ
  values : List ℚ
  deriving DecidableEq, Repr

/-- The external search: any function from models to replies. -/
abbrev Backend := MPSolver → SolveReply

/-- A freshly constructed `MPSolver`: empty model, minimisation. -/
def MPSolver.create (name : String) : MPSolver :=
  { name := name, variables_ := [], constraints := [],
    objective := { maximization := false, coefficients := [], value := 0 },
    lastStatus := none, solution := [] }

/-- The call `MPSolver::MakeBoolVar(name)`: the handle and the solver after it. -/
def MPSolver.MakeBoolVar (m : MPSolver) (name : String) : Nat × MPSolver :=
  (m.variables_.length,
   { m with variables_ := m.variables_ ++ [{ name := name, integer := true, lb := 0, ub := some 1 }] })

/-- The call `MPSolver::MakeIntVar(lb, ub, name)`. -/
def MPSolver.MakeIntVar (m : MPSolver) (lb : ℚ) (ub : Option ℚ) (name : String) : Nat × MPSolver :=
  (m.variables_.length,
   { m with variables_ := m.variables_ ++ [{ name := name, integer := true, lb := lb, ub := ub }] })

/-- The call `MPSolver::MakeNumVar(lb, ub, name)`. -/
def MPSolver.MakeNumVar (m : MPSolver) (lb : ℚ) (ub : Option ℚ) (name : String) : Nat × MPSolver :=
  (m.variables_.length,
   { m with variables_ := m.variables_ ++ [{ name := name, integer := false, lb := lb, ub := ub }] })

/-- The call `MutableObjective()->SetMaximization()`. -/
def MPSolver.SetMaximization (m : MPSolver) : MPSolver :=
  { m with objective := { m.objective with maximization := true } }

/-- The call `MutableObjective()->SetMinimization()`. -/
def MPSolver.SetMinimization (m : MPSolver) : MPSolver :=
  { m with objective := { m.objective with maximization := false } }

/-- The call `MPSolver::Solve()`: the status, and the solver holding what the
search reported. -/
def MPSolver.Solve (m : MPSolver) (backend : Backend) : ResultStatus × MPSolver :=
  let r := backend m
  (r.status,
   { m with lastStatus := some r.status,
            objective := { m.objective with value := r.objectiveValue },
            solution := r.values })

/-- The coefficient list of a row or objective after `SetCoefficient(var, c)`:
the entry of `var`, if any, is replaced. -/
def setCoefficient (cs : List (Nat × ℚ)) (var : Nat) (c : ℚ) : List (Nat × ℚ) :=
  cs.filter (fun e => e.1 ≠ var) ++ [(var, c)]

/-- The coefficient of `var` in a row or objective (`GetCoefficient`): 0 when
none was set. -/
def getCoefficient (cs : List (Nat × ℚ)) (var : Nat) : ℚ :=
  match cs.find? (fun e => e.1 = var) with
  | some e => e.2
  | none => 0

/-- Apply `f` to the row with index `row`. -/
def modifyRow (rows : List MPConstraint) (row : Nat) (f : MPConstraint → MPConstraint) :
    List MPConstraint :=
  match rows, row with
  | [], _ => []
  | r :: rs, 0 => f r :: rs
  | r :: rs, k + 1 => r :: modifyRow rs k f

/-- The call `MPSolver::MakeRowConstraint(lb, ub, name)`: the index of the new
row and the solver after it. -/
def MPSolver.MakeRowConstraint (m : MPSolver) (lb ub : ℚ) (name : String) : Nat × MPSolver :=
  (m.constraints.length,
   { m with constraints := m.constraints ++ [{ name := name, lb := lb, ub := ub, coefficients := [] }] })

/-- The call `row->SetCoefficient(var, c)` on a row of the solver. -/
def MPSolver.SetCoefficient (m : MPSolver) (row : Nat) (var : Nat) (c : ℚ) : MPSolver :=
  { m with
    constraints :=
      modifyRow m.constraints row
        (fun r => { r with coefficients := setCoefficient r.coefficients var c }) }

/-- The call `MutableObjective()->SetCoefficient(var, c)`. -/
def MPSolver.SetObjectiveCoefficient (m : MPSolver) (var : Nat) (c : ℚ) : MPSolver :=
  { m with objective :=
      { m.objective with coefficients := setCoefficient m.objective.coefficients var c } }

/-- The call `var->solution_value()`. -/
def MPSolver.solution_value (m : MPSolver) (var : Nat) : ℚ :=
  m.solution.getD var 0

/-- The value `Σ coefficient_i · x_i` of a coefficient list at an assignment
`x` of the solver's variables. -/
def MPSolver.activity (m : MPSolver) (cs : List (Nat × ℚ)) (x : List ℚ) : ℚ :=
  Finset.sum (Finset.range m.variables_.length) (fun i => getCoefficient cs i * x.getD i 0)

/-- The objective function of the model at an assignment. -/
def MPSolver.objectiveAt (m : MPSolver) (x : List ℚ) : ℚ :=
  m.activity m.objective.coefficients x

/-- An assignment respects the bounds and the integrality of the variable
with index `i`. -/
def MPSolver.respectsVariable (m : MPSolver) (x : List ℚ) (i : Nat) : Prop :=
  match m.variables_.get? i with
  | some v =>
    v.lb ≤ x.getD i 0 ∧
    (match v.ub with
     | some u => x.getD i 0 ≤ u
     | none => True) ∧
    (v.integer = true → (x.getD i 0).den = 1)
  | none => True

/-- An assignment is a feasible solution of the model: one value per
variable, within bounds, integral where required, every row satisfied. -/
def MPSolver.Feasible (m : MPSolver) (x : List ℚ) : Prop :=
  x.length = m.variables_.length ∧
  (∀ i, i < m.variables_.length → m.respectsVariable x i) ∧
  (∀ r ∈ m.constraints, r.lb ≤ m.activity r.coefficients x ∧ m.activity r.coefficients x ≤ r.ub)

/-- An assignment is an optimal solution of the model: feasible, and no
feasible assignment is better in the direction of the objective. -/
def MPSolver.Optimal (m : MPSolver) (x : List ℚ) : Prop :=
  m.Feasible x ∧
  ∀ y, m.Feasible y →
    if m.objective.maximization then m.objectiveAt y ≤ m.objectiveAt x
    else m.objectiveAt x ≤ m.objectiveAt y

/-! ## `SolverOrTools` (src/solver/solver_ortools.cpp) -/

/-- The class `SolverOrTools`: it owns one `MPSolver`. -/
structure SolverOrTools where
  solver_ : MPSolver
  deriving DecidableEq, Repr

namespace SolverOrTools

/-- The constructor `SolverOrTools::SolverOrTools`. -/
def create : SolverOrTools :=
  { solver_ := MPSolver.create "twoptimizer" }

/-- The method `SolverOrTools::createVariable`. -/
def createVariable (self : SolverOrTools) (name : String) (category : String) :
    Nat × SolverOrTools :=
  if category = "Binary" ∨ category = "binary" then
    let r := self.solver_.MakeBoolVar name
    (r.1, { solver_ := r.2 })
  else if category = "Integer" ∨ category = "integer" then
    let r := self.solver_.MakeIntVar 0 none name
    (r.1, { solver_ := r.2 })
  else
    let r := self.solver_.MakeNumVar 0 none name
    (r.1, { solver_ := r.2 })

/-- The method `SolverOrTools::addConstraint`: an empty body. -/
def addConstraint (self : SolverOrTools) (_name : String) : SolverOrTools :=
  self

/-- The method `SolverOrTools::setObjective`. -/
def setObjective (self : SolverOrTools) (maximize : Bool) : SolverOrTools :=
  if maximize then { solver_ := self.solver_.SetMaximization }
  else { solver_ := self.solver_.SetMinimization }

/-- The method `SolverOrTools::solve`: true exactly on `OPTIMAL`. -/
def solve (self : SolverOrTools) (backend : Backend) : Bool × SolverOrTools :=
  let r := self.solver_.Solve backend
  (decide (r.1 = ResultStatus.OPTIMAL), { solver_ := r.2 })

/-- The method `SolverOrTools::getVariableValue`: the `solution_value()` of
the variable behind the handle. -/
def getVariableValue (self : SolverOrTools) (var : Nat) : ℚ :=
  self.solver_.solution.getD var 0

/-- The method `SolverOrTools::getObjectiveValue`. -/
def getObjectiveValue (self : SolverOrTools) : ℚ :=
  self.solver_.objective.value

/-- The method `SolverOrTools::numVariables`. -/
def numVariables (self : SolverOrTools) : Nat :=
  self.solver_.variables_.length

/-- The method `SolverOrTools::numConstraints`. -/
def numConstraints (self : SolverOrTools) : Nat :=
  self.solver_.constraints.length

end SolverOrTools

namespace tw

/-! ## Effects and entities (include/tw/entity.h, src/tw/effect.cpp) -/

/-- The class `Effect`: four numeric fields, all 0 by default. -/
structure Effect where
  gdp_ : ℚ := 0
  public_order_ : ℚ := 0
  sanitation_ : ℚ := 0
  food_ : ℚ := 0
  deriving DecidableEq, Repr

/-- The getter `Effect::gdp`. -/
def Effect.gdp (e : Effect) : ℚ := e.gdp_

/-- The getter `Effect::publicOrder`. -/
def Effect.publicOrder (e : Effect) : ℚ := e.public_order_

/-- The getter `Effect::sanitation`. -/
def Effect.sanitation (e : Effect) : ℚ := e.sanitation_

/-- The getter `Effect::food`. -/
def Effect.food (e : Effect) : ℚ := e.food_

/-- The setter `Effect::setGdp`. -/
def Effect.setGdp (e : Effect) (value : ℚ) : Effect := { e with gdp_ := value }

/-- The setter `Effect::setPublicOrder`. -/
def Effect.setPublicOrder (e : Effect) (value : ℚ) : Effect := { e with public_order_ := value }

/-- The setter `Effect::setSanitation`. -/
def Effect.setSanitation (e : Effect) (value : ℚ) : Effect := { e with sanitation_ := value }

/-- The setter `Effect::setFood`. -/
def Effect.setFood (e : Effect) (value : ℚ) : Effect := { e with food_ := value }

/-- The class `Building` (include/tw/building.h): its `Effect` base, its
`Entity` name, print name, identity token, variable handle and the four
effect maps. -/
structure Building where
  effect : Effect := {}
  name_ : String
  print_name_ : String
  hash_name_ : String
  lp_variable_ : Option Nat := none
  effectsToFaction : List (String × Effect) := []
  effectsToProvince : List (String × Effect) := []
  effectsToRegion : List (String × Effect) := []
  effectsToBuilding : List (String × Effect) := []
  deriving DecidableEq, Repr

/-- The getter `Building::getLpVariable`. -/
def Building.getLpVariable (b : Building) : Option Nat := b.lp_variable_

/-- The setter `Building::setLpVariable`. -/
def Building.setLpVariable (b : Building) (var : Option Nat) : Building :=
  { b with lp_variable_ := var }

/-- The class `Region` (include/tw/province.h). -/
structure Region where
  effect : Effect := {}
  name_ : String
  buildings_ : List Building := []
  deriving DecidableEq, Repr

/-- The constructor `Region::Region`. -/
def Region.create (name : String) : Region := { name_ := name }

/-- The method `Region::addBuilding`. -/
def Region.addBuilding (r : Region) (building : Building) : Region :=
  { r with buildings_ := r.buildings_ ++ [building] }

/-- The getter `Region::getBuildings`. -/
def Region.getBuildings (r : Region) : List Building := r.buildings_

/-- The class `Province` (include/tw/province.h). -/
structure Province where
  effect : Effect := {}
  name_ : String
  regions_ : List Region := []
  deriving DecidableEq, Repr

/-- The constructor `Province::Province`. -/
def Province.create (name : String) : Province := { name_ := name }

/-- The method `Province::addRegion`. -/
def Province.addRegion (p : Province) (region : Region) : Province :=
  { p with regions_ := p.regions_ ++ [region] }

/-- The getter `Province::getRegions`. -/
def Province.getRegions (p : Province) : List Region := p.regions_

/-! ## The allocation problem (include/tw/problem.h, src/tw/problem.cpp) -/

/-- The enumeration `ProblemState`, in declaration order. -/
inductive ProblemState where
  | INIT
  | PROVINCES_ADDED
  | BUILDINGS_ADDED
  | CONSTRAINTS_ADDED
  | OBJECTIVE_ADDED
  | SOLVED
  deriving DecidableEq, Repr

/-- The position of a state in the declaration order of the enumeration. -/
def ProblemState.rank : ProblemState → Nat
  | .INIT => 0
  | .PROVINCES_ADDED => 1
  | .BUILDINGS_ADDED => 2
  | .CONSTRAINTS_ADDED => 3
  | .OBJECTIVE_ADDED => 4
  | .SOLVED => 5

/-- The class `Problem`: its solver, its provinces and its lifecycle state. -/
structure Problem where
  solver_ : SolverOrTools
  provinces_ : List Province
  state_ : ProblemState
  deriving DecidableEq, Repr

/-- What a call on a `Problem` produced, and the problem after the call. An
`error` result is the message of the `std::runtime_error` thrown. -/
structure Outcome (α : Type) where
  result : Except String α
  after : Problem

/-- The call returned (did not throw). -/
def Outcome.returned {α : Type} (o : Outcome α) : Bool :=
  match o.result with
  | .ok _ => true
  | .error _ => false

/-- The call threw. -/
def Outcome.raised {α : Type} (o : Outcome α) : Bool :=
  match o.result with
  | .ok _ => false
  | .error _ => true

namespace Problem

/-- The constructor `Problem::Problem`. -/
def create : Problem :=
  { solver_ := SolverOrTools.create, provinces_ := [], state_ := .INIT }

/-- The getter `Problem::getState`. -/
def getState (self : Problem) : ProblemState := self.state_

/-- The method `Problem::addProvince`. -/
def addProvince (self : Problem) (province : Province) : Outcome Unit :=
  { result := .ok (),
    after := { self with provinces_ := self.provinces_ ++ [province],
                         state_ := .PROVINCES_ADDED } }

/-- The method `Problem::addProvinces`: the loop calling `addProvince` on each
element in turn; an exception of a call would leave the loop. -/
def addProvinces (self : Problem) (provinces : List Province) : Outcome Unit :=
  provinces.foldl
    (fun acc province =>
      match acc.result with
      | .ok _ => acc.after.addProvince province
      | .error _ => acc)
    { result := .ok (), after := self }

/-- The method `Problem::addBuildings`. -/
def addBuildings (self : Problem) : Outcome Unit :=
  if self.state_ ≠ .PROVINCES_ADDED then
    { result := .error "Provinces must be added first.", after := self }
  else
    { result := .ok (), after := { self with state_ := .BUILDINGS_ADDED } }

/-- The method `Problem::addObjective`. -/
def addObjective (self : Problem) : Outcome Unit :=
  if self.state_ ≠ .CONSTRAINTS_ADDED ∧ self.state_ ≠ .BUILDINGS_ADDED then
    { result := .error "Constraints must be added first.", after := self }
  else
    { result := .ok (),
      after := { self with solver_ := self.solver_.setObjective true,
                           state_ := .OBJECTIVE_ADDED } }

/-- The method `Problem::solve`. -/
def solve (self : Problem) (backend : Backend) (verbose : Bool) : Outcome Unit :=
  if self.state_ ≠ .OBJECTIVE_ADDED then
    { result := .error "Objective must be added first.", after := self }
  else
    let r := self.solver_.solve backend
    let success := r.1
    if !success && verbose then
      { result := .error "Failed to solve the problem.", after := { self with solver_ := r.2 } }
    else
      { result := .ok (), after := { self with solver_ := r.2, state_ := .SOLVED } }

/-- The method `Problem::getBuildings`: the three nested loops. -/
def getBuildings (self : Problem) : Outcome (List Building) :=
  { result := .ok
      (self.provinces_.foldl
        (fun buildings province =>
          province.getRegions.foldl
            (fun buildings region =>
              region.getBuildings.foldl (fun buildings building => buildings ++ [building])
                buildings)
            buildings)
        []),
    after := self }

/-- The method `Problem::numVariables`. -/
def numVariables (self : Problem) : Nat := self.solver_.numVariables

/-- The method `Problem::numConstraints`. -/
def numConstraints (self : Problem) : Nat := self.solver_.numConstraints

/-- The method `Problem::getObjectiveValue`. -/
def getObjectiveValue (self : Problem) : Outcome ℚ :=
  if self.state_ ≠ .SOLVED then
    { result := .error "Problem must be solved first.", after := self }
  else
    { result := .ok self.solver_.getObjectiveValue, after := self }

/-- The buildings of a list of provinces in hierarchy traversal order:
provinces in list order, then each province's regions in order, then each
region's buildings in order. -/
def hierarchyBuildings (provinces : List Province) : List Building :=
  (provinces.map (fun province =>
    (province.getRegions.map (fun region => region.getBuildings)).flatten)).flatten

/-- The selection the specification describes: the buildings of the hierarchy
whose decision-variable value in the solver exceeds 0.5 (a building without a
handle has no such value). -/
def selectedBuildings (self : Problem) : List Building :=
  (hierarchyBuildings self.provinces_).filter (fun building =>
    match building.getLpVariable with
    | some var => decide (self.solver_.getVariableValue var > 1 / 2)
    | none => false)

/-- A public operation of `Problem` together with its arguments; `solve`
carries the external search it will consult. -/
inductive Op where
  | addProvince (province : Province)
  | addProvinces (provinces : List Province)
  | addBuildings
  | addObjective
  | solve (backend : Backend) (verbose : Bool)
  | getBuildings
  | getObjectiveValue

/-- The operation is `addProvince`, or `addProvinces` with at least one
province. -/
def Op.addsProvince : Op → Bool
  | .addProvince _ => true
  | .addProvinces provinces => !provinces.isEmpty
  | _ => false

/-- The problem after one public operation, whether the call returned or
threw. -/
def step (self : Problem) : Op → Problem
  | .addProvince province => (self.addProvince province).after
  | .addProvinces provinces => (self.addProvinces provinces).after
  | .addBuildings => self.addBuildings.after
  | .addObjective => self.addObjective.after
  | .solve backend verbose => (self.solve backend verbose).after
  | .getBuildings => self.getBuildings.after
  | .getObjectiveValue => self.getObjectiveValue.after

/-- The problem after a sequence of public operations. -/
def run (self : Problem) (ops : List Op) : Problem :=
  ops.foldl step self

end Problem

/-! ## Concrete data used by the evaluations below -/

/-- A building with gdp 100 to which the caller attached handle 0. -/
def farm : Building :=
  { effect := { gdp_ := 100 }, name_ := "Farm", print_name_ := "Farm Building",
    hash_name_ := "B0", lp_variable_ := some 0 }

/-- A province with one region holding `farm`. -/
def farmProvince : Province :=
  (Province.create "TestProvince").addRegion ((Region.create "TestRegion").addBuilding farm)

/-- A building as `Building("Mine")` leaves it: no effect set, no handle. -/
def mine : Building :=
  { name_ := "Mine", print_name_ := "Mine", hash_name_ := "B1" }

/-- A province with one region holding `mine`. -/
def mineProvince : Province :=
  (Province.create "MineProvince").addRegion ((Region.create "MineRegion").addBuilding mine)

/-- A search that reports the model infeasible. -/
def infeasibleBackend : Backend :=
  fun _ => { status := .INFEASIBLE, objectiveValue := 0, values := [] }

/-- A search that reports an optimum in which variable 0 has value 0. -/
def optimalZeroBackend : Backend :=
  fun _ => { status := .OPTIMAL, objectiveValue := 0, values := [0] }

/-- The problem obtained from a fresh one by `addProvince(farmProvince)`,
`addBuildings()`, `addObjective()`. -/
def farmProblem : Problem :=
  Problem.create.run [.addProvince farmProvince, .addBuildings, .addObjective]

end tw

namespace smite

/-! ## Items, builds and gods (include/smite/item.h, src/smite/item.cpp,
include/smite/god.h, src/smite/god.cpp) -/

/-- The enumeration `PowerType`. -/
inductive PowerType where
  | PHYSICAL
  | MAGICAL
  deriving DecidableEq, Repr

/-- The struct `Stats`: seven numeric fields, all 0 by default. -/
structure Stats where
  power_physical : ℚ := 0
  power_magical : ℚ := 0
  basic_attack_speed : ℚ := 0
  health : ℚ := 0
  mana : ℚ := 0
  physical_protection : ℚ := 0
  magical_protection : ℚ := 0
  deriving DecidableEq, Repr

/-- The class `Item`. -/
structure Item where
  name_ : String
  stats_ : Stats
  is_starter_ : Bool := false
  deriving DecidableEq, Repr

/-- The getter `Item::getName`. -/
def Item.getName (item : Item) : String := item.name_

/-- The getter `Item::getStats`. -/
def Item.getStats (item : Item) : Stats := item.stats_

/-- The getter `Item::isStarter`. -/
def Item.isStarter (item : Item) : Bool := item.is_starter_

/-- The struct `Build`: six slots, each a possibly null pointer to an item. -/
structure Build where
  item1 : Option Item := none
  item2 : Option Item := none
  item3 : Option Item := none
  item4 : Option Item := none
  item5 : Option Item := none
  item6 : Option Item := none
  deriving DecidableEq, Repr

/-- The method `Build::countItems`. -/
def Build.countItems (build : Build) : Int :=
  let count := 0
  let count := if build.item1.isSome then count + 1 else count
  let count := if build.item2.isSome then count + 1 else count
  let count := if build.item3.isSome then count + 1 else count
  let count := if build.item4.isSome then count + 1 else count
  let count := if build.item5.isSome then count + 1 else count
  let count := if build.item6.isSome then count + 1 else count
  count

/-- The six slots of a build in order. -/
def Build.slots (build : Build) : List (Option Item) :=
  [build.item1, build.item2, build.item3, build.item4, build.item5, build.item6]

/-- The class `God`. -/
structure God where
  name_ : String
  power_type_ : PowerType
  stats_ : Stats
  build_ : Build := {}
  deriving DecidableEq, Repr

/-- The getter `God::getPowerType`. -/
def God.getPowerType (god : God) : PowerType := god.power_type_

/-- The getter `God::getStats`. -/
def God.getStats (god : God) : Stats := god.stats_

/-- The method `God::getDpsBasicAttack()` without argument. -/
def God.getDpsBasicAttack (god : God) : ℚ :=
  let power :=
    if god.power_type_ = PowerType.PHYSICAL then god.stats_.power_physical
    else god.stats_.power_magical
  let attack_speed := god.stats_.basic_attack_speed
  power * (1 + attack_speed / 100)

/-- The method `God::getDpsBasicAttack(const Build&)`. -/
def God.getDpsBasicAttackBuild (god : God) (build : Build) : ℚ :=
  let total_power :=
    if god.power_type_ = PowerType.PHYSICAL then god.stats_.power_physical
    else god.stats_.power_magical
  let total_attack_speed := god.stats_.basic_attack_speed
  let items := [build.item1, build.item2, build.item3, build.item4, build.item5, build.item6]
  let totals :=
    items.foldl
      (fun (totals : ℚ × ℚ) item =>
        match item with
        | some item =>
          ((if god.power_type_ = PowerType.PHYSICAL then
              totals.1 + item.getStats.power_physical
            else totals.1 + item.getStats.power_magical),
           totals.2 + item.getStats.basic_attack_speed)
        | none => totals)
      (total_power, total_attack_speed)
  totals.1 * (1 + totals.2 / 100)

/-- The method `God::setBuild`. -/
def God.setBuild (god : God) (build : Build) : God := { god with build_ := build }

/-- The getter `God::getBuild`. -/
def God.getBuild (god : God) : Build := god.build_

/-! ## The build optimizer (include/smite/god_builder.h,
src/smite/god_builder.cpp) -/

/-- The class `GodBuilder`: the god and the candidate pool, a vector of
possibly null item pointers. -/
structure GodBuilder where
  god_ : God
  available_items_ : List (Option Item)
  deriving DecidableEq, Repr

/-- What a run of `optimizeBuild` leaves behind: the local solver (`none` when
the function returned before constructing it) and the returned optional. -/
structure OptimizeRun where
  solver : Option MPSolver
  result : Option (Build × ℚ)

namespace GodBuilder

/-- The method `GodBuilder::calculateDps`. -/
def calculateDps (self : GodBuilder) (items : List (Option Item)) : ℚ :=
  let total_power :=
    if self.god_.getPowerType = PowerType.PHYSICAL then self.god_.getStats.power_physical
    else self.god_.getStats.power_magical
  let total_attack_speed := self.god_.getStats.basic_attack_speed
  let totals :=
    items.foldl
      (fun (totals : ℚ × ℚ) item =>
        match item with
        | some item =>
          ((if self.god_.getPowerType = PowerType.PHYSICAL then
              totals.1 + item.getStats.power_physical
            else totals.1 + item.getStats.power_magical),
           totals.2 + item.getStats.basic_attack_speed)
        | none => totals)
      (total_power, total_attack_speed)
  totals.1 * (1 + totals.2 / 100)

/-- Lines 43-47 of `optimizeBuild`: one boolean variable `item_<i>` per pool
index; the solver after the loop and the vector `item_vars`. -/
def createItemVars (solver : MPSolver) (size : Nat) : MPSolver × List Nat :=
  (List.range size).foldl
    (fun (acc : MPSolver × List Nat) i =>
      let r := acc.1.MakeBoolVar ("item_" ++ toString i)
      (r.2, acc.2 ++ [r.1]))
    (solver, [])

/-- The objective coefficient computed for one candidate (lines 68-74). -/
def coefficient (god : God) (item : Item) : ℚ :=
  let stats := item.getStats
  let power :=
    if god.getPowerType = PowerType.PHYSICAL then stats.power_physical
    else stats.power_magical
  power + stats.basic_attack_speed * (1 / 2)

/-- Lines 37-76 of `optimizeBuild`: the solver holding the model, and
`item_vars`. The loops over `i` that read `available_items_[i]` and
`item_vars[i]` together run over the two vectors zipped. -/
def buildModel (god : God) (pool : List Item) : MPSolver × List Nat :=
  let solver := MPSolver.create "god_builder"
  let created := createItemVars solver pool.length
  let solver := created.1
  let item_vars := created.2
  let made := solver.MakeRowConstraint 6 6 "exactly_6_items"
  let constraint := made.1
  let solver := item_vars.foldl (fun solver var => solver.SetCoefficient constraint var 1) made.2
  let made := solver.MakeRowConstraint 0 1 "at_most_1_starter"
  let starter_constraint := made.1
  let solver :=
    (item_vars.zip pool).foldl
      (fun solver (entry : Nat × Item) =>
        if entry.2.isStarter then solver.SetCoefficient starter_constraint entry.1 1
        else solver)
      made.2
  let solver := solver.SetMaximization
  let solver :=
    (item_vars.zip pool).foldl
      (fun solver (entry : Nat × Item) =>
        solver.SetObjectiveCoefficient entry.1 (coefficient god entry.2))
      solver
  (solver, item_vars)

/-- Lines 85-90 of `optimizeBuild`: the candidates whose variable has a
solution value above 0.5, in pool order. -/
def extractSelection (solver : MPSolver) (pool : List Item) (item_vars : List Nat) :
    List Item :=
  (item_vars.zip pool).foldl
    (fun selected_items (entry : Nat × Item) =>
      if solver.solution_value entry.1 > 1 / 2 then selected_items ++ [entry.2]
      else selected_items)
    []

/-- Lines 98-104 of `optimizeBuild`: the build made of the first six selected
items. -/
def makeBuild (selected_items : List Item) : Build :=
  { item1 := if selected_items.length > 0 then selected_items.get? 0 else none,
    item2 := if selected_items.length > 1 then selected_items.get? 1 else none,
    item3 := if selected_items.length > 2 then selected_items.get? 2 else none,
    item4 := if selected_items.length > 3 then selected_items.get? 3 else none,
    item5 := if selected_items.length > 4 then selected_items.get? 4 else none,
    item6 := if selected_items.length > 5 then selected_items.get? 5 else none }

/-- The variable `item_<i>` as `MakeBoolVar` creates it. -/
def itemVar (i : Nat) : MPVariable :=
  { name := "item_" ++ toString i, integer := true, lb := 0, ub := some 1 }

/-- The model of `optimizeBuild` written out: what lines 37-76 leave in the
solver for a pool of dereferenced items. -/
def closedModel (god : God) (pool : List Item) : MPSolver :=
  { name := "god_builder",
    variables_ := (List.range pool.length).map itemVar,
    constraints :=
      [{ name := "exactly_6_items", lb := 6, ub := 6,
         coefficients := (List.range pool.length).map (fun i => (i, 1)) },
       { name := "at_most_1_starter", lb := 0, ub := 1,
         coefficients :=
           (pool.enum.filter (fun e => e.2.isStarter)).map (fun e => (e.1, 1)) }],
    objective :=
      { maximization := true,
        coefficients := pool.enum.map (fun e => (e.1, coefficient god e.2)),
        value := 0 },
    lastStatus := none,
    solution := [] }

/-- The pool with every pointer dereferenced; `none` when some pointer is
null. -/
def dereferenced (items : List (Option Item)) : Option (List Item) :=
  match items with
  | [] => some []
  | none :: _ => none
  | some item :: rest =>
    match dereferenced rest with
    | some pool => some (item :: pool)
    | none => none

/-- The method `GodBuilder::optimizeBuild`, with what it leaves behind. A pool
of at least six entries one of which is null makes the function dereference a
null pointer: that run is an `error`. -/
def optimizeBuildRun (self : GodBuilder) (backend : Backend) : Except String OptimizeRun :=
  if self.available_items_.length < 6 then
    .ok { solver := none, result := none }
  else
    match dereferenced self.available_items_ with
    | none => .error "null pointer dereference"
    | some pool =>
      let model := buildModel self.god_ pool
      let item_vars := model.2
      let solved := model.1.Solve backend
      let result := solved.1
      let solver := solved.2
      if result ≠ ResultStatus.OPTIMAL then
        .ok { solver := some solver, result := none }
      else
        let selected_items := extractSelection solver pool item_vars
        if selected_items.length ≠ 6 then
          .ok { solver := some solver, result := none }
        else
          let build := makeBuild selected_items
          let dps := self.calculateDps (selected_items.map some)
          .ok { solver := some solver, result := some (build, dps) }

/-- The value returned by `GodBuilder::optimizeBuild`. -/
def optimizeBuild (self : GodBuilder) (backend : Backend) :
    Except String (Option (Build × ℚ)) :=
  match self.optimizeBuildRun backend with
  | .ok run => .ok run.result
  | .error e => .error e

end GodBuilder

/-! ## Definitions used to state the properties of the optimizer -/

/-- The power stat of an item that counts for a god: physical power for a
PHYSICAL god, magical power for a MAGICAL one. -/
def relevantPower (god : God) (stats : Stats) : ℚ :=
  match god.power_type_ with
  | .PHYSICAL => stats.power_physical
  | .MAGICAL => stats.power_magical

/-- The metric as the specification words it: totalPower × (1 +
totalAttackSpeed / 100), the totals being the god's base stat plus the sum of
the stat over the items. -/
def exactMetric (god : God) (items : List Item) : ℚ :=
  (relevantPower god god.stats_ + (items.map (fun item => relevantPower god item.stats_)).sum)
    * (1 + (god.stats_.basic_attack_speed
        + (items.map (fun item => item.stats_.basic_attack_speed)).sum) / 100)

/-- The candidates of the pool whose reported value exceeds 0.5, in pool
order. -/
def chosenItems (values : List ℚ) (pool : List Item) : List Item :=
  (pool.enum.filter (fun e => decide (values.getD e.1 0 > 1 / 2))).map Prod.snd

/-- The number of starter items in the slots of a build. -/
def starterCount (build : Build) : Nat :=
  (build.slots.filter (fun slot =>
    match slot with
    | some item => item.isStarter
    | none => false)).length

/-- The starter flag of the candidate with index `i` (false past the end of
the pool). -/
def starterAt (pool : List Item) (i : Nat) : Bool :=
  match pool[i]? with
  | some item => item.isStarter
  | none => false

/-- The objective coefficient of the candidate with index `i` (0 past the end
of the pool). -/
def coefficientAt (god : God) (pool : List Item) (i : Nat) : ℚ :=
  match pool[i]? with
  | some item => GodBuilder.coefficient god item
  | none => 0

/-- The stats `d` are equal or better than the stats `e` in every field and
strictly better in at least one. -/
def Stats.dominates (d e : Stats) : Prop :=
  (e.power_physical ≤ d.power_physical ∧ e.power_magical ≤ d.power_magical ∧
    e.basic_attack_speed ≤ d.basic_attack_speed ∧ e.health ≤ d.health ∧ e.mana ≤ d.mana ∧
    e.physical_protection ≤ d.physical_protection ∧
    e.magical_protection ≤ d.magical_protection) ∧
  (e.power_physical < d.power_physical ∨ e.power_magical < d.power_magical ∨
    e.basic_attack_speed < d.basic_attack_speed ∨ e.health < d.health ∨ e.mana < d.mana ∨
    e.physical_protection < d.physical_protection ∨
    e.magical_protection < d.magical_protection)

/-- The value of the linear objective on a build: the sum of the objective
coefficients of the items in its slots. -/
def proxyValue (god : God) (build : Build) : ℚ :=
  ((build.slots.filterMap id).map (GodBuilder.coefficient god)).sum

/-! ## Concrete data used by the evaluations below -/

/-- The god of the test `GodBuilderOptimization`: physical, base power 50,
base attack speed 100. -/
def testGod : God :=
  { name_ := "TestGod", power_type_ := .PHYSICAL,
    stats_ := { power_physical := 50, basic_attack_speed := 100 } }

/-- The item `Item<i>` of the test `GodBuilderOptimization`. -/
def testItem (i : Nat) : Item :=
  { name_ := "Item" ++ toString i,
    stats_ := { power_physical := 20 + i * 5, basic_attack_speed := 10 + i * 2 },
    is_starter_ := false }

/-- The pool of the test `GodBuilderOptimization`: `Item0` to `Item9`. -/
def testPool : List Item :=
  (List.range 10).map testItem

/-- A search reporting OPTIMAL with the given values. -/
def optimalBackend (objectiveValue : ℚ) (values : List ℚ) : Backend :=
  fun _ => { status := .OPTIMAL, objectiveValue := objectiveValue, values := values }

/-- A search reporting INFEASIBLE. -/
def noSolutionBackend : Backend :=
  fun _ => { status := .INFEASIBLE, objectiveValue := 0, values := [] }

/-- The builder of the test `GodBuilderOptimization`. -/
def testBuilder : GodBuilder :=
  { god_ := testGod, available_items_ := testPool.map some }

/-- The values that select the candidates 4 to 9 of a pool of ten. -/
def topSixOfTen : List ℚ := [0, 0, 0, 0, 1, 1, 1, 1, 1, 1]

/-- The items of the test with the starter flag set on the indices listed. -/
def flaggedPool (starters : List Nat) : List Item :=
  (List.range 10).map
    (fun i => { testItem i with is_starter_ := starters.contains i })

/-- The values that select the candidates 3 to 7 and 9 of a pool of ten. -/
def substitutedSix : List ℚ := [0, 0, 0, 1, 1, 1, 1, 1, 0, 1]

/-- The assignment of `n` variables with value 1 on the indices in `S` and 0
elsewhere. -/
def indicator (n : Nat) (S : Finset Nat) : List ℚ :=
  (List.range n).map (fun i => if i ∈ S then 1 else 0)

/-- The candidates 0 to 5 of the test, 4 and 5 flagged as starters. -/
def sixPool : List Item :=
  (List.range 6).map (fun i => { testItem i with is_starter_ := [4, 5].contains i })

/-- A physical god with base power 1000 and base attack speed 0. -/
def strongGod : God :=
  { name_ := "Strong", power_type_ := .PHYSICAL, stats_ := { power_physical := 1000 } }

/-- An item with physical power 100 only. -/
def heavy (i : Nat) : Item :=
  { name_ := "Heavy" ++ toString i, stats_ := { power_physical := 100 } }

/-- An item with attack speed 100 only. -/
def swift : Item := { name_ := "Swift", stats_ := { basic_attack_speed := 100 } }

/-- An item with physical power 10 only. -/
def weak : Item := { name_ := "Weak", stats_ := { power_physical := 10 } }

/-- An item with physical power 51 only; it is not a starter. -/
def better : Item := { name_ := "Better", stats_ := { power_physical := 51 } }

/-- A pool of seven candidates: five `heavy`, `swift`, `weak`. -/
def basePool : List Item := [heavy 0, heavy 1, heavy 2, heavy 3, heavy 4, swift, weak]

/-- The pool `basePool` with `better` added. -/
def widenedPool : List Item := basePool ++ [better]

/-- A search reporting OPTIMAL: on a model of seven variables the selection
of the first six, otherwise the selection of the first five and the eighth. -/
def dominanceBackend : Backend :=
  fun m =>
    if m.variables_.length = 7 then
      { status := .OPTIMAL, objectiveValue := 550, values := [1, 1, 1, 1, 1, 1, 0] }
    else
      { status := .OPTIMAL, objectiveValue := 551, values := [1, 1, 1, 1, 1, 0, 0, 1] }

/-- A pool of five entries, one of them null. -/
def fivePool : List (Option Item) :=
  [some (testItem 0), some (testItem 1), none, some (testItem 3), some (testItem 4)]

end smite

namespace tw

/-! ## Building construction (src/tw/building.cpp) -/

/-- The largest value of a C++ `int` on the platforms the code targets. -/
def INT_MAX : Nat := 2147483647

/-- The constructor `Building::Building(name, printName, hashName)`. The
static `hash_counter` (an `int` that starts at 0 and is only incremented) is
passed in and returned. Incrementing it at `INT_MAX` is a signed overflow:
that call is an `error`. -/
def Building.construct (hash_counter : Nat) (name : String) (printName : String)
    (hashName : String) : Except String (Building × Nat) :=
  let print_name := if printName = "" then name else printName
  if hashName = "" then
    if hash_counter ≥ INT_MAX then .error "signed integer overflow"
    else
      .ok ({ name_ := name, print_name_ := print_name,
             hash_name_ := "B" ++ toString hash_counter },
           hash_counter + 1)
  else
    .ok ({ name_ := name, print_name_ := print_name, hash_name_ := hashName }, hash_counter)

/-- The copy constructor `Building::Building(const Building&)`. -/
def Building.copy (other : Building) : Building :=
  { effect := other.effect,
    name_ := other.name_,
    print_name_ := other.print_name_,
    hash_name_ := other.hash_name_,
    lp_variable_ := other.lp_variable_,
    effectsToFaction := other.effectsToFaction,
    effectsToProvince := other.effectsToProvince,
    effectsToRegion := other.effectsToRegion,
    effectsToBuilding := other.effectsToBuilding }

/-- The getter `Building::getHashName`. -/
def Building.getHashName (b : Building) : String := b.hash_name_

/-- The arguments of one call of the constructor of `Building`. -/
structure BuildingArgs where
  name : String
  printName : String := ""
  hashName : String := ""
  deriving DecidableEq, Repr

/-- A sequence of constructions in one process, starting with the given value
of `hash_counter`: the buildings in construction order and the counter at the
end. -/
def constructAll (hash_counter : Nat) : List BuildingArgs → Except String (List Building × Nat)
  | [] => .ok ([], hash_counter)
  | args :: rest =>
    match Building.construct hash_counter args.name args.printName args.hashName with
    | .error e => .error e
    | .ok (b, counter) =>
      match constructAll counter rest with
      | .error e => .error e
      | .ok (bs, last) => .ok (b :: bs, last)

/-- The pairs (arguments, building) of the constructions that took their
token from the counter. -/
def generated (reqs : List BuildingArgs) (bs : List Building) : List (BuildingArgs × Building) :=
  (reqs.zip bs).filter (fun p => decide (p.1.hashName = ""))

/-- The value of a decimal digit character. -/
def digitValue (c : Char) : Nat := c.toNat - 48

/-- The number a list of decimal digits denotes, most significant digit
first, continuing from `acc`. -/
def decodeDigits (acc : Nat) (digits : List Char) : Nat :=
  digits.foldl (fun acc c => 10 * acc + digitValue c) acc

/-- Three constructions: Farm, Mine with the explicit hash name X, Port. -/
def sampleArgs : List BuildingArgs :=
  [{ name := "Farm" }, { name := "Mine", hashName := "X" }, { name := "Port" }]

/-- The buildings the constructions `sampleArgs` produce in a fresh process. -/
def sampleBuildings : List Building :=
  [{ name_ := "Farm", print_name_ := "Farm", hash_name_ := "B0" },
   { name_ := "Mine", print_name_ := "Mine", hash_name_ := "X" },
   { name_ := "Port", print_name_ := "Port", hash_name_ := "B1" }]

/-! ## Sequences of solver and problem calls -/

/-- A sequence of `createVariable(name, category)` calls on a solver. -/
def createAll (solver : SolverOrTools) (calls : List (String × String)) : SolverOrTools :=
  calls.foldl (fun s call => (s.createVariable call.1 call.2).2) solver

/-- The operation is one of the two result readers. -/
def Problem.Op.isRead : Problem.Op → Bool
  | .getBuildings => true
  | .getObjectiveValue => true
  | _ => false

/-! ## Auxiliary lemmas -/

theorem foldl_push_eq_append (acc bs : List Building) :
    bs.foldl (fun buildings building => buildings ++ [building]) acc = acc ++ bs := by
  induction bs generalizing acc with
  | nil => simp
  | cons b bs ih => simp [List.foldl, ih]

theorem foldl_regions_eq_append (acc : List Building) (rs : List Region) :
    rs.foldl
        (fun buildings region =>
          region.getBuildings.foldl (fun buildings building => buildings ++ [building])
            buildings)
        acc
      = acc ++ (rs.map (fun region => region.getBuildings)).flatten := by
  induction rs generalizing acc with
  | nil => simp
  | cons r rs ih =>
    rw [List.foldl_cons, foldl_push_eq_append, ih]
    simp [List.append_assoc]

theorem foldl_provinces_eq_append (acc : List Building) (ps : List Province) :
    ps.foldl
        (fun buildings province =>
          province.getRegions.foldl
            (fun buildings region =>
              region.getBuildings.foldl (fun buildings building => buildings ++ [building])
                buildings)
            buildings)
        acc
      = acc ++ Problem.hierarchyBuildings ps := by
  induction ps generalizing acc with
  | nil => simp [Problem.hierarchyBuildings]
  | cons p ps ih =>
    rw [List.foldl_cons, foldl_regions_eq_append, ih]
    simp [Problem.hierarchyBuildings, List.append_assoc]

theorem getBuildings_result (p : Problem) :
    p.getBuildings.result = .ok (Problem.hierarchyBuildings p.provinces_) := by
  simp only [Problem.getBuildings, foldl_provinces_eq_append, List.nil_append]

theorem addProvinces_loop (acc : Outcome Unit) (h : acc.result = .ok ()) (qs : List Province) :
    (qs.foldl
        (fun acc province =>
          match acc.result with
          | .ok _ => acc.after.addProvince province
          | .error _ => acc)
        acc).result = .ok () ∧
    (qs.foldl
        (fun acc province =>
          match acc.result with
          | .ok _ => acc.after.addProvince province
          | .error _ => acc)
        acc).after.state_ = (if qs.isEmpty then acc.after.state_ else .PROVINCES_ADDED) := by
  induction qs generalizing acc with
  | nil => simp [h]
  | cons q qs ih =>
    have hq := ih (acc.after.addProvince q) rfl
    simp only [List.foldl, h]
    refine ⟨hq.1, ?_⟩
    rw [hq.2]
    cases qs <;> simp [Problem.addProvince]

theorem addProvinces_state (p : Problem) (qs : List Province) :
    (p.addProvinces qs).after.state_ = (if qs.isEmpty then p.state_ else .PROVINCES_ADDED) :=
  (addProvinces_loop { result := .ok (), after := p } rfl qs).2

/-! ## `Problem::solve` and the objective value -/

/-- C1 (the code at the claim's inputs): for every Problem in state
OBJECTIVE_ADDED and every search whose status is not OPTIMAL, `solve(false)`
returns without raising and the state afterwards is SOLVED, not
OBJECTIVE_ADDED. -/
theorem solve_lenient_failure_state (p : Problem) (backend : Backend)
    (hstate : p.state_ = .OBJECTIVE_ADDED)
    (hfail : (p.solver_.solve backend).1 = false) :
    (p.solve backend false).returned = true ∧
    (p.solve backend false).after.state_ = .SOLVED ∧
    (p.solve backend false).after.state_ ≠ .OBJECTIVE_ADDED := by
  simp [Problem.solve, hstate, hfail, Outcome.returned]

/-- C1 at a concrete input: the problem with one province of one building,
objective added, and a search reporting INFEASIBLE. -/
theorem solve_lenient_failure_state_witness :
    farmProblem.state_ = .OBJECTIVE_ADDED ∧
    (farmProblem.solver_.solve infeasibleBackend).1 = false ∧
    (farmProblem.solve infeasibleBackend false).returned = true ∧
    (farmProblem.solve infeasibleBackend false).after.state_ = .SOLVED ∧
    (farmProblem.solve infeasibleBackend false).after.state_ ≠ .OBJECTIVE_ADDED :=
  ⟨by decide, by decide,
    solve_lenient_failure_state farmProblem infeasibleBackend (by decide) (by decide)⟩

/-- C2 (the code at the failing input): after `addProvince`, `addBuildings`,
`addObjective` and `solve(false)` on a fresh Problem with a search reporting
INFEASIBLE, `getObjectiveValue()` returns a number although the most recent
backend solve did not report OPTIMAL. -/
theorem objective_value_observable_after_infeasible :
    (Problem.create.run
        [.addProvince farmProvince, .addBuildings, .addObjective,
         .solve infeasibleBackend false]).getObjectiveValue.result = .ok 0 ∧
    (Problem.create.run
        [.addProvince farmProvince, .addBuildings, .addObjective,
         .solve infeasibleBackend false]).solver_.solver_.lastStatus
      = some ResultStatus.INFEASIBLE := by
  constructor <;> rfl

/-! ## `Problem::addProvince` and the order of the lifecycle -/

/-- C3 (counterexample): on a problem in state BUILDINGS_ADDED,
`addProvince` returns without raising and appends the province. -/
theorem addProvince_after_buildings_accepted :
    (Problem.create.run [.addProvince farmProvince, .addBuildings]).state_
      = .BUILDINGS_ADDED ∧
    ((Problem.create.run [.addProvince farmProvince, .addBuildings]).addProvince
      mineProvince).returned = true ∧
    ((Problem.create.run [.addProvince farmProvince, .addBuildings]).addProvince
      mineProvince).after.provinces_ = [farmProvince, mineProvince] := by
  decide

/-- C3 (amended): for every Problem whose state is BUILDINGS_ADDED,
CONSTRAINTS_ADDED, OBJECTIVE_ADDED or SOLVED and every province,
`addProvince` does not fail: it returns, appends the province at the end of
the collection, leaves the solver as it is and sets the state to
PROVINCES_ADDED. -/
theorem addProvince_never_rejected (p : Problem) (province : Province)
    (_hstate : p.state_ = .BUILDINGS_ADDED ∨ p.state_ = .CONSTRAINTS_ADDED ∨
      p.state_ = .OBJECTIVE_ADDED ∨ p.state_ = .SOLVED) :
    (p.addProvince province).returned = true ∧
    (p.addProvince province).after.provinces_ = p.provinces_ ++ [province] ∧
    (p.addProvince province).after.solver_ = p.solver_ ∧
    (p.addProvince province).after.state_ = .PROVINCES_ADDED := by
  simp [Problem.addProvince, Outcome.returned]

/-- C3 (amended) at a solved problem. -/
theorem addProvince_never_rejected_witness :
    (farmProblem.solve optimalZeroBackend false).after.state_ = .SOLVED ∧
    ((farmProblem.solve optimalZeroBackend false).after.addProvince mineProvince).returned
      = true ∧
    ((farmProblem.solve optimalZeroBackend false).after.addProvince mineProvince).after.provinces_
      = (farmProblem.solve optimalZeroBackend false).after.provinces_ ++ [mineProvince] ∧
    ((farmProblem.solve optimalZeroBackend false).after.addProvince mineProvince).after.solver_
      = (farmProblem.solve optimalZeroBackend false).after.solver_ ∧
    ((farmProblem.solve optimalZeroBackend false).after.addProvince mineProvince).after.state_
      = .PROVINCES_ADDED :=
  ⟨by decide,
    addProvince_never_rejected (farmProblem.solve optimalZeroBackend false).after mineProvince
      (Or.inr (Or.inr (Or.inr (by decide))))⟩

/-- C4 (counterexample): `addProvince` on a SOLVED problem ends in
PROVINCES_ADDED, which is earlier than SOLVED. -/
theorem addProvince_moves_solved_back :
    (farmProblem.solve optimalZeroBackend false).after.state_ = .SOLVED ∧
    ((farmProblem.solve optimalZeroBackend false).after.step
      (.addProvince mineProvince)).state_ = .PROVINCES_ADDED ∧
    ((farmProblem.solve optimalZeroBackend false).after.step
      (.addProvince mineProvince)).state_.rank
      < (farmProblem.solve optimalZeroBackend false).after.state_.rank := by
  decide

/-- C4 (amended): with the states ordered as declared, every operation that
adds no province (addBuildings, addObjective, solve, getBuildings,
getObjectiveValue, addProvinces of an empty list), from every state and whether
it returns or raises, leaves a state that is not earlier than the state
before, and then a SOLVED problem stays SOLVED; an operation that adds a
province (addProvince, addProvinces of a non-empty list) ends in
PROVINCES_ADDED from every state, which is not earlier than the state before
exactly when that state was INIT or PROVINCES_ADDED. -/
theorem lifecycle_monotone_unless_province_added (p : Problem) (op : Problem.Op) :
    (op.addsProvince = false → p.state_.rank ≤ (p.step op).state_.rank) ∧
    (op.addsProvince = false → p.state_ = .SOLVED → (p.step op).state_ = .SOLVED) ∧
    (op.addsProvince = true → (p.step op).state_ = .PROVINCES_ADDED) ∧
    (op.addsProvince = true →
      (p.state_.rank ≤ (p.step op).state_.rank ↔
        (p.state_ = .INIT ∨ p.state_ = .PROVINCES_ADDED))) := by
  obtain ⟨solver, provinces, state⟩ := p
  cases op with
  | addProvince province =>
    cases state <;>
      simp [Problem.step, Problem.addProvince, ProblemState.rank, Problem.Op.addsProvince]
  | addProvinces qs =>
    simp only [Problem.step, addProvinces_state, Problem.Op.addsProvince]
    cases qs with
    | nil => simp
    | cons q qs => cases state <;> simp [ProblemState.rank]
  | addBuildings =>
    cases state <;>
      simp [Problem.step, Problem.addBuildings, ProblemState.rank, Problem.Op.addsProvince]
  | addObjective =>
    cases state <;>
      simp [Problem.step, Problem.addObjective, ProblemState.rank, Problem.Op.addsProvince]
  | solve backend verbose =>
    cases state <;>
      simp [Problem.step, Problem.solve, ProblemState.rank, Problem.Op.addsProvince]
    split_ifs <;> simp [ProblemState.rank]
  | getBuildings => simp [Problem.step, Problem.getBuildings, Problem.Op.addsProvince]
  | getObjectiveValue =>
    cases state <;>
      simp [Problem.step, Problem.getObjectiveValue, ProblemState.rank, Problem.Op.addsProvince]

/-- C4 (amended) at a solved problem: a province is added to it, ending in
PROVINCES_ADDED, which is earlier than SOLVED. -/
theorem lifecycle_monotone_unless_province_added_witness :
    (farmProblem.solve optimalZeroBackend false).after.state_ = .SOLVED ∧
    (Problem.Op.addProvince mineProvince).addsProvince = true ∧
    ((farmProblem.solve optimalZeroBackend false).after.step
      (.addProvince mineProvince)).state_ = .PROVINCES_ADDED ∧
    ¬ ((farmProblem.solve optimalZeroBackend false).after.state_.rank
      ≤ ((farmProblem.solve optimalZeroBackend false).after.step
          (.addProvince mineProvince)).state_.rank) ∧
    (Problem.Op.solve infeasibleBackend true).addsProvince = false ∧
    ((farmProblem.solve optimalZeroBackend false).after.step
      (.solve infeasibleBackend true)).state_ = .SOLVED :=
  ⟨by decide, rfl,
    (lifecycle_monotone_unless_province_added
      (farmProblem.solve optimalZeroBackend false).after
      (.addProvince mineProvince)).2.2.1 rfl,
    fun hle =>
      absurd
        (((lifecycle_monotone_unless_province_added
          (farmProblem.solve optimalZeroBackend false).after
          (.addProvince mineProvince)).2.2.2 rfl).1 hle)
        (by decide),
    rfl,
    (lifecycle_monotone_unless_province_added
      (farmProblem.solve optimalZeroBackend false).after
      (.solve infeasibleBackend true)).2.1 rfl (by decide)⟩

/-! ## `Problem::addBuildings` -/

/-- C5: `addBuildings` returns exactly when the state is PROVINCES_ADDED, and
then only the state changes, to BUILDINGS_ADDED; from every other state it
raises and leaves the whole problem (state, provinces, solver) unchanged; on a
freshly constructed Problem, and on one to which an empty list of provinces
was added, it raises. -/
theorem addBuildings_exactly_from_provinces_added (p : Problem) :
    (p.addBuildings.returned = true ↔ p.state_ = .PROVINCES_ADDED) ∧
    (p.state_ = .PROVINCES_ADDED →
      p.addBuildings.after.state_ = .BUILDINGS_ADDED ∧
      p.addBuildings.after.provinces_ = p.provinces_ ∧
      p.addBuildings.after.solver_ = p.solver_) ∧
    (p.state_ ≠ .PROVINCES_ADDED →
      p.addBuildings.result = .error "Provinces must be added first." ∧
      p.addBuildings.after = p) ∧
    Problem.create.addBuildings.raised = true ∧
    (Problem.create.addProvinces []).after.addBuildings.raised = true := by
  refine ⟨?_, ?_, ?_, by decide, by decide⟩
  · by_cases h : p.state_ = .PROVINCES_ADDED <;>
      simp [Problem.addBuildings, Outcome.returned, h]
  · intro h
    simp [Problem.addBuildings, h]
  · intro h
    simp [Problem.addBuildings, h]

/-- C6 (counterexample): a fresh Problem to which a province with one
building was added is in state PROVINCES_ADDED; `addBuildings` succeeds, but
the solver still has 0 variables for 1 building, and the building returned by
`getBuildings` has a null handle. -/
theorem addBuildings_mints_no_variable :
    (Problem.create.run [.addProvince mineProvince]).state_ = .PROVINCES_ADDED ∧
    (Problem.create.run [.addProvince mineProvince]).addBuildings.returned = true ∧
    (Problem.create.run [.addProvince mineProvince]).addBuildings.after.numVariables = 0 ∧
    (Problem.create.run [.addProvince mineProvince]).addBuildings.after.getBuildings.result
      = .ok [mine] ∧
    mine.getLpVariable = none :=
  ⟨by decide, by decide, by decide, rfl, by decide⟩

/-- C6 (amended): for every Problem in state PROVINCES_ADDED, `addBuildings`
succeeds and mints no variable: `numVariables()` is what it was before the
call (0 when the solver is a fresh one) and `getBuildings()` returns the same
buildings, each with the handle it had before the call. -/
theorem addBuildings_leaves_model_untouched (p : Problem)
    (hstate : p.state_ = .PROVINCES_ADDED) :
    p.addBuildings.returned = true ∧
    p.addBuildings.after.numVariables = p.numVariables ∧
    (p.solver_ = SolverOrTools.create → p.addBuildings.after.numVariables = 0) ∧
    p.addBuildings.after.getBuildings.result = p.getBuildings.result ∧
    (∀ b ∈ Problem.hierarchyBuildings p.addBuildings.after.provinces_,
      b ∈ Problem.hierarchyBuildings p.provinces_) := by
  have hafter : p.addBuildings.after = { p with state_ := .BUILDINGS_ADDED } := by
    simp [Problem.addBuildings, hstate]
  refine ⟨by simp [Problem.addBuildings, hstate, Outcome.returned], ?_, ?_, ?_, ?_⟩
  · rw [hafter]; rfl
  · intro hs
    rw [hafter]
    simp [Problem.numVariables, hs, SolverOrTools.numVariables, SolverOrTools.create,
      MPSolver.create]
  · rw [hafter]; rfl
  · rw [hafter]; exact fun b hb => hb

/-- C6 (amended) at the problem holding one province with one building. -/
theorem addBuildings_leaves_model_untouched_witness :
    (Problem.create.run [.addProvince mineProvince]).addBuildings.returned = true ∧
    (Problem.create.run [.addProvince mineProvince]).addBuildings.after.numVariables
      = (Problem.create.run [.addProvince mineProvince]).numVariables ∧
    ((Problem.create.run [.addProvince mineProvince]).solver_ = SolverOrTools.create →
      (Problem.create.run [.addProvince mineProvince]).addBuildings.after.numVariables = 0) ∧
    (Problem.create.run [.addProvince mineProvince]).addBuildings.after.getBuildings.result
      = (Problem.create.run [.addProvince mineProvince]).getBuildings.result ∧
    (∀ b ∈ Problem.hierarchyBuildings
        (Problem.create.run [.addProvince mineProvince]).addBuildings.after.provinces_,
      b ∈ Problem.hierarchyBuildings
        (Problem.create.run [.addProvince mineProvince]).provinces_) :=
  addBuildings_leaves_model_untouched (Problem.create.run [.addProvince mineProvince])
    (by decide)

/-! ## `Problem::addObjective` -/

/-- C8 (counterexample): on a SOLVED problem whose only building has handle 0
and the value of variable 0 is 0, `getBuildings` returns that building,
although no building has a value above 0.5. -/
theorem getBuildings_returns_unselected_building :
    (farmProblem.solve optimalZeroBackend false).after.state_ = .SOLVED ∧
    farm.getLpVariable = some 0 ∧
    (farmProblem.solve optimalZeroBackend false).after.solver_.getVariableValue 0 = 0 ∧
    (farmProblem.solve optimalZeroBackend false).after.selectedBuildings = [] ∧
    (farmProblem.solve optimalZeroBackend false).after.getBuildings.result = .ok [farm] := by
  have hp : (farmProblem.solve optimalZeroBackend false).after.provinces_ = [farmProvince] := by
    decide
  have hv : (farmProblem.solve optimalZeroBackend false).after.solver_.getVariableValue 0
      = 0 := by
    decide
  refine ⟨by decide, by decide, hv, ?_, rfl⟩
  simp [Problem.selectedBuildings, hp, Problem.hierarchyBuildings, farmProvince,
    Province.addRegion, Province.create, Province.getRegions, Region.getBuildings,
    Region.addBuilding, Region.create, farm, Building.getLpVariable, hv]

/-- C8 (amended): `getBuildings` returns every building of the hierarchy in
hierarchy traversal order (province order, then region order, then building
insertion order), whatever the decision-variable values are: the result does
not depend on the solver, and the buildings whose value exceeds 0.5 form a
sublist of it. -/
theorem getBuildings_returns_whole_hierarchy (p : Problem) :
    p.getBuildings.result = .ok (Problem.hierarchyBuildings p.provinces_) ∧
    (∀ s : SolverOrTools,
      ({ p with solver_ := s } : Problem).getBuildings.result = p.getBuildings.result) ∧
    p.selectedBuildings.Sublist (Problem.hierarchyBuildings p.provinces_) := by
  refine ⟨getBuildings_result p, fun s => ?_, ?_⟩
  · rw [getBuildings_result, getBuildings_result]
  · exact List.filter_sublist _

/-- C9 (counterexample): in state OBJECTIVE_ADDED, which is not SOLVED,
`getBuildings` returns a list. -/
theorem getBuildings_returns_before_solved :
    farmProblem.state_ = .OBJECTIVE_ADDED ∧
    farmProblem.getBuildings.result = .ok [farm] ∧
    Problem.create.getBuildings.result = .ok [] :=
  ⟨by decide, rfl, rfl⟩

/-- C9 (amended): `getBuildings` is valid in every state: for every Problem,
solved or not, it returns a list (the buildings of the hierarchy) without
raising and leaves the problem unchanged. -/
theorem getBuildings_never_raises (p : Problem) :
    p.getBuildings.returned = true ∧
    p.getBuildings.raised = false ∧
    p.getBuildings.after = p := by
  simp [Outcome.returned, Outcome.raised, getBuildings_result, Problem.getBuildings]

/-- C10: `getObjectiveValue` raises if and only if the state is not SOLVED:
in state SOLVED it returns the solver's objective value, in each of the five
other states it raises, and in every case the problem is unchanged. -/
theorem getObjectiveValue_iff_solved (p : Problem) :
    (p.getObjectiveValue.raised = true ↔ p.state_ ≠ .SOLVED) ∧
    (p.state_ = .SOLVED → p.getObjectiveValue.result = .ok p.solver_.getObjectiveValue) ∧
    (p.state_ = .INIT ∨ p.state_ = .PROVINCES_ADDED ∨ p.state_ = .BUILDINGS_ADDED ∨
      p.state_ = .CONSTRAINTS_ADDED ∨ p.state_ = .OBJECTIVE_ADDED →
      p.getObjectiveValue.result = .error "Problem must be solved first.") ∧
    p.getObjectiveValue.after = p := by
  obtain ⟨solver, provinces, state⟩ := p
  cases state <;> simp [Problem.getObjectiveValue, Outcome.raised]

end tw

/-! ## Auxiliary lemmas: coefficient lists and rows -/

theorem modifyRow_id (rows : List MPConstraint) (k : Nat) :
    modifyRow rows k (fun r => r) = rows := by
  induction rows generalizing k with
  | nil => simp [modifyRow]
  | cons r rs ih =>
    cases k with
    | zero => simp [modifyRow]
    | succ k => simp [modifyRow, ih]

theorem modifyRow_modifyRow (rows : List MPConstraint) (k : Nat)
    (f g : MPConstraint → MPConstraint) :
    modifyRow (modifyRow rows k f) k g = modifyRow rows k (fun r => g (f r)) := by
  induction rows generalizing k with
  | nil => simp [modifyRow]
  | cons r rs ih =>
    cases k with
    | zero => simp [modifyRow]
    | succ k => simp [modifyRow, ih]

theorem foldl_modifyRow {β : Type} (l : List β) (h : β → List (Nat × ℚ) → List (Nat × ℚ))
    (k : Nat) (step : MPSolver → β → MPSolver)
    (hstep : ∀ s b, step s b =
      { s with
        constraints :=
          modifyRow s.constraints k (fun r => { r with coefficients := h b r.coefficients }) })
    (s : MPSolver) :
    l.foldl step s =
      { s with
        constraints :=
          modifyRow s.constraints k
            (fun r => { r with coefficients := l.foldl (fun cs b => h b cs) r.coefficients }) } := by
  induction l generalizing s with
  | nil =>
    simp only [List.foldl_nil]
    exact (congrArg (fun rows => { s with constraints := rows }) (modifyRow_id s.constraints k)).symm
  | cons b l ih =>
    rw [List.foldl_cons, ih, hstep]
    simp only [modifyRow_modifyRow, List.foldl_cons]

theorem setCoefficient_fresh (cs : List (Nat × ℚ)) (v : Nat) (c : ℚ)
    (h : v ∉ cs.map Prod.fst) : setCoefficient cs v c = cs ++ [(v, c)] := by
  unfold setCoefficient
  congr 1
  rw [List.filter_eq_self]
  intro e he
  have : e.1 ≠ v := fun hv => h (hv ▸ List.mem_map_of_mem Prod.fst he)
  simpa using this

theorem foldl_setCoefficient_fresh {β : Type} (key : β → Nat) (val : β → ℚ) (p : β → Bool)
    (l : List β) (hnd : (l.map key).Nodup) (cs : List (Nat × ℚ))
    (hcs : ∀ b ∈ l, key b ∉ cs.map Prod.fst) :
    l.foldl (fun cs b => if p b then setCoefficient cs (key b) (val b) else cs) cs
      = cs ++ (l.filter p).map (fun b => (key b, val b)) := by
  induction l generalizing cs with
  | nil => simp
  | cons b l ih =>
    rw [List.map_cons, List.nodup_cons] at hnd
    rw [List.foldl_cons]
    by_cases hp : p b = true
    · rw [if_pos hp, setCoefficient_fresh cs _ _ (hcs b (List.mem_cons_self _ _)), ih hnd.2]
      · simp [List.filter_cons, hp]
      · intro b' hb'
        rw [List.map_append, List.mem_append]
        rintro (h | h)
        · exact hcs b' (List.mem_cons_of_mem _ hb') h
        · have : key b' = key b := by simpa using h
          exact hnd.1 (this ▸ List.mem_map_of_mem key hb')
    · rw [if_neg hp, ih hnd.2 cs (fun b' hb' => hcs b' (List.mem_cons_of_mem _ hb'))]
      simp [List.filter_cons, hp]

namespace smite

open GodBuilder

/-! ## Auxiliary lemmas: the model built by `optimizeBuild` -/

theorem createItemVars_eq (name : String) (n : Nat) :
    createItemVars (MPSolver.create name) n
      = ({ MPSolver.create name with variables_ := (List.range n).map itemVar }, List.range n) := by
  induction n with
  | zero => rfl
  | succ n ih =>
    unfold createItemVars at ih ⊢
    rw [List.range_succ, List.foldl_append, ih]
    simp [MPSolver.MakeBoolVar, itemVar, MPSolver.create]

theorem foldl_row_ones (vars : List Nat) (k : Nat) (s : MPSolver) :
    vars.foldl (fun solver var => solver.SetCoefficient k var 1) s =
      { s with
        constraints :=
          modifyRow s.constraints k
            (fun r =>
              { r with
                coefficients := vars.foldl (fun cs v => setCoefficient cs v 1) r.coefficients }) } :=
  foldl_modifyRow vars (fun v cs => setCoefficient cs v 1) k _ (fun _ _ => rfl) s

theorem foldl_row_starters (es : List (Nat × Item)) (k : Nat) (s : MPSolver) :
    es.foldl
        (fun solver (entry : Nat × Item) =>
          if entry.2.isStarter then solver.SetCoefficient k entry.1 1 else solver) s =
      { s with
        constraints :=
          modifyRow s.constraints k
            (fun r =>
              { r with
                coefficients :=
                  es.foldl
                    (fun cs (e : Nat × Item) =>
                      if e.2.isStarter then setCoefficient cs e.1 1 else cs)
                    r.coefficients }) } := by
  refine foldl_modifyRow es
    (fun (e : Nat × Item) cs => if e.2.isStarter then setCoefficient cs e.1 1 else cs) k _ ?_ s
  intro s e
  by_cases h : e.2.isStarter = true
  · simp only [h, if_true]; rfl
  · simp only [h, if_false]
    exact (congrArg (fun rows => { s with constraints := rows })
      (modifyRow_id s.constraints k)).symm

theorem foldl_objective (god : God) (es : List (Nat × Item)) (s : MPSolver) :
    es.foldl
        (fun solver (entry : Nat × Item) =>
          solver.SetObjectiveCoefficient entry.1 (coefficient god entry.2)) s =
      { s with
        objective :=
          { s.objective with
            coefficients :=
              es.foldl (fun cs (e : Nat × Item) => setCoefficient cs e.1 (coefficient god e.2))
                s.objective.coefficients } } := by
  induction es generalizing s with
  | nil => rfl
  | cons e es ih =>
    rw [List.foldl_cons, ih]
    rfl

theorem coefficients_ones (n : Nat) :
    (List.range n).foldl (fun cs v => setCoefficient cs v 1) []
      = (List.range n).map (fun i => ((i, 1) : Nat × ℚ)) := by
  have h := foldl_setCoefficient_fresh (fun v : Nat => v) (fun _ => (1 : ℚ)) (fun _ => true)
    (List.range n) (by simpa using List.nodup_range n) [] (by simp)
  simpa using h

theorem coefficients_starters (pool : List Item) :
    pool.enum.foldl
        (fun cs (e : Nat × Item) => if e.2.isStarter then setCoefficient cs e.1 1 else cs) []
      = (pool.enum.filter (fun e => e.2.isStarter)).map (fun e => ((e.1, 1) : Nat × ℚ)) := by
  have h := foldl_setCoefficient_fresh (fun e : Nat × Item => e.1) (fun _ => (1 : ℚ))
    (fun e => e.2.isStarter) pool.enum
    (by rw [List.enum_map_fst]; exact List.nodup_range _) [] (by simp)
  simpa using h

theorem coefficients_objective (god : God) (pool : List Item) :
    pool.enum.foldl
        (fun cs (e : Nat × Item) => setCoefficient cs e.1 (coefficient god e.2)) []
      = pool.enum.map (fun e => ((e.1, coefficient god e.2) : Nat × ℚ)) := by
  have h := foldl_setCoefficient_fresh (fun e : Nat × Item => e.1)
    (fun e => coefficient god e.2) (fun _ => true) pool.enum
    (by rw [List.enum_map_fst]; exact List.nodup_range _) [] (by simp)
  simpa using h

theorem buildModel_eq (god : God) (pool : List Item) :
    buildModel god pool = (closedModel god pool, List.range pool.length) := by
  unfold buildModel
  simp only [createItemVars_eq, foldl_row_ones, foldl_row_starters, foldl_objective,
    ← List.enum_eq_zip_range]
  simp [MPSolver.MakeRowConstraint, MPSolver.create, modifyRow, MPSolver.SetMaximization,
    coefficients_ones, coefficients_starters, coefficients_objective, closedModel]

theorem extractSelection_foldl (solver : MPSolver) (es : List (Nat × Item)) (acc : List Item) :
    es.foldl
        (fun selected_items (entry : Nat × Item) =>
          if solver.solution_value entry.1 > 1 / 2 then selected_items ++ [entry.2]
          else selected_items)
        acc
      = acc ++ (es.filter (fun e => decide (solver.solution_value e.1 > 1 / 2))).map Prod.snd := by
  induction es generalizing acc with
  | nil => simp
  | cons e es ih =>
    rw [List.foldl_cons, ih]
    by_cases h : solver.solution_value e.1 > 1 / 2
    · simp only [List.filter_cons, h, if_true, decide_True, List.map_cons, List.append_assoc,
        List.singleton_append]
    · simp only [List.filter_cons, h, if_false, decide_False, Bool.false_eq_true]

theorem extractSelection_eq (solver : MPSolver) (pool : List Item) :
    extractSelection solver pool (List.range pool.length)
      = (pool.enum.filter (fun e => decide (solver.solution_value e.1 > 1 / 2))).map Prod.snd := by
  unfold extractSelection
  rw [← List.enum_eq_zip_range, extractSelection_foldl]
  simp

end smite

namespace tw

/-! ## `Problem::solve`, `Problem::addObjective`, `Problem::addProvinces` -/

theorem addProvinces_loop_provinces (acc : Outcome Unit) (h : acc.result = .ok ())
    (qs : List Province) :
    (qs.foldl
        (fun acc province =>
          match acc.result with
          | .ok _ => acc.after.addProvince province
          | .error _ => acc)
        acc).after.provinces_ = acc.after.provinces_ ++ qs ∧
    (qs.foldl
        (fun acc province =>
          match acc.result with
          | .ok _ => acc.after.addProvince province
          | .error _ => acc)
        acc).after.solver_ = acc.after.solver_ := by
  induction qs generalizing acc with
  | nil => simp
  | cons q qs ih =>
    have hq := ih (acc.after.addProvince q) rfl
    simp only [List.foldl, h]
    refine ⟨?_, ?_⟩
    · rw [hq.1]; simp [Problem.addProvince]
    · rw [hq.2]; simp [Problem.addProvince]

/-- C11: for every Problem in state OBJECTIVE_ADDED, if the backend reports
OPTIMAL then `solve(verbose)` returns and ends in state SOLVED for both values
of `verbose`; if the backend reports another status and `verbose` is true,
`solve` raises and the state remains OBJECTIVE_ADDED. -/
theorem solve_strict_path (p : Problem) (backend : Backend)
    (hstate : p.state_ = .OBJECTIVE_ADDED) :
    ((backend p.solver_.solver_).status = .OPTIMAL →
      ∀ verbose, (p.solve backend verbose).returned = true ∧
        (p.solve backend verbose).after.state_ = .SOLVED) ∧
    ((backend p.solver_.solver_).status ≠ .OPTIMAL →
      (p.solve backend true).result = .error "Failed to solve the problem." ∧
      (p.solve backend true).after.state_ = .OBJECTIVE_ADDED) := by
  refine ⟨fun h verbose => ?_, fun h => ?_⟩
  · simp [Problem.solve, hstate, SolverOrTools.solve, MPSolver.Solve, h, Outcome.returned]
  · simp [Problem.solve, hstate, SolverOrTools.solve, MPSolver.Solve, h]

/-- C11 at the problem with one building whose objective was added. -/
theorem solve_strict_path_witness :
    ((optimalZeroBackend farmProblem.solver_.solver_).status = .OPTIMAL →
      ∀ verbose, (farmProblem.solve optimalZeroBackend verbose).returned = true ∧
        (farmProblem.solve optimalZeroBackend verbose).after.state_ = .SOLVED) ∧
    ((optimalZeroBackend farmProblem.solver_.solver_).status ≠ .OPTIMAL →
      (farmProblem.solve optimalZeroBackend true).result
        = .error "Failed to solve the problem." ∧
      (farmProblem.solve optimalZeroBackend true).after.state_ = .OBJECTIVE_ADDED) :=
  solve_strict_path farmProblem optimalZeroBackend (by decide)

/-- C12: `addObjective` returns exactly when the state is CONSTRAINTS_ADDED or
BUILDINGS_ADDED, and then the state is OBJECTIVE_ADDED; from every other state
it raises and the problem, solver included, is unchanged. `solve` called from
a state other than OBJECTIVE_ADDED raises and leaves the problem, solver
included, unchanged whatever the backend would report; from OBJECTIVE_ADDED
the solver afterwards is the one on which the backend ran. -/
theorem addObjective_solve_out_of_order (p : Problem) :
    (p.addObjective.returned = true ↔
      (p.state_ = .CONSTRAINTS_ADDED ∨ p.state_ = .BUILDINGS_ADDED)) ∧
    (p.addObjective.returned = true → p.addObjective.after.state_ = .OBJECTIVE_ADDED) ∧
    (p.addObjective.returned = false →
      p.addObjective.result = .error "Constraints must be added first." ∧
      p.addObjective.after = p) ∧
    (∀ backend verbose, p.state_ ≠ .OBJECTIVE_ADDED →
      (p.solve backend verbose).result = .error "Objective must be added first." ∧
      (p.solve backend verbose).after = p) ∧
    (∀ backend verbose, p.state_ = .OBJECTIVE_ADDED →
      (p.solve backend verbose).after.solver_ = (p.solver_.solve backend).2) := by
  obtain ⟨solver, provinces, state⟩ := p
  refine ⟨?_, ?_, ?_, ?_, ?_⟩
  · cases state <;> simp [Problem.addObjective, Outcome.returned]
  · cases state <;> simp [Problem.addObjective, Outcome.returned]
  · cases state <;> simp [Problem.addObjective, Outcome.returned]
  · intro backend verbose h
    simp [Problem.solve, h]
  · intro backend verbose h
    have hs : state = .OBJECTIVE_ADDED := h
    subst hs
    simp only [Problem.solve, ne_eq, not_true_eq_false, if_false]
    split_ifs <;> rfl

/-- C13 (counterexample): `addProvinces` of the empty list on a fresh Problem
leaves the state INIT. -/
theorem addProvinces_empty_keeps_init :
    Problem.create.state_ = .INIT ∧
    (Problem.create.addProvinces []).returned = true ∧
    (Problem.create.addProvinces []).after.state_ = .INIT ∧
    (Problem.create.addProvinces []).after.state_ ≠ .PROVINCES_ADDED := by
  decide

/-- C13 (amended): for every Problem in state INIT or PROVINCES_ADDED with
province collection ps, `addProvince(p)` yields collection ps ++ [p] and state
PROVINCES_ADDED, and for every list qs `addProvinces(qs)` returns and yields
collection ps ++ qs, with state PROVINCES_ADDED when qs is not empty and the
state unchanged when qs is empty. -/
theorem addProvinces_appends (p : Problem) (q : Province) (qs : List Province)
    (_hstate : p.state_ = .INIT ∨ p.state_ = .PROVINCES_ADDED) :
    (p.addProvince q).returned = true ∧
    (p.addProvince q).after.provinces_ = p.provinces_ ++ [q] ∧
    (p.addProvince q).after.state_ = .PROVINCES_ADDED ∧
    (p.addProvinces qs).returned = true ∧
    (p.addProvinces qs).after.provinces_ = p.provinces_ ++ qs ∧
    (qs ≠ [] → (p.addProvinces qs).after.state_ = .PROVINCES_ADDED) ∧
    (qs = [] → (p.addProvinces qs).after.state_ = p.state_) := by
  refine ⟨rfl, rfl, rfl, ?_, ?_, ?_, ?_⟩
  · have h := (addProvinces_loop { result := .ok (), after := p } rfl qs).1
    simp only [Problem.addProvinces, Outcome.returned, h]
  · exact (addProvinces_loop_provinces { result := .ok (), after := p } rfl qs).1
  · intro h
    rw [addProvinces_state]
    cases qs with
    | nil => exact absurd rfl h
    | cons q qs => simp
  · intro h
    rw [addProvinces_state, h]
    simp

/-- C13 (amended) at a fresh Problem to which two provinces are added. -/
theorem addProvinces_appends_witness :
    (Problem.create.addProvince farmProvince).returned = true ∧
    (Problem.create.addProvince farmProvince).after.provinces_
      = Problem.create.provinces_ ++ [farmProvince] ∧
    (Problem.create.addProvince farmProvince).after.state_ = .PROVINCES_ADDED ∧
    (Problem.create.addProvinces [farmProvince, mineProvince]).returned = true ∧
    (Problem.create.addProvinces [farmProvince, mineProvince]).after.provinces_
      = Problem.create.provinces_ ++ [farmProvince, mineProvince] ∧
    ([farmProvince, mineProvince] ≠ [] →
      (Problem.create.addProvinces [farmProvince, mineProvince]).after.state_
        = .PROVINCES_ADDED) ∧
    ([farmProvince, mineProvince] = [] →
      (Problem.create.addProvinces [farmProvince, mineProvince]).after.state_
        = Problem.create.state_) :=
  addProvinces_appends Problem.create farmProvince [farmProvince, mineProvince]
    (Or.inl rfl)

end tw

namespace smite

open GodBuilder

/-! ## Auxiliary lemmas: what `optimizeBuild` returns -/

theorem dereferenced_map_some (pool : List Item) :
    dereferenced (pool.map some) = some pool := by
  induction pool with
  | nil => rfl
  | cons item pool ih => simp [dereferenced, ih]

theorem chosenItems_eq (solver : MPSolver) (pool : List Item) :
    extractSelection solver pool (List.range pool.length) = chosenItems solver.solution pool := by
  rw [extractSelection_eq]
  rfl

theorem optimizeBuild_eq (god : God) (pool : List Item) (backend : Backend) :
    GodBuilder.optimizeBuild { god_ := god, available_items_ := pool.map some } backend =
      .ok
        (if pool.length < 6 then none
         else if (backend (closedModel god pool)).status ≠ ResultStatus.OPTIMAL then none
         else if (chosenItems (backend (closedModel god pool)).values pool).length ≠ 6 then none
         else
           some
             (makeBuild (chosenItems (backend (closedModel god pool)).values pool),
              GodBuilder.calculateDps { god_ := god, available_items_ := pool.map some }
                ((chosenItems (backend (closedModel god pool)).values pool).map some))) := by
  unfold GodBuilder.optimizeBuild GodBuilder.optimizeBuildRun
  simp only [List.length_map, dereferenced_map_some, buildModel_eq, chosenItems_eq,
    MPSolver.Solve]
  by_cases h6 : pool.length < 6
  · simp [h6]
  · by_cases hs : (backend (closedModel god pool)).status = ResultStatus.OPTIMAL
    · by_cases hc : (chosenItems (backend (closedModel god pool)).values pool).length = 6
      · simp [h6, hs, hc]
      · simp [h6, hs, hc]
    · simp [h6, hs]

theorem makeBuild_of_six (chosen : List Item) (h : chosen.length = 6) :
    (makeBuild chosen).countItems = 6 ∧ (makeBuild chosen).slots = chosen.map some := by
  match chosen, h with
  | [a, b, c, d, e, f], _ => exact ⟨rfl, rfl⟩

theorem calculateDps_foldl (god : God) (items : List (Option Item)) (power speed : ℚ) :
    items.foldl
        (fun (totals : ℚ × ℚ) item =>
          match item with
          | some item =>
            ((if god.getPowerType = PowerType.PHYSICAL then
                totals.1 + item.getStats.power_physical
              else totals.1 + item.getStats.power_magical),
             totals.2 + item.getStats.basic_attack_speed)
          | none => totals)
        (power, speed)
      = (power + ((items.filterMap id).map (fun item => relevantPower god item.stats_)).sum,
         speed + ((items.filterMap id).map (fun item => item.stats_.basic_attack_speed)).sum) := by
  induction items generalizing power speed with
  | nil => simp
  | cons item items ih =>
    cases item with
    | none => simpa using ih power speed
    | some item =>
      rw [List.foldl_cons]
      simp only [ih]
      cases hp : god.power_type_ <;>
        simp [God.getPowerType, relevantPower, hp, Item.getStats, add_assoc]

theorem calculateDps_eq (builder : GodBuilder) (items : List (Option Item)) :
    builder.calculateDps items = exactMetric builder.god_ (items.filterMap id) := by
  unfold GodBuilder.calculateDps exactMetric
  simp only [calculateDps_foldl]
  cases hp : builder.god_.power_type_ <;>
    simp [God.getPowerType, God.getStats, relevantPower, hp]

theorem getCoefficient_of_mem (cs : List (Nat × ℚ)) (hnd : (cs.map Prod.fst).Nodup)
    (v : Nat) (c : ℚ) (h : (v, c) ∈ cs) : getCoefficient cs v = c := by
  induction cs with
  | nil => cases h
  | cons e cs ih =>
    rw [List.map_cons, List.nodup_cons] at hnd
    unfold getCoefficient
    by_cases hv : e.1 = v
    · rw [List.find?_cons_of_pos _ (by simpa using hv)]
      rcases List.mem_cons.1 h with h | h
      · rw [← h]
      · exact absurd (hv ▸ List.mem_map_of_mem Prod.fst h) hnd.1
    · rw [List.find?_cons_of_neg _ (by simpa using hv)]
      rcases List.mem_cons.1 h with h | h
      · exact absurd (by rw [← h]) hv
      · exact ih hnd.2 h

theorem getCoefficient_of_not_mem (cs : List (Nat × ℚ)) (v : Nat)
    (h : v ∉ cs.map Prod.fst) : getCoefficient cs v = 0 := by
  unfold getCoefficient
  have : cs.find? (fun e => decide (e.1 = v)) = none := by
    rw [List.find?_eq_none]
    intro e he hv
    exact h (by simpa using ⟨e.2, (of_decide_eq_true hv) ▸ he⟩)
  rw [this]

theorem coefficient_row_ones (n i : Nat) :
    getCoefficient ((List.range n).map (fun i => ((i, 1) : Nat × ℚ))) i
      = if i < n then 1 else 0 := by
  have hkeys : ((List.range n).map (fun i => ((i, 1) : Nat × ℚ))).map Prod.fst
      = List.range n := by
    rw [List.map_map]
    exact List.map_id _
  by_cases h : i < n
  · rw [if_pos h]
    exact getCoefficient_of_mem _ (by rw [hkeys]; exact List.nodup_range n) i 1
      (List.mem_map.2 ⟨i, List.mem_range.2 h, rfl⟩)
  · rw [if_neg h]
    exact getCoefficient_of_not_mem _ i (by rw [hkeys, List.mem_range]; exact h)

theorem coefficient_row_starters (pool : List Item) (i : Nat) :
    getCoefficient
        ((pool.enum.filter (fun e => e.2.isStarter)).map (fun e => ((e.1, 1) : Nat × ℚ))) i
      = if starterAt pool i = true then 1 else 0 := by
  have hnd : (((pool.enum.filter (fun e => e.2.isStarter)).map
      (fun e => ((e.1, 1) : Nat × ℚ))).map Prod.fst).Nodup := by
    rw [List.map_map]
    have hsub : ((pool.enum.filter (fun e => e.2.isStarter)).map Prod.fst).Sublist
        (pool.enum.map Prod.fst) := (List.filter_sublist _).map _
    rw [List.enum_map_fst] at hsub
    exact (List.nodup_range _).sublist hsub
  unfold starterAt
  cases hitem : pool[i]? with
  | none =>
    simp only [Bool.false_eq_true, if_false]
    apply getCoefficient_of_not_mem
    intro hmem
    simp only [List.map_map, List.mem_map, List.mem_filter] at hmem
    obtain ⟨e, ⟨he, _⟩, hei⟩ := hmem
    have := List.mk_mem_enum_iff_getElem?.1 (show (e.1, e.2) ∈ pool.enum from he)
    simp only [Function.comp] at hei
    rw [hei, hitem] at this
    cases this
  | some item =>
    have hmem : (i, item) ∈ pool.enum := List.mk_mem_enum_iff_getElem?.2 hitem
    by_cases hs : item.isStarter = true
    · simp only [hs, if_true]
      exact getCoefficient_of_mem _ hnd i 1
        (List.mem_map.2 ⟨(i, item), List.mem_filter.2 ⟨hmem, hs⟩, rfl⟩)
    · simp only [hs, if_false]
      apply getCoefficient_of_not_mem
      intro hm
      simp only [List.map_map, List.mem_map, List.mem_filter] at hm
      obtain ⟨e, ⟨he, hes⟩, hei⟩ := hm
      have := List.mk_mem_enum_iff_getElem?.1 (show (e.1, e.2) ∈ pool.enum from he)
      simp only [Function.comp] at hei
      rw [hei, hitem] at this
      exact hs ((Option.some.inj this) ▸ hes)

theorem coefficient_objective (god : God) (pool : List Item) (i : Nat) :
    getCoefficient (pool.enum.map (fun e => ((e.1, coefficient god e.2) : Nat × ℚ))) i
      = coefficientAt god pool i := by
  have hnd : ((pool.enum.map (fun e => ((e.1, coefficient god e.2) : Nat × ℚ))).map
      Prod.fst).Nodup := by
    rw [List.map_map]
    have : (Prod.fst ∘ fun e : Nat × Item => ((e.1, coefficient god e.2) : Nat × ℚ))
        = Prod.fst := rfl
    rw [this, List.enum_map_fst]
    exact List.nodup_range _
  unfold coefficientAt
  cases hitem : pool[i]? with
  | none =>
    apply getCoefficient_of_not_mem
    intro hmem
    simp only [List.map_map, List.mem_map] at hmem
    obtain ⟨e, he, hei⟩ := hmem
    have := List.mk_mem_enum_iff_getElem?.1 (show (e.1, e.2) ∈ pool.enum from he)
    simp only [Function.comp] at hei
    rw [hei, hitem] at this
    cases this
  | some item =>
    exact getCoefficient_of_mem _ hnd i _
      (List.mem_map.2 ⟨(i, item), List.mk_mem_enum_iff_getElem?.2 hitem, rfl⟩)

theorem optimizeBuild_some (god : God) (pool : List Item) (backend : Backend)
    (build : Build) (dps : ℚ)
    (h : GodBuilder.optimizeBuild { god_ := god, available_items_ := pool.map some } backend
      = .ok (some (build, dps))) :
    6 ≤ pool.length ∧
    (backend (closedModel god pool)).status = ResultStatus.OPTIMAL ∧
    (chosenItems (backend (closedModel god pool)).values pool).length = 6 ∧
    build = makeBuild (chosenItems (backend (closedModel god pool)).values pool) ∧
    dps = exactMetric god (chosenItems (backend (closedModel god pool)).values pool) := by
  rw [optimizeBuild_eq] at h
  by_cases h6 : pool.length < 6
  · simp [h6] at h
  · by_cases hs : (backend (closedModel god pool)).status = ResultStatus.OPTIMAL
    · by_cases hc : (chosenItems (backend (closedModel god pool)).values pool).length = 6
      · simp only [h6, hs, hc, if_false, ne_eq, not_true_eq_false, Except.ok.injEq,
          Option.some.injEq, Prod.mk.injEq] at h
        refine ⟨Nat.le_of_not_lt h6, hs, hc, h.1.symm, ?_⟩
        rw [← h.2, calculateDps_eq]
        simp
      · simp [h6, hs, hc] at h
    · simp [h6, hs] at h

theorem closedModel_respectsVariable (god : God) (pool : List Item) (x : List ℚ) (i : Nat)
    (hi : i < pool.length) :
    (closedModel god pool).respectsVariable x i ↔
      (0 ≤ x.getD i 0 ∧ x.getD i 0 ≤ 1 ∧ (x.getD i 0).den = 1) := by
  simp [MPSolver.respectsVariable, closedModel, List.getElem?_map, List.getElem?_range hi,
    itemVar]

theorem closedModel_feasible_iff (god : God) (pool : List Item) (x : List ℚ) :
    (closedModel god pool).Feasible x ↔
      (x.length = pool.length ∧
       (∀ i, i < pool.length → 0 ≤ x.getD i 0 ∧ x.getD i 0 ≤ 1 ∧ (x.getD i 0).den = 1) ∧
       Finset.sum (Finset.range pool.length) (fun i => x.getD i 0) = 6 ∧
       0 ≤ Finset.sum (Finset.range pool.length)
            (fun i => if starterAt pool i = true then x.getD i 0 else 0) ∧
       Finset.sum (Finset.range pool.length)
            (fun i => if starterAt pool i = true then x.getD i 0 else 0) ≤ 1) := by
  have hn : (closedModel god pool).variables_.length = pool.length := by
    simp [closedModel]
  have hrow1 : (closedModel god pool).activity
      ((List.range pool.length).map (fun i => ((i, 1) : Nat × ℚ))) x
        = Finset.sum (Finset.range pool.length) (fun i => x.getD i 0) := by
    unfold MPSolver.activity
    rw [hn]
    apply Finset.sum_congr rfl
    intro i hi
    rw [coefficient_row_ones, if_pos (Finset.mem_range.1 hi), one_mul]
  have hrow2 : (closedModel god pool).activity
      ((pool.enum.filter (fun e => e.2.isStarter)).map (fun e => ((e.1, 1) : Nat × ℚ))) x
        = Finset.sum (Finset.range pool.length)
            (fun i => if starterAt pool i = true then x.getD i 0 else 0) := by
    unfold MPSolver.activity
    rw [hn]
    apply Finset.sum_congr rfl
    intro i _
    rw [coefficient_row_starters]
    split_ifs <;> simp
  unfold MPSolver.Feasible
  rw [hn]
  constructor
  · rintro ⟨hlen, hvars, hrows⟩
    have h1 := hrows _ (show _ ∈ (closedModel god pool).constraints from
      List.mem_cons_self _ _)
    have h2 := hrows _ (show _ ∈ (closedModel god pool).constraints from
      List.mem_cons_of_mem _ (List.mem_cons_self _ _))
    simp only [hrow1, hrow2] at h1 h2
    exact ⟨hlen, fun i hi => (closedModel_respectsVariable god pool x i hi).1 (hvars i hi),
      le_antisymm h1.2 h1.1, h2.1, h2.2⟩
  · rintro ⟨hlen, hvars, h6, h0, h1⟩
    refine ⟨hlen, fun i hi => (closedModel_respectsVariable god pool x i hi).2 (hvars i hi),
      ?_⟩
    intro r hr
    simp only [closedModel, List.mem_cons, List.mem_singleton, List.not_mem_nil, or_false] at hr
    rcases hr with hr | hr
    · subst hr
      simp only [hrow1, h6, le_refl, and_self]
    · subst hr
      simp only [hrow2]
      exact ⟨h0, h1⟩

theorem closedModel_objectiveAt (god : God) (pool : List Item) (x : List ℚ) :
    (closedModel god pool).objectiveAt x
      = Finset.sum (Finset.range pool.length)
          (fun i => coefficientAt god pool i * x.getD i 0) := by
  unfold MPSolver.objectiveAt MPSolver.activity
  have hn : (closedModel god pool).variables_.length = pool.length := by
    simp [closedModel]
  rw [hn]
  apply Finset.sum_congr rfl
  intro i _
  simp only [closedModel, coefficient_objective]

theorem filter_chosen_length (x : List ℚ) (pool : List Item) (r : Item → Bool) :
    ((chosenItems x pool).filter r).length
      = (Finset.filter
          (fun i => x.getD i 0 > 1 / 2 ∧
            (match pool[i]? with
             | some item => r item
             | none => false) = true)
          (Finset.range pool.length)).card := by
  have hcard : ∀ (P : Nat → Prop) [DecidablePred P],
      (Finset.filter P (Finset.range pool.length)).card
        = ((List.range pool.length).filter (fun i => decide (P i))).length := fun _ _ => rfl
  rw [hcard, ← List.enum_map_fst, List.filter_map, List.length_map]
  unfold chosenItems
  rw [List.filter_map, List.length_map, List.filter_filter]
  congr 1
  apply List.filter_congr
  intro e he
  have hget : pool[e.1]? = some e.2 :=
    List.mk_mem_enum_iff_getElem?.1 (show (e.1, e.2) ∈ pool.enum from he)
  simp [hget, Bool.and_comm]

theorem starterCount_makeBuild (chosen : List Item) (h : chosen.length = 6) :
    starterCount (makeBuild chosen) = (chosen.filter Item.isStarter).length := by
  unfold starterCount
  rw [(makeBuild_of_six chosen h).2, List.filter_map, List.length_map]
  rfl

/-! ## Auxiliary lemmas: the pools of the test -/

theorem flaggedPool_getElem? (starters : List Nat) (i : Nat) (hi : i < 10) :
    (flaggedPool starters)[i]?
      = some { testItem i with is_starter_ := starters.contains i } := by
  simp [flaggedPool, List.getElem?_map, List.getElem?_range hi]

theorem flaggedPool_starterAt (starters : List Nat) (i : Nat) (hi : i < 10) :
    starterAt (flaggedPool starters) i = starters.contains i := by
  simp [starterAt, flaggedPool_getElem? starters i hi, Item.isStarter]

theorem flaggedPool_coefficientAt (starters : List Nat) (i : Nat) (hi : i < 10) :
    coefficientAt testGod (flaggedPool starters) i = 25 + 6 * (i : ℚ) := by
  simp only [coefficientAt, flaggedPool_getElem? starters i hi, coefficient, testGod, testItem,
    God.getPowerType, Item.getStats, if_true]
  ring

theorem flaggedPool_chosen_substituted (starters : List Nat) :
    chosenItems substitutedSix (flaggedPool starters)
      = [3, 4, 5, 6, 7, 9].map
          (fun i => { testItem i with is_starter_ := starters.contains i }) := by
  simp [chosenItems, substitutedSix, flaggedPool, List.range, List.range.loop, List.enum,
    List.enumFrom]
  norm_num

theorem flaggedPool_chosen_topSix (starters : List Nat) :
    chosenItems topSixOfTen (flaggedPool starters)
      = [4, 5, 6, 7, 8, 9].map
          (fun i => { testItem i with is_starter_ := starters.contains i }) := by
  simp [chosenItems, topSixOfTen, flaggedPool, List.range, List.range.loop, List.enum,
    List.enumFrom]
  norm_num

theorem testPool_eq_flaggedPool : testPool = flaggedPool [] := by
  simp [testPool, flaggedPool, testItem]

theorem binary_values (x : List ℚ) (hx : ∀ v ∈ x, v = 0 ∨ v = 1) (i : Nat) :
    0 ≤ x.getD i 0 ∧ x.getD i 0 ≤ 1 ∧ (x.getD i 0).den = 1 := by
  have h : x.getD i 0 = 0 ∨ x.getD i 0 = 1 := by
    rcases Nat.lt_or_ge i x.length with hi | hi
    · rw [List.getD_eq_getElem _ _ hi]
      exact hx _ (List.getElem_mem _)
    · left
      rw [List.getD_eq_default _ _ hi]
  rcases h with h | h <;> rw [h] <;> simp

theorem substitutedSix_feasible :
    (closedModel testGod (flaggedPool [8, 9])).Feasible substitutedSix := by
  rw [closedModel_feasible_iff]
  have hlen : (flaggedPool [8, 9]).length = 10 := by simp [flaggedPool]
  rw [hlen]
  refine ⟨rfl, fun i _ => binary_values _ (by simp [substitutedSix]) i, ?_, ?_, ?_⟩
  · simp [Finset.sum_range_succ, substitutedSix]
    norm_num
  · simp [Finset.sum_range_succ, substitutedSix, flaggedPool_starterAt]
  · simp [Finset.sum_range_succ, substitutedSix, flaggedPool_starterAt]

theorem optimizeBuild_of_optimal (god : God) (pool : List Item) (backend : Backend)
    (h6 : 6 ≤ pool.length)
    (hs : (backend (closedModel god pool)).status = ResultStatus.OPTIMAL)
    (hc : (chosenItems (backend (closedModel god pool)).values pool).length = 6) :
    GodBuilder.optimizeBuild { god_ := god, available_items_ := pool.map some } backend
      = .ok (some (makeBuild (chosenItems (backend (closedModel god pool)).values pool),
          exactMetric god (chosenItems (backend (closedModel god pool)).values pool))) := by
  rw [optimizeBuild_eq, calculateDps_eq]
  simp [Nat.not_lt.2 h6, hs, hc]

theorem substituted_result :
    GodBuilder.optimizeBuild
        { god_ := testGod, available_items_ := (flaggedPool [8, 9]).map some }
        (optimalBackend 0 substitutedSix)
      = .ok (some (makeBuild (chosenItems substitutedSix (flaggedPool [8, 9])),
          exactMetric testGod (chosenItems substitutedSix (flaggedPool [8, 9])))) :=
  optimizeBuild_of_optimal testGod (flaggedPool [8, 9]) (optimalBackend 0 substitutedSix)
    (by simp [flaggedPool]) rfl
    (by
      show (chosenItems substitutedSix (flaggedPool [8, 9])).length = 6
      rw [flaggedPool_chosen_substituted]
      rfl)

/-! ## `GodBuilder::optimizeBuild` -/

/-- C14: for every god and every candidate pool with fewer than 6 entries
(null or not), `optimizeBuild` returns no result whatever the backend is, and
no solver was constructed. -/
theorem optimizeBuild_small_pool (builder : GodBuilder) (backend : Backend)
    (hsize : builder.available_items_.length < 6) :
    builder.optimizeBuild backend = .ok none ∧
    (∃ run, builder.optimizeBuildRun backend = .ok run ∧ run.solver = none ∧
      run.result = none) := by
  simp [GodBuilder.optimizeBuild, GodBuilder.optimizeBuildRun, hsize]

/-- C14 at a pool of five entries, one of them null, with a backend that
would report OPTIMAL. -/
theorem optimizeBuild_small_pool_witness :
    GodBuilder.optimizeBuild { god_ := testGod, available_items_ := fivePool }
        (optimalBackend 0 topSixOfTen) = .ok none ∧
    (∃ run,
      GodBuilder.optimizeBuildRun { god_ := testGod, available_items_ := fivePool }
          (optimalBackend 0 topSixOfTen) = .ok run ∧
      run.solver = none ∧ run.result = none) :=
  optimizeBuild_small_pool { god_ := testGod, available_items_ := fivePool }
    (optimalBackend 0 topSixOfTen) (by decide)

/-- C15: for every god, every pool of non-null items and every backend,
whatever values it reports, `optimizeBuild` either returns no result, or
returns a build whose `countItems()` is 6 and whose six slots hold, in pool
order, exactly the candidates whose reported value exceeds 0.5, there being
exactly six of them. -/
theorem optimizeBuild_exact_cardinality (god : God) (pool : List Item) (backend : Backend) :
    GodBuilder.optimizeBuild { god_ := god, available_items_ := pool.map some } backend
      = .ok none ∨
    ∃ build dps,
      GodBuilder.optimizeBuild { god_ := god, available_items_ := pool.map some } backend
        = .ok (some (build, dps)) ∧
      (backend (buildModel god pool).1).status = .OPTIMAL ∧
      build.countItems = 6 ∧
      build.slots = (chosenItems (backend (buildModel god pool).1).values pool).map some ∧
      (chosenItems (backend (buildModel god pool).1).values pool).length = 6 := by
  rw [optimizeBuild_eq, buildModel_eq]
  by_cases h6 : pool.length < 6
  · left; simp [h6]
  · by_cases hs : (backend (closedModel god pool)).status = ResultStatus.OPTIMAL
    · by_cases hc : (chosenItems (backend (closedModel god pool)).values pool).length = 6
      · right
        refine ⟨makeBuild (chosenItems (backend (closedModel god pool)).values pool),
          GodBuilder.calculateDps { god_ := god, available_items_ := pool.map some }
            ((chosenItems (backend (closedModel god pool)).values pool).map some),
          ?_, hs, (makeBuild_of_six _ hc).1, (makeBuild_of_six _ hc).2, hc⟩
        simp [h6, hs, hc]
      · left; simp [h6, hs, hc]
    · left; simp [h6, hs]

/-- C17: for every candidate of the pool, the objective coefficient that the
model of `optimizeBuild` holds for its variable is its relevant power stat
(physical for a PHYSICAL god, magical for a MAGICAL one) plus 0.5 times its
attack speed; two items with the same relevant power and attack speed get the
same coefficient whatever their other stats; the direction is maximisation. -/
theorem objective_coefficient (god : God) (pool : List Item) (i : Nat) (item : Item)
    (hitem : pool[i]? = some item) :
    (buildModel god pool).2[i]? = some i ∧
    getCoefficient (buildModel god pool).1.objective.coefficients i
      = relevantPower god item.stats_ + (1 / 2) * item.stats_.basic_attack_speed ∧
    (∀ other : Item,
      relevantPower god other.stats_ = relevantPower god item.stats_ →
      other.stats_.basic_attack_speed = item.stats_.basic_attack_speed →
      coefficient god other = coefficient god item) ∧
    (buildModel god pool).1.objective.maximization = true := by
  have hlt : i < pool.length := by
    rcases Nat.lt_or_ge i pool.length with h | h
    · exact h
    · rw [List.getElem?_eq_none h] at hitem; cases hitem
  have hcoef : ∀ it : Item, coefficient god it
      = relevantPower god it.stats_ + (1 / 2) * it.stats_.basic_attack_speed := by
    intro it
    cases hp : god.power_type_ <;>
      simp [coefficient, God.getPowerType, relevantPower, hp, Item.getStats, mul_comm]
  rw [buildModel_eq]
  refine ⟨by simp [hlt], ?_, ?_, rfl⟩
  · rw [← hcoef]
    simp only [closedModel, coefficient_objective, coefficientAt, hitem]
  · intro other h1 h2
    rw [hcoef, hcoef, h1, h2]

/-- C17 at candidate 4 of the pool of the test. -/
theorem objective_coefficient_witness :
    (buildModel testGod testPool).2[4]? = some 4 ∧
    getCoefficient (buildModel testGod testPool).1.objective.coefficients 4
      = relevantPower testGod (testItem 4).stats_
          + (1 / 2) * (testItem 4).stats_.basic_attack_speed ∧
    (∀ other : Item,
      relevantPower testGod other.stats_ = relevantPower testGod (testItem 4).stats_ →
      other.stats_.basic_attack_speed = (testItem 4).stats_.basic_attack_speed →
      coefficient testGod other = coefficient testGod (testItem 4)) ∧
    (buildModel testGod testPool).1.objective.maximization = true :=
  objective_coefficient testGod testPool 4 (testItem 4) rfl

/-- C16: for every god, every pool of non-null items and every backend whose
values, when it reports OPTIMAL, satisfy the rows and variable bounds of the
model, every build returned by `optimizeBuild` holds at most one starter item;
the second row of the model is `0 ≤ Σ ≤ 1`, named at_most_1_starter, with
coefficient 1 exactly on the variables of the starter candidates. -/
theorem at_most_one_starter (god : God) (pool : List Item) (backend : Backend)
    (build : Build) (dps : ℚ)
    (hsound : (backend (buildModel god pool).1).status = .OPTIMAL →
      (buildModel god pool).1.Feasible (backend (buildModel god pool).1).values)
    (h : GodBuilder.optimizeBuild { god_ := god, available_items_ := pool.map some } backend
      = .ok (some (build, dps))) :
    starterCount build ≤ 1 ∧
    ∃ row, (buildModel god pool).1.constraints[1]? = some row ∧
      row.name = "at_most_1_starter" ∧ row.lb = 0 ∧ row.ub = 1 ∧
      ∀ i, getCoefficient row.coefficients i = if starterAt pool i = true then 1 else 0 := by
  rw [buildModel_eq] at hsound ⊢
  dsimp only at hsound ⊢
  obtain ⟨_, hs, hc, hb, _⟩ := optimizeBuild_some god pool backend build dps h
  refine ⟨?_, _, rfl, rfl, rfl, rfl, fun i => coefficient_row_starters pool i⟩
  obtain ⟨_, hvars, _, _, hle⟩ := (closedModel_feasible_iff god pool _).1 (hsound hs)
  rw [hb, starterCount_makeBuild _ hc, filter_chosen_length]
  by_contra hcard
  obtain ⟨a, ha, b, hb', hab⟩ := Finset.one_lt_card.1 (Nat.lt_of_not_le hcard)
  simp only [Finset.mem_filter, Finset.mem_range] at ha hb'
  have hsub : ({a, b} : Finset Nat) ⊆ Finset.range pool.length := by
    intro i hi
    simp only [Finset.mem_insert, Finset.mem_singleton] at hi
    rcases hi with hi | hi <;> subst hi
    · exact Finset.mem_range.2 ha.1
    · exact Finset.mem_range.2 hb'.1
  have hpair := Finset.sum_le_sum_of_subset_of_nonneg hsub
    (f := fun i =>
      if starterAt pool i = true then
        (backend (closedModel god pool)).values.getD i 0
      else 0)
    (fun i hi _ => by
      have := (hvars i (Finset.mem_range.1 hi)).1
      dsimp only
      split_ifs
      · exact this
      · exact le_refl 0)
  rw [Finset.sum_pair hab] at hpair
  have hsa : starterAt pool a = true := ha.2.2
  have hsb : starterAt pool b = true := hb'.2.2
  simp only [hsa, hsb, if_true] at hpair
  linarith [ha.2.1, hb'.2.1]

/-- C16 at the pool of the test with candidates 8 and 9 flagged as starters
and a backend reporting the selection 3 to 7 and 9. -/
theorem at_most_one_starter_witness :
    starterCount (makeBuild (chosenItems substitutedSix (flaggedPool [8, 9]))) ≤ 1 ∧
    ∃ row, (buildModel testGod (flaggedPool [8, 9])).1.constraints[1]? = some row ∧
      row.name = "at_most_1_starter" ∧ row.lb = 0 ∧ row.ub = 1 ∧
      ∀ i, getCoefficient row.coefficients i
        = if starterAt (flaggedPool [8, 9]) i = true then 1 else 0 :=
  at_most_one_starter testGod (flaggedPool [8, 9]) (optimalBackend 0 substitutedSix)
    (makeBuild (chosenItems substitutedSix (flaggedPool [8, 9])))
    (exactMetric testGod (chosenItems substitutedSix (flaggedPool [8, 9])))
    (fun _ => by rw [buildModel_eq]; exact substitutedSix_feasible)
    substituted_result

/-- C18: `calculateDps` of any item list equals totalPower × (1 +
totalAttackSpeed / 100) over its non-null entries, and for every result
`(build, dps)` returned by `optimizeBuild` the build holds six items and
`dps` is that formula over the six items of the build. -/
theorem reported_metric_exact (god : God) (pool : List Item) (backend : Backend)
    (build : Build) (dps : ℚ)
    (h : GodBuilder.optimizeBuild { god_ := god, available_items_ := pool.map some } backend
      = .ok (some (build, dps))) :
    (build.slots.filterMap id).length = 6 ∧
    dps = exactMetric god (build.slots.filterMap id) ∧
    dps = (relevantPower god god.stats_
            + ((build.slots.filterMap id).map (fun item => relevantPower god item.stats_)).sum)
          * (1 + (god.stats_.basic_attack_speed
            + ((build.slots.filterMap id).map
                (fun item => item.stats_.basic_attack_speed)).sum) / 100) ∧
    ∀ items : List (Option Item),
      GodBuilder.calculateDps { god_ := god, available_items_ := pool.map some } items
        = exactMetric god (items.filterMap id) := by
  obtain ⟨_, _, hc, hb, hd⟩ := optimizeBuild_some god pool backend build dps h
  have hslots : build.slots.filterMap id
      = chosenItems (backend (closedModel god pool)).values pool := by
    rw [hb, (makeBuild_of_six _ hc).2]
    simp
  rw [hslots]
  exact ⟨hc, hd, hd, fun items => calculateDps_eq _ items⟩

/-- C18 at the pool of the test with candidates 8 and 9 flagged as starters
and a backend reporting the selection 3 to 7 and 9. -/
theorem reported_metric_exact_witness :
    ((makeBuild (chosenItems substitutedSix (flaggedPool [8, 9]))).slots.filterMap id).length
      = 6 ∧
    exactMetric testGod (chosenItems substitutedSix (flaggedPool [8, 9]))
      = exactMetric testGod
          ((makeBuild (chosenItems substitutedSix (flaggedPool [8, 9]))).slots.filterMap id) ∧
    exactMetric testGod (chosenItems substitutedSix (flaggedPool [8, 9]))
      = (relevantPower testGod testGod.stats_
            + (((makeBuild (chosenItems substitutedSix (flaggedPool [8, 9]))).slots.filterMap
                  id).map (fun item => relevantPower testGod item.stats_)).sum)
          * (1 + (testGod.stats_.basic_attack_speed
            + (((makeBuild (chosenItems substitutedSix (flaggedPool [8, 9]))).slots.filterMap
                  id).map (fun item => item.stats_.basic_attack_speed)).sum) / 100) ∧
    ∀ items : List (Option Item),
      GodBuilder.calculateDps
          { god_ := testGod, available_items_ := (flaggedPool [8, 9]).map some } items
        = exactMetric testGod (items.filterMap id) :=
  reported_metric_exact testGod (flaggedPool [8, 9]) (optimalBackend 0 substitutedSix)
    (makeBuild (chosenItems substitutedSix (flaggedPool [8, 9])))
    (exactMetric testGod (chosenItems substitutedSix (flaggedPool [8, 9])))
    substituted_result

/-! ## The ten-item scenario of the test `GodBuilderOptimization` -/

theorem ten_values (x : List ℚ) (h : x.length = 10) :
    x = [x.getD 0 0, x.getD 1 0, x.getD 2 0, x.getD 3 0, x.getD 4 0, x.getD 5 0, x.getD 6 0,
      x.getD 7 0, x.getD 8 0, x.getD 9 0] := by
  match x, h with
  | [a0, a1, a2, a3, a4, a5, a6, a7, a8, a9], _ => rfl

theorem flaggedPool_length (starters : List Nat) : (flaggedPool starters).length = 10 := by
  simp [flaggedPool]

theorem flaggedPool_objectiveAt (starters : List Nat) (x : List ℚ) :
    (closedModel testGod (flaggedPool starters)).objectiveAt x
      = 25 * x.getD 0 0 + 31 * x.getD 1 0 + 37 * x.getD 2 0 + 43 * x.getD 3 0
        + 49 * x.getD 4 0 + 55 * x.getD 5 0 + 61 * x.getD 6 0 + 67 * x.getD 7 0
        + 73 * x.getD 8 0 + 79 * x.getD 9 0 := by
  rw [closedModel_objectiveAt, flaggedPool_length]
  have h : ∀ i ∈ Finset.range 10,
      coefficientAt testGod (flaggedPool starters) i * x.getD i 0
        = (25 + 6 * (i : ℚ)) * x.getD i 0 := fun i hi => by
    rw [flaggedPool_coefficientAt starters i (Finset.mem_range.1 hi)]
  rw [Finset.sum_congr rfl h]
  simp only [Finset.sum_range_succ, Finset.sum_range_zero]
  norm_num

theorem tenItems_feasible_iff (x : List ℚ) :
    (closedModel testGod (flaggedPool [])).Feasible x ↔
      (x.length = 10 ∧
       (∀ i, i < 10 → 0 ≤ x.getD i 0 ∧ x.getD i 0 ≤ 1 ∧ (x.getD i 0).den = 1) ∧
       x.getD 0 0 + x.getD 1 0 + x.getD 2 0 + x.getD 3 0 + x.getD 4 0 + x.getD 5 0
         + x.getD 6 0 + x.getD 7 0 + x.getD 8 0 + x.getD 9 0 = 6) := by
  rw [closedModel_feasible_iff, flaggedPool_length]
  have hs : ∀ i ∈ Finset.range 10,
      (if starterAt (flaggedPool []) i = true then x.getD i 0 else 0) = 0 := fun i hi => by
    rw [flaggedPool_starterAt [] i (Finset.mem_range.1 hi)]
    simp
  rw [Finset.sum_congr rfl hs]
  simp only [Finset.sum_range_succ, Finset.sum_range_zero, Finset.sum_const_zero]
  norm_num

theorem tenItems_optimal_iff (x : List ℚ) :
    (closedModel testGod (flaggedPool [])).Optimal x ↔ x = topSixOfTen := by
  have htop : (closedModel testGod (flaggedPool [])).Feasible topSixOfTen := by
    rw [tenItems_feasible_iff]
    refine ⟨rfl, fun i _ => binary_values _ (by simp [topSixOfTen]) i, ?_⟩
    simp [topSixOfTen]
    norm_num
  have hmax : (closedModel testGod (flaggedPool [])).objective.maximization = true := rfl
  unfold MPSolver.Optimal
  simp only [hmax, if_true, flaggedPool_objectiveAt]
  constructor
  · rintro ⟨hx, hbest⟩
    have hobj := hbest topSixOfTen htop
    obtain ⟨hlen, hvars, hsum⟩ := (tenItems_feasible_iff x).1 hx
    simp only [topSixOfTen, List.getD_cons_zero, List.getD_cons_succ] at hobj
    obtain ⟨l0, u0, _⟩ := hvars 0 (by norm_num)
    obtain ⟨l1, u1, _⟩ := hvars 1 (by norm_num)
    obtain ⟨l2, u2, _⟩ := hvars 2 (by norm_num)
    obtain ⟨l3, u3, _⟩ := hvars 3 (by norm_num)
    obtain ⟨l4, u4, _⟩ := hvars 4 (by norm_num)
    obtain ⟨l5, u5, _⟩ := hvars 5 (by norm_num)
    obtain ⟨l6, u6, _⟩ := hvars 6 (by norm_num)
    obtain ⟨l7, u7, _⟩ := hvars 7 (by norm_num)
    obtain ⟨l8, u8, _⟩ := hvars 8 (by norm_num)
    obtain ⟨l9, u9, _⟩ := hvars 9 (by norm_num)
    have e0 : x.getD 0 0 = 0 := by linarith
    have e1 : x.getD 1 0 = 0 := by linarith
    have e2 : x.getD 2 0 = 0 := by linarith
    have e3 : x.getD 3 0 = 0 := by linarith
    have e4 : x.getD 4 0 = 1 := by linarith
    have e5 : x.getD 5 0 = 1 := by linarith
    have e6 : x.getD 6 0 = 1 := by linarith
    have e7 : x.getD 7 0 = 1 := by linarith
    have e8 : x.getD 8 0 = 1 := by linarith
    have e9 : x.getD 9 0 = 1 := by linarith
    rw [ten_values x hlen, e0, e1, e2, e3, e4, e5, e6, e7, e8, e9]
    rfl
  · rintro rfl
    refine ⟨htop, fun y hy => ?_⟩
    obtain ⟨hlen, hvars, hsum⟩ := (tenItems_feasible_iff y).1 hy
    simp only [topSixOfTen, List.getD_cons_zero, List.getD_cons_succ]
    obtain ⟨l0, u0, _⟩ := hvars 0 (by norm_num)
    obtain ⟨l1, u1, _⟩ := hvars 1 (by norm_num)
    obtain ⟨l2, u2, _⟩ := hvars 2 (by norm_num)
    obtain ⟨l3, u3, _⟩ := hvars 3 (by norm_num)
    obtain ⟨l4, u4, _⟩ := hvars 4 (by norm_num)
    obtain ⟨l5, u5, _⟩ := hvars 5 (by norm_num)
    obtain ⟨l6, u6, _⟩ := hvars 6 (by norm_num)
    obtain ⟨l7, u7, _⟩ := hvars 7 (by norm_num)
    obtain ⟨l8, u8, _⟩ := hvars 8 (by norm_num)
    obtain ⟨l9, u9, _⟩ := hvars 9 (by norm_num)
    linarith
theorem tenItems_metric :
    exactMetric testGod
        ([4, 5, 6, 7, 8, 9].map
          (fun i => { testItem i with is_starter_ := ([] : List Nat).contains i }))
      = 12337 / 10 := by
  simp [exactMetric, relevantPower, testGod, testItem]
  norm_num

/-- C19: for the physical god with base power 50 and attack speed 100 and the
pool of ten non-starter items with power 20 + 5·i and attack speed 10 + 2·i,
the model built by `optimizeBuild` has exactly one optimal solution, the one
selecting the candidates 4 to 9; with a backend that reports OPTIMAL with an
optimal solution of the model, `optimizeBuild` returns a build of exactly
those six items, with `countItems()` 6 and dps 1233.7, which is positive. -/
theorem ten_item_scenario (backend : Backend)
    (hstatus : (backend (buildModel testGod testPool).1).status = .OPTIMAL)
    (hoptimal : (buildModel testGod testPool).1.Optimal
      (backend (buildModel testGod testPool).1).values) :
    (∀ x, (buildModel testGod testPool).1.Optimal x ↔ x = topSixOfTen) ∧
    ∃ build dps,
      testBuilder.optimizeBuild backend = .ok (some (build, dps)) ∧
      build.countItems = 6 ∧
      build.slots = [some (testItem 4), some (testItem 5), some (testItem 6),
        some (testItem 7), some (testItem 8), some (testItem 9)] ∧
      dps = 12337 / 10 ∧ 0 < dps := by
  rw [buildModel_eq, testPool_eq_flaggedPool] at hstatus hoptimal ⊢
  dsimp only at hstatus hoptimal ⊢
  have hvalues := (tenItems_optimal_iff _).1 hoptimal
  have hchosen : chosenItems (backend (closedModel testGod (flaggedPool []))).values
      (flaggedPool [])
        = [4, 5, 6, 7, 8, 9].map
            (fun i => { testItem i with is_starter_ := ([] : List Nat).contains i }) := by
    rw [hvalues, flaggedPool_chosen_topSix]
  have hresult := optimizeBuild_of_optimal testGod (flaggedPool []) backend
    (by simp [flaggedPool]) hstatus (by rw [hchosen]; rfl)
  rw [hchosen] at hresult
  refine ⟨tenItems_optimal_iff,
    makeBuild ([4, 5, 6, 7, 8, 9].map
      (fun i => { testItem i with is_starter_ := ([] : List Nat).contains i })),
    exactMetric testGod ([4, 5, 6, 7, 8, 9].map
      (fun i => { testItem i with is_starter_ := ([] : List Nat).contains i })),
    ?_, ?_, ?_, tenItems_metric, ?_⟩
  · rw [← hresult, testBuilder, testPool_eq_flaggedPool]
  · rfl
  · rfl
  · rw [tenItems_metric]
    norm_num

/-- C19 with the backend that reports the selection of the candidates 4 to
9. -/
theorem ten_item_scenario_witness :
    (∀ x, (buildModel testGod testPool).1.Optimal x ↔ x = topSixOfTen) ∧
    ∃ build dps,
      testBuilder.optimizeBuild (optimalBackend 384 topSixOfTen) = .ok (some (build, dps)) ∧
      build.countItems = 6 ∧
      build.slots = [some (testItem 4), some (testItem 5), some (testItem 6),
        some (testItem 7), some (testItem 8), some (testItem 9)] ∧
      dps = 12337 / 10 ∧ 0 < dps :=
  ten_item_scenario (optimalBackend 384 topSixOfTen) rfl
    (by
      rw [buildModel_eq, testPool_eq_flaggedPool]
      exact (tenItems_optimal_iff _).2 rfl)

/-! ## Starter substitution -/

theorem sum_le_sum_of_separated (c : ℕ → ℚ) (A B : Finset ℕ) (hcard : A.card = B.card)
    (hsep : ∀ i ∈ A, ∀ j ∈ B, c i < c j) :
    A.sum c ≤ B.sum c ∧ (A.Nonempty → A.sum c < B.sum c) := by
  by_cases hA : A.Nonempty
  · have hB : B.Nonempty := by
      rw [← Finset.card_pos, ← hcard, Finset.card_pos]
      exact hA
    obtain ⟨j0, hj0, hmin⟩ := Finset.exists_min_image B c hB
    have h1 : A.sum c < A.sum (fun _ => c j0) :=
      Finset.sum_lt_sum_of_nonempty hA (fun i hi => hsep i hi j0 hj0)
    have h2 : B.sum (fun _ => c j0) ≤ B.sum c := Finset.sum_le_sum (fun j hj => hmin j hj)
    rw [Finset.sum_const, hcard, ← Finset.sum_const] at h1
    exact ⟨le_of_lt (lt_of_lt_of_le h1 h2), fun _ => lt_of_lt_of_le h1 h2⟩
  · rw [Finset.not_nonempty_iff_eq_empty] at hA
    have hB : B = ∅ := by
      rw [← Finset.card_eq_zero, ← hcard, hA, Finset.card_empty]
    rw [hA, hB]
    exact ⟨le_refl _, fun h => absurd h (by simp)⟩

theorem substitution_optimal (n : ℕ) (c : ℕ → ℚ) (s : ℕ → Bool) (T : Finset ℕ) (a b m : ℕ)
    (hTcard : T.card = 6)
    (htop : ∀ i ∈ T, ∀ j, j < n → j ∉ T → c j < c i)
    (ha : a ∈ T) (hb : b ∈ T) (hsa : s a = true) (hsb : s b = true)
    (hstarters : ∀ i ∈ T, s i = true → i = a ∨ i = b)
    (hab : c b < c a)
    (hmT : m ∉ T)
    (hmbest : ∀ j, j < n → j ∉ T → s j = false → j ≠ m → c j < c m)
    (S : Finset ℕ) (hS : S ⊆ Finset.range n) (hScard : S.card = 6)
    (hSst : (S.filter (fun i => s i = true)).card ≤ 1) :
    S.sum c ≤ (insert m (T.erase b)).sum c ∧
    (S.sum c = (insert m (T.erase b)).sum c → S = insert m (T.erase b)) := by
  have hne : a ≠ b := fun h => by rw [h] at hab; exact lt_irrefl _ hab
  have hcard' : (insert m (T.erase b)).card = 6 := by
    rw [Finset.card_insert_of_not_mem (fun h => hmT (Finset.mem_of_mem_erase h)),
      Finset.card_erase_of_mem hb, hTcard]
  have hmem : ∀ j, j ∈ insert m (T.erase b) ↔ j = m ∨ (j ≠ b ∧ j ∈ T) := by
    intro j
    rw [Finset.mem_insert, Finset.mem_erase]
  have haS' : a ∈ insert m (T.erase b) := (hmem a).2 (Or.inr ⟨hne, ha⟩)
  have hAB : (S \ insert m (T.erase b)).card = (insert m (T.erase b) \ S).card := by
    have h1 := Finset.card_sdiff_add_card_inter S (insert m (T.erase b))
    have h2 := Finset.card_sdiff_add_card_inter (insert m (T.erase b)) S
    rw [Finset.inter_comm] at h2
    omega
  have hS1 := Finset.sum_inter_add_sum_diff S (insert m (T.erase b)) c
  have hS2 := Finset.sum_inter_add_sum_diff (insert m (T.erase b)) S c
  rw [Finset.inter_comm] at hS2
  -- candidates of S outside the target that are not starters lie below the whole target
  have hlow : ∀ i ∈ S \ insert m (T.erase b), s i = false →
      ∀ j ∈ insert m (T.erase b), c i < c j := by
    intro i hi hsi j hj
    rw [Finset.mem_sdiff] at hi
    have hin : i < n := Finset.mem_range.1 (hS hi.1)
    have hib : i ≠ b := fun h => by rw [h, hsb] at hsi; cases hsi
    have him : i ≠ m := fun h => hi.2 ((hmem i).2 (Or.inl h))
    have hiT : i ∉ T := fun h => hi.2 ((hmem i).2 (Or.inr ⟨hib, h⟩))
    rcases (hmem j).1 hj with hj | hj
    · rw [hj]; exact hmbest i hin hiT hsi him
    · exact htop j hj.2 i hin hiT
  have hone : ∀ i ∈ S, ∀ j ∈ S, s i = true → s j = true → i = j := by
    intro i hi j hj hsi hsj
    exact Finset.card_le_one.1 hSst i (Finset.mem_filter.2 ⟨hi, hsi⟩) j
      (Finset.mem_filter.2 ⟨hj, hsj⟩)
  have key : (S \ insert m (T.erase b)).sum c ≤ (insert m (T.erase b) \ S).sum c ∧
      ((S \ insert m (T.erase b)).Nonempty →
        (S \ insert m (T.erase b)).sum c < (insert m (T.erase b) \ S).sum c) := by
    by_cases hσ : ∃ σ ∈ S \ insert m (T.erase b), s σ = true
    · obtain ⟨σ, hσA, hsσ⟩ := hσ
      have hσS := (Finset.mem_sdiff.1 hσA).1
      have hσS' := (Finset.mem_sdiff.1 hσA).2
      have hσa : c σ < c a := by
        by_cases hσT : σ ∈ T
        · rcases hstarters σ hσT hsσ with h | h
          · exact absurd (h ▸ haS') hσS'
          · rw [h]; exact hab
        · exact htop a ha σ (Finset.mem_range.1 (hS hσS)) hσT
      have haS : a ∉ S := fun haS => hσS' ((hone σ hσS a haS hsσ hsa) ▸ haS')
      have haB : a ∈ insert m (T.erase b) \ S := Finset.mem_sdiff.2 ⟨haS', haS⟩
      have hcardE : ((S \ insert m (T.erase b)).erase σ).card
          = ((insert m (T.erase b) \ S).erase a).card := by
        rw [Finset.card_erase_of_mem hσA, Finset.card_erase_of_mem haB, hAB]
      have hrest := sum_le_sum_of_separated c _ _ hcardE
        (fun i hi j hj => by
          have hiA := Finset.mem_of_mem_erase hi
          have hiσ := Finset.ne_of_mem_erase hi
          have hsi : s i = false := by
            by_contra h
            exact hiσ (hone i (Finset.mem_sdiff.1 hiA).1 σ hσS (by simpa using h) hsσ)
          exact hlow i hiA hsi j (Finset.mem_sdiff.1 (Finset.mem_of_mem_erase hj)).1)
      have e1 := Finset.add_sum_erase (S \ insert m (T.erase b)) c hσA
      have e2 := Finset.add_sum_erase (insert m (T.erase b) \ S) c haB
      have hlt : (S \ insert m (T.erase b)).sum c < (insert m (T.erase b) \ S).sum c := by
        linarith [hrest.1]
      exact ⟨le_of_lt hlt, fun _ => hlt⟩
    · have hall : ∀ i ∈ S \ insert m (T.erase b), s i = false := by
        intro i hi
        by_contra h
        exact hσ ⟨i, hi, by simpa using h⟩
      exact sum_le_sum_of_separated c _ _ hAB
        (fun i hi j hj => hlow i hi (hall i hi) j (Finset.mem_sdiff.1 hj).1)
  constructor
  · linarith [key.1]
  · intro heq
    have hempty : ¬ (S \ insert m (T.erase b)).Nonempty := fun h => by
      have := key.2 h
      linarith
    rw [Finset.not_nonempty_iff_eq_empty, Finset.sdiff_eq_empty_iff_subset] at hempty
    exact Finset.eq_of_subset_of_card_le hempty (by rw [hcard', hScard])

theorem indicator_length (n : Nat) (S : Finset Nat) : (indicator n S).length = n := by
  simp [indicator]

theorem indicator_getD (n : Nat) (S : Finset Nat) (hS : S ⊆ Finset.range n) (i : Nat) :
    (indicator n S).getD i 0 = if i ∈ S then 1 else 0 := by
  rcases Nat.lt_or_ge i n with hi | hi
  · rw [List.getD_eq_getElem _ _ (by rw [indicator_length]; exact hi)]
    simp [indicator]
  · rw [List.getD_eq_default _ _ (by rw [indicator_length]; exact hi)]
    have : i ∉ S := fun h => absurd (Finset.mem_range.1 (hS h)) (Nat.not_lt.2 hi)
    rw [if_neg this]

theorem rat_zero_or_one (q : ℚ) (h0 : 0 ≤ q) (h1 : q ≤ 1) (hden : q.den = 1) :
    q = 0 ∨ q = 1 := by
  have hq : (q.num : ℚ) = q := Rat.coe_int_num_of_den_eq_one hden
  rw [← hq] at h0 h1 ⊢
  have h0' : (0 : ℤ) ≤ q.num := by exact_mod_cast h0
  have h1' : q.num ≤ 1 := by exact_mod_cast h1
  have : q.num = 0 ∨ q.num = 1 := by omega
  rcases this with h | h <;> rw [h] <;> simp

theorem feasible_eq_indicator (god : God) (pool : List Item) (x : List ℚ)
    (h : (closedModel god pool).Feasible x) :
    ∃ S, S ⊆ Finset.range pool.length ∧ x = indicator pool.length S := by
  obtain ⟨hlen, hvars, _⟩ := (closedModel_feasible_iff god pool x).1 h
  refine ⟨(Finset.range pool.length).filter (fun i => x.getD i 0 = 1),
    Finset.filter_subset _ _, ?_⟩
  apply List.ext_getElem
  · rw [hlen, indicator_length]
  · intro i h1 h2
    have hi : i < pool.length := hlen ▸ h1
    have hb := hvars i hi
    rw [List.getD_eq_getElem _ _ h1] at hb
    simp only [indicator, List.getElem_map, List.getElem_range, Finset.mem_filter,
      Finset.mem_range, hi, true_and, List.getD_eq_getElem _ _ h1]
    rcases rat_zero_or_one _ hb.1 hb.2.1 hb.2.2 with h | h <;> simp [h]

theorem indicator_feasible_iff (god : God) (pool : List Item) (S : Finset Nat)
    (hS : S ⊆ Finset.range pool.length) :
    (closedModel god pool).Feasible (indicator pool.length S) ↔
      (S.card = 6 ∧ (S.filter (fun i => starterAt pool i = true)).card ≤ 1) := by
  rw [closedModel_feasible_iff]
  have hsum : Finset.sum (Finset.range pool.length)
      (fun i => (indicator pool.length S).getD i 0) = (S.card : ℚ) := by
    simp only [indicator_getD _ _ hS]
    rw [Finset.sum_boole]
    congr 2
    ext i
    simp only [Finset.mem_filter, Finset.mem_range]
    exact ⟨fun h => h.2, fun h => ⟨Finset.mem_range.1 (hS h), h⟩⟩
  have hst : Finset.sum (Finset.range pool.length)
      (fun i => if starterAt pool i = true then (indicator pool.length S).getD i 0 else 0)
        = ((S.filter (fun i => starterAt pool i = true)).card : ℚ) := by
    simp only [indicator_getD _ _ hS, ← ite_and]
    rw [Finset.sum_boole]
    congr 2
    ext i
    simp only [Finset.mem_filter, Finset.mem_range]
    exact ⟨fun h => ⟨h.2.2, h.2.1⟩, fun h => ⟨Finset.mem_range.1 (hS h.1), h.2, h.1⟩⟩
  rw [hsum, hst]
  constructor
  · rintro ⟨_, _, h6, _, h1⟩
    exact ⟨by exact_mod_cast h6, by exact_mod_cast h1⟩
  · rintro ⟨h6, h1⟩
    refine ⟨indicator_length _ _, fun i _ => ?_, by exact_mod_cast h6, by positivity,
      by exact_mod_cast h1⟩
    rw [indicator_getD _ _ hS]
    split_ifs <;> simp

theorem indicator_objectiveAt (god : God) (pool : List Item) (S : Finset Nat)
    (hS : S ⊆ Finset.range pool.length) :
    (closedModel god pool).objectiveAt (indicator pool.length S)
      = S.sum (coefficientAt god pool) := by
  rw [closedModel_objectiveAt]
  simp only [indicator_getD _ _ hS, mul_ite, mul_one, mul_zero]
  rw [Finset.sum_ite_mem, Finset.inter_eq_right.2 hS]

theorem chosenItems_indicator (pool : List Item) (S : Finset Nat)
    (hS : S ⊆ Finset.range pool.length) :
    chosenItems (indicator pool.length S) pool
      = (pool.enum.filter (fun e => decide (e.1 ∈ S))).map Prod.snd := by
  unfold chosenItems
  congr 1
  apply List.filter_congr
  intro e _
  rw [indicator_getD _ _ hS]
  by_cases h : e.1 ∈ S
  · simp only [h, if_true, decide_True, decide_eq_true_eq]
    norm_num
  · simp only [h, if_false, decide_False, decide_eq_false_iff_not]
    norm_num

theorem chosenItems_indicator_length (pool : List Item) (S : Finset Nat)
    (hS : S ⊆ Finset.range pool.length) :
    (chosenItems (indicator pool.length S) pool).length = S.card := by
  have h := filter_chosen_length (indicator pool.length S) pool (fun _ => true)
  rw [List.filter_true] at h
  rw [h]
  congr 1
  ext i
  simp only [Finset.mem_filter, Finset.mem_range, indicator_getD _ _ hS]
  constructor
  · rintro ⟨_, hgt, _⟩
    by_contra hi
    rw [if_neg hi] at hgt
    norm_num at hgt
  · intro hi
    have hlt : i < pool.length := Finset.mem_range.1 (hS hi)
    refine ⟨hlt, by rw [if_pos hi]; norm_num, ?_⟩
    rw [List.getElem?_eq_getElem hlt]

theorem optimal_iff_substituted (god : God) (pool : List Item) (T : Finset Nat) (a b m : Nat)
    (hT : T ⊆ Finset.range pool.length) (hTcard : T.card = 6)
    (hdistinct : ∀ i j, i < pool.length → j < pool.length → i ≠ j →
      coefficientAt god pool i ≠ coefficientAt god pool j)
    (htop : ∀ i ∈ T, ∀ j, j < pool.length → j ∉ T →
      coefficientAt god pool j ≤ coefficientAt god pool i)
    (ha : a ∈ T) (hb : b ∈ T)
    (hab : coefficientAt god pool b < coefficientAt god pool a)
    (hexactly : ∀ i ∈ T, starterAt pool i = true ↔ (i = a ∨ i = b))
    (hm : m < pool.length) (hmT : m ∉ T) (hsm : starterAt pool m = false)
    (hmbest : ∀ j, j < pool.length → j ∉ T → starterAt pool j = false →
      coefficientAt god pool j ≤ coefficientAt god pool m)
    (x : List ℚ) :
    (closedModel god pool).Optimal x ↔ x = indicator pool.length (insert m (T.erase b)) := by
  have hS' : insert m (T.erase b) ⊆ Finset.range pool.length := by
    intro i hi
    rcases Finset.mem_insert.1 hi with h | h
    · rw [h]; exact Finset.mem_range.2 hm
    · exact hT (Finset.mem_of_mem_erase h)
  have hne : a ≠ b := fun h => by rw [h] at hab; exact lt_irrefl _ hab
  have hK := fun S hS hScard hSst =>
    substitution_optimal pool.length (coefficientAt god pool) (starterAt pool) T a b m hTcard
      (fun i hi j hj hjT =>
        lt_of_le_of_ne (htop i hi j hj hjT)
          (hdistinct j i hj (Finset.mem_range.1 (hT hi)) (fun h => hjT (h ▸ hi))))
      ha hb ((hexactly a ha).2 (Or.inl rfl)) ((hexactly b hb).2 (Or.inr rfl))
      (fun i hi hsi => (hexactly i hi).1 hsi) hab hmT
      (fun j hj hjT hsj hjm => lt_of_le_of_ne (hmbest j hj hjT hsj) (hdistinct j m hj hm hjm))
      S hS hScard hSst
  have hfeas : (closedModel god pool).Feasible (indicator pool.length (insert m (T.erase b))) := by
    rw [indicator_feasible_iff god pool _ hS']
    refine ⟨?_, ?_⟩
    · rw [Finset.card_insert_of_not_mem (fun h => hmT (Finset.mem_of_mem_erase h)),
        Finset.card_erase_of_mem hb, hTcard]
    · rw [Finset.card_le_one]
      intro i hi j hj
      simp only [Finset.mem_filter, Finset.mem_insert, Finset.mem_erase] at hi hj
      have hia : i = a := by
        rcases hi.1 with h | h
        · rw [h, hsm] at hi; cases hi.2
        · rcases (hexactly i h.2).1 hi.2 with h' | h'
          · exact h'
          · exact absurd h' h.1
      have hja : j = a := by
        rcases hj.1 with h | h
        · rw [h, hsm] at hj; cases hj.2
        · rcases (hexactly j h.2).1 hj.2 with h' | h'
          · exact h'
          · exact absurd h' h.1
      rw [hia, hja]
  have hmax : (closedModel god pool).objective.maximization = true := rfl
  unfold MPSolver.Optimal
  simp only [hmax, if_true]
  constructor
  · rintro ⟨hx, hbest⟩
    obtain ⟨S, hS, rfl⟩ := feasible_eq_indicator god pool x hx
    have hSf := (indicator_feasible_iff god pool S hS).1 hx
    have hle := hbest _ hfeas
    rw [indicator_objectiveAt god pool _ hS', indicator_objectiveAt god pool S hS] at hle
    obtain ⟨h1, h2⟩ := hK S hS hSf.1 hSf.2
    rw [h2 (le_antisymm h1 hle)]
  · rintro rfl
    refine ⟨hfeas, fun y hy => ?_⟩
    obtain ⟨S, hS, rfl⟩ := feasible_eq_indicator god pool y hy
    have hSf := (indicator_feasible_iff god pool S hS).1 hy
    rw [indicator_objectiveAt god pool _ hS', indicator_objectiveAt god pool S hS]
    exact (hK S hS hSf.1 hSf.2).1

theorem sixPool_starterAt (i : Nat) (hi : i < 6) :
    starterAt sixPool i = [4, 5].contains i := by
  simp [starterAt, sixPool, List.getElem?_map, List.getElem?_range hi, Item.isStarter]

theorem sixPool_coefficientAt (i : Nat) (hi : i < 6) :
    coefficientAt testGod sixPool i = 25 + 6 * (i : ℚ) := by
  simp only [coefficientAt, sixPool, List.getElem?_map, List.getElem?_range hi, Option.map_some',
    coefficient, testGod, testItem, God.getPowerType, Item.getStats, if_true]
  ring

theorem sixPool_infeasible (x : List ℚ) : ¬ (closedModel testGod sixPool).Feasible x := by
  intro h
  obtain ⟨_, hvars, hsum, _, hst⟩ := (closedModel_feasible_iff testGod sixPool x).1 h
  have hlen : sixPool.length = 6 := by simp [sixPool]
  rw [hlen] at hvars hsum hst
  have hs : ∀ i ∈ Finset.range 6,
      (if starterAt sixPool i = true then x.getD i 0 else 0)
        = if [4, 5].contains i = true then x.getD i 0 else 0 := fun i hi => by
    rw [sixPool_starterAt i (Finset.mem_range.1 hi)]
  rw [Finset.sum_congr rfl hs] at hst
  simp only [Finset.sum_range_succ, Finset.sum_range_zero] at hsum hst
  have c0 : ([4, 5] : List Nat).contains 0 = false := by decide
  have c1 : ([4, 5] : List Nat).contains 1 = false := by decide
  have c2 : ([4, 5] : List Nat).contains 2 = false := by decide
  have c3 : ([4, 5] : List Nat).contains 3 = false := by decide
  have c4 : ([4, 5] : List Nat).contains 4 = true := by decide
  have c5 : ([4, 5] : List Nat).contains 5 = true := by decide
  simp only [c0, c1, c2, c3, c4, c5, if_true, Bool.false_eq_true, if_false] at hst
  obtain ⟨_, u0, _⟩ := hvars 0 (by norm_num)
  obtain ⟨_, u1, _⟩ := hvars 1 (by norm_num)
  obtain ⟨_, u2, _⟩ := hvars 2 (by norm_num)
  obtain ⟨_, u3, _⟩ := hvars 3 (by norm_num)
  obtain ⟨_, u4, _⟩ := hvars 4 (by norm_num)
  obtain ⟨_, u5, _⟩ := hvars 5 (by norm_num)
  linarith

/-- C20 (counterexample): in the pool of the six candidates 0 to 5 of the
test, where the six highest-coefficient candidates are the whole pool, exactly
two of them (4 and 5) are starters and the coefficients are pairwise distinct,
the model has no feasible solution at all, and `optimizeBuild` returns no
result, both with a backend that reports INFEASIBLE and with any backend
whose OPTIMAL replies satisfy the model. -/
theorem starter_substitution_needs_spare_candidate :
    sixPool.length = 6 ∧
    starterAt sixPool 4 = true ∧ starterAt sixPool 5 = true ∧
    (∀ i, i < 4 → starterAt sixPool i = false) ∧
    (∀ i j, i < 6 → j < 6 → i ≠ j →
      coefficientAt testGod sixPool i ≠ coefficientAt testGod sixPool j) ∧
    (¬ ∃ x, (buildModel testGod sixPool).1.Feasible x) ∧
    GodBuilder.optimizeBuild { god_ := testGod, available_items_ := sixPool.map some }
        noSolutionBackend = .ok none ∧
    (∀ backend : Backend,
      ((backend (buildModel testGod sixPool).1).status = .OPTIMAL →
        (buildModel testGod sixPool).1.Feasible (backend (buildModel testGod sixPool).1).values) →
      GodBuilder.optimizeBuild { god_ := testGod, available_items_ := sixPool.map some }
        backend = .ok none) := by
  refine ⟨by simp [sixPool], ?_, ?_, ?_, ?_, ?_, ?_, ?_⟩
  · rw [sixPool_starterAt 4 (by norm_num)]; decide
  · rw [sixPool_starterAt 5 (by norm_num)]; decide
  · intro i hi
    rw [sixPool_starterAt i (by omega)]
    interval_cases i <;> decide
  · intro i j hi hj hij h
    rw [sixPool_coefficientAt i hi, sixPool_coefficientAt j hj] at h
    have : (i : ℚ) = (j : ℚ) := by linarith
    exact hij (by exact_mod_cast this)
  · rw [buildModel_eq]
    rintro ⟨x, hx⟩
    exact sixPool_infeasible x hx
  · rw [optimizeBuild_eq]
    simp [noSolutionBackend, sixPool]
  · intro backend hsound
    rw [buildModel_eq] at hsound
    rw [optimizeBuild_eq]
    have hs : (backend (closedModel testGod sixPool)).status ≠ ResultStatus.OPTIMAL :=
      fun h => sixPool_infeasible _ (hsound h)
    simp [hs]

/-- C20 (amended): for every pool in which exactly two of the six
highest-coefficient candidates are starters (coefficients pairwise distinct)
and at least one non-starter lies outside the top six, the model built by
`optimizeBuild` has exactly one optimal solution: the top six with the
lower-coefficient starter `b` replaced by the highest-coefficient non-starter
`m` outside the top six; with a backend that reports OPTIMAL with an optimal
solution, `optimizeBuild` returns a build of exactly those 6 items. -/
theorem starter_substitution (god : God) (pool : List Item) (T : Finset Nat) (a b m : Nat)
    (backend : Backend)
    (hT : T ⊆ Finset.range pool.length) (hTcard : T.card = 6)
    (hdistinct : ∀ i j, i < pool.length → j < pool.length → i ≠ j →
      coefficientAt god pool i ≠ coefficientAt god pool j)
    (htop : ∀ i ∈ T, ∀ j, j < pool.length → j ∉ T →
      coefficientAt god pool j ≤ coefficientAt god pool i)
    (ha : a ∈ T) (hb : b ∈ T)
    (hab : coefficientAt god pool b < coefficientAt god pool a)
    (hexactly : ∀ i ∈ T, starterAt pool i = true ↔ (i = a ∨ i = b))
    (hm : m < pool.length) (hmT : m ∉ T) (hsm : starterAt pool m = false)
    (hmbest : ∀ j, j < pool.length → j ∉ T → starterAt pool j = false →
      coefficientAt god pool j ≤ coefficientAt god pool m)
    (hstatus : (backend (buildModel god pool).1).status = .OPTIMAL)
    (hoptimal : (buildModel god pool).1.Optimal (backend (buildModel god pool).1).values) :
    (∀ x, (buildModel god pool).1.Optimal x ↔
      x = indicator pool.length (insert m (T.erase b))) ∧
    ∃ build dps,
      GodBuilder.optimizeBuild { god_ := god, available_items_ := pool.map some } backend
        = .ok (some (build, dps)) ∧
      build.countItems = 6 ∧
      build.slots.filterMap id
        = (pool.enum.filter (fun e => decide (e.1 ∈ insert m (T.erase b)))).map Prod.snd := by
  rw [buildModel_eq] at hstatus hoptimal ⊢
  dsimp only at hstatus hoptimal ⊢
  have hiff := optimal_iff_substituted god pool T a b m hT hTcard hdistinct htop ha hb hab
    hexactly hm hmT hsm hmbest
  have hS' : insert m (T.erase b) ⊆ Finset.range pool.length := by
    intro i hi
    rcases Finset.mem_insert.1 hi with h | h
    · rw [h]; exact Finset.mem_range.2 hm
    · exact hT (Finset.mem_of_mem_erase h)
  have hcard : (insert m (T.erase b)).card = 6 := by
    rw [Finset.card_insert_of_not_mem (fun h => hmT (Finset.mem_of_mem_erase h)),
      Finset.card_erase_of_mem hb, hTcard]
  have hvalues := (hiff _).1 hoptimal
  have hlen : (chosenItems (backend (closedModel god pool)).values pool).length = 6 := by
    rw [hvalues, chosenItems_indicator_length pool _ hS', hcard]
  have h6 : 6 ≤ pool.length := by
    have := Finset.card_le_card hT
    rw [hTcard, Finset.card_range] at this
    exact this
  refine ⟨hiff, _, _, optimizeBuild_of_optimal god pool backend h6 hstatus hlen,
    (makeBuild_of_six _ hlen).1, ?_⟩
  rw [(makeBuild_of_six _ hlen).2, hvalues, chosenItems_indicator pool _ hS']
  simp

theorem flagged_subset :
    ({4, 5, 6, 7, 8, 9} : Finset Nat) ⊆ Finset.range (flaggedPool [8, 9]).length := by
  rw [flaggedPool_length]
  decide

theorem flagged_distinct (i j : Nat) (hi : i < (flaggedPool [8, 9]).length)
    (hj : j < (flaggedPool [8, 9]).length) (hij : i ≠ j) :
    coefficientAt testGod (flaggedPool [8, 9]) i
      ≠ coefficientAt testGod (flaggedPool [8, 9]) j := by
  rw [flaggedPool_length] at hi hj
  rw [flaggedPool_coefficientAt _ i hi, flaggedPool_coefficientAt _ j hj]
  intro h
  have : (i : ℚ) = (j : ℚ) := by linarith
  exact hij (by exact_mod_cast this)

theorem flagged_top (i : Nat) (hi : i ∈ ({4, 5, 6, 7, 8, 9} : Finset Nat)) (j : Nat)
    (hj : j < (flaggedPool [8, 9]).length) (hjT : j ∉ ({4, 5, 6, 7, 8, 9} : Finset Nat)) :
    coefficientAt testGod (flaggedPool [8, 9]) j
      ≤ coefficientAt testGod (flaggedPool [8, 9]) i := by
  rw [flaggedPool_length] at hj
  simp only [Finset.mem_insert, Finset.mem_singleton] at hi hjT
  have hi10 : i < 10 := by omega
  rw [flaggedPool_coefficientAt _ i hi10, flaggedPool_coefficientAt _ j hj]
  have : (j : ℚ) ≤ (i : ℚ) := by exact_mod_cast (by omega : j ≤ i)
  linarith

theorem flagged_lower :
    coefficientAt testGod (flaggedPool [8, 9]) 8
      < coefficientAt testGod (flaggedPool [8, 9]) 9 := by
  rw [flaggedPool_coefficientAt _ 8 (by norm_num), flaggedPool_coefficientAt _ 9 (by norm_num)]
  norm_num

theorem flagged_exactly (i : Nat) (hi : i ∈ ({4, 5, 6, 7, 8, 9} : Finset Nat)) :
    starterAt (flaggedPool [8, 9]) i = true ↔ (i = 9 ∨ i = 8) := by
  simp only [Finset.mem_insert, Finset.mem_singleton] at hi
  rw [flaggedPool_starterAt _ i (by omega)]
  rcases hi with h | h | h | h | h | h <;> subst h <;> decide

theorem flagged_spare_not_starter : starterAt (flaggedPool [8, 9]) 3 = false := by
  rw [flaggedPool_starterAt _ 3 (by norm_num)]
  decide

theorem flagged_spare_best (j : Nat) (hj : j < (flaggedPool [8, 9]).length)
    (hjT : j ∉ ({4, 5, 6, 7, 8, 9} : Finset Nat))
    (_hs : starterAt (flaggedPool [8, 9]) j = false) :
    coefficientAt testGod (flaggedPool [8, 9]) j
      ≤ coefficientAt testGod (flaggedPool [8, 9]) 3 := by
  rw [flaggedPool_length] at hj
  simp only [Finset.mem_insert, Finset.mem_singleton] at hjT
  rw [flaggedPool_coefficientAt _ j hj, flaggedPool_coefficientAt _ 3 (by norm_num)]
  have : (j : ℚ) ≤ 3 := by exact_mod_cast (by omega : j ≤ 3)
  push_cast
  linarith

theorem substitutedSix_eq_indicator :
    substitutedSix
      = indicator (flaggedPool [8, 9]).length
          (insert 3 (({4, 5, 6, 7, 8, 9} : Finset Nat).erase 8)) := by
  rw [flaggedPool_length]
  decide

/-- C20 (amended) at the pool of the test with the candidates 8 and 9 flagged
as starters: the top six are 4 to 9, the lower starter is 8, the best
non-starter outside is 3, and the backend reports the selection 3 to 7 and
9. -/
theorem starter_substitution_witness :
    (∀ x, (buildModel testGod (flaggedPool [8, 9])).1.Optimal x ↔
      x = indicator (flaggedPool [8, 9]).length
        (insert 3 (({4, 5, 6, 7, 8, 9} : Finset Nat).erase 8))) ∧
    ∃ build dps,
      GodBuilder.optimizeBuild
          { god_ := testGod, available_items_ := (flaggedPool [8, 9]).map some }
          (optimalBackend 354 substitutedSix)
        = .ok (some (build, dps)) ∧
      build.countItems = 6 ∧
      build.slots.filterMap id
        = ((flaggedPool [8, 9]).enum.filter
            (fun e => decide (e.1 ∈ insert 3 (({4, 5, 6, 7, 8, 9} : Finset Nat).erase 8)))).map
            Prod.snd :=
  starter_substitution testGod (flaggedPool [8, 9]) {4, 5, 6, 7, 8, 9} 9 8 3
    (optimalBackend 354 substitutedSix)
    flagged_subset (by decide) flagged_distinct flagged_top (by decide) (by decide)
    flagged_lower flagged_exactly (by rw [flaggedPool_length]; norm_num) (by decide)
    flagged_spare_not_starter flagged_spare_best rfl
    (by
      rw [buildModel_eq]
      exact (optimal_iff_substituted testGod (flaggedPool [8, 9]) {4, 5, 6, 7, 8, 9} 9 8 3
        flagged_subset (by decide) flagged_distinct flagged_top (by decide) (by decide)
        flagged_lower flagged_exactly (by rw [flaggedPool_length]; norm_num) (by decide)
        flagged_spare_not_starter flagged_spare_best substitutedSix).2
        substitutedSix_eq_indicator)

end smite

namespace tw

/-! ## Reading results, the hierarchy and reachable states -/

theorem step_read (p : Problem) (op : Problem.Op) (h : op.isRead = true) : p.step op = p := by
  cases op with
  | getBuildings => rfl
  | getObjectiveValue =>
    simp only [Problem.step, Problem.getObjectiveValue]
    split_ifs <;> rfl
  | addProvince q => cases h
  | addProvinces qs => cases h
  | addBuildings => cases h
  | addObjective => cases h
  | solve backend verbose => cases h

theorem run_reads (p : Problem) (ops : List Problem.Op) (h : ∀ op ∈ ops, op.isRead = true) :
    p.run ops = p := by
  induction ops with
  | nil => rfl
  | cons op ops ih =>
    unfold Problem.run at ih ⊢
    rw [List.foldl_cons, step_read p op (h op (List.mem_cons_self _ _))]
    exact ih (fun o ho => h o (List.mem_cons_of_mem _ ho))

/-- C23: for every Problem in state SOLVED, any number of calls of
`getObjectiveValue` and `getBuildings` leaves the problem (state, province
collection, solver) unchanged, and a call made after them returns the same
value as the first call: the solver's objective value, and the buildings of
the hierarchy. -/
theorem reads_idempotent (p : Problem) (ops : List Problem.Op)
    (hsolved : p.state_ = .SOLVED) (hreads : ∀ op ∈ ops, op.isRead = true) :
    p.run ops = p ∧
    (p.run ops).state_ = .SOLVED ∧
    (p.run ops).provinces_ = p.provinces_ ∧
    (p.run ops).solver_ = p.solver_ ∧
    p.getObjectiveValue.result = .ok p.solver_.getObjectiveValue ∧
    (p.run ops).getObjectiveValue.result = p.getObjectiveValue.result ∧
    (p.run ops).getBuildings.result = p.getBuildings.result ∧
    p.getObjectiveValue.after = p ∧ p.getBuildings.after = p := by
  rw [run_reads p ops hreads]
  refine ⟨rfl, hsolved, rfl, rfl, ?_, rfl, rfl, ?_, rfl⟩
  · simp [Problem.getObjectiveValue, hsolved]
  · simp [Problem.getObjectiveValue, hsolved]

/-- C23 at a solved problem read three times. -/
theorem reads_idempotent_witness :
    (farmProblem.solve optimalZeroBackend false).after.run
        [.getObjectiveValue, .getBuildings, .getObjectiveValue]
      = (farmProblem.solve optimalZeroBackend false).after ∧
    ((farmProblem.solve optimalZeroBackend false).after.run
        [.getObjectiveValue, .getBuildings, .getObjectiveValue]).state_ = .SOLVED ∧
    ((farmProblem.solve optimalZeroBackend false).after.run
        [.getObjectiveValue, .getBuildings, .getObjectiveValue]).provinces_
      = (farmProblem.solve optimalZeroBackend false).after.provinces_ ∧
    ((farmProblem.solve optimalZeroBackend false).after.run
        [.getObjectiveValue, .getBuildings, .getObjectiveValue]).solver_
      = (farmProblem.solve optimalZeroBackend false).after.solver_ ∧
    (farmProblem.solve optimalZeroBackend false).after.getObjectiveValue.result
      = .ok (farmProblem.solve optimalZeroBackend false).after.solver_.getObjectiveValue ∧
    ((farmProblem.solve optimalZeroBackend false).after.run
        [.getObjectiveValue, .getBuildings, .getObjectiveValue]).getObjectiveValue.result
      = (farmProblem.solve optimalZeroBackend false).after.getObjectiveValue.result ∧
    ((farmProblem.solve optimalZeroBackend false).after.run
        [.getObjectiveValue, .getBuildings, .getObjectiveValue]).getBuildings.result
      = (farmProblem.solve optimalZeroBackend false).after.getBuildings.result ∧
    (farmProblem.solve optimalZeroBackend false).after.getObjectiveValue.after
      = (farmProblem.solve optimalZeroBackend false).after ∧
    (farmProblem.solve optimalZeroBackend false).after.getBuildings.after
      = (farmProblem.solve optimalZeroBackend false).after :=
  reads_idempotent (farmProblem.solve optimalZeroBackend false).after
    [.getObjectiveValue, .getBuildings, .getObjectiveValue] (by decide)
    (by
      intro op hop
      simp only [List.mem_cons, List.mem_singleton, List.not_mem_nil, or_false] at hop
      rcases hop with h | h | h <;> rw [h] <;> rfl)

/-- C25: on every Effect each setter changes its own field to the value given
and leaves the three other getters as they were, and a default-constructed
Effect has all four fields equal to 0. -/
theorem effect_fields_independent (e : Effect) (v : ℚ) :
    ((e.setGdp v).gdp = v ∧ (e.setGdp v).publicOrder = e.publicOrder ∧
      (e.setGdp v).sanitation = e.sanitation ∧ (e.setGdp v).food = e.food) ∧
    ((e.setPublicOrder v).publicOrder = v ∧ (e.setPublicOrder v).gdp = e.gdp ∧
      (e.setPublicOrder v).sanitation = e.sanitation ∧ (e.setPublicOrder v).food = e.food) ∧
    ((e.setSanitation v).sanitation = v ∧ (e.setSanitation v).gdp = e.gdp ∧
      (e.setSanitation v).publicOrder = e.publicOrder ∧ (e.setSanitation v).food = e.food) ∧
    ((e.setFood v).food = v ∧ (e.setFood v).gdp = e.gdp ∧
      (e.setFood v).publicOrder = e.publicOrder ∧ (e.setFood v).sanitation = e.sanitation) ∧
    (({} : Effect).gdp = 0 ∧ ({} : Effect).publicOrder = 0 ∧ ({} : Effect).sanitation = 0 ∧
      ({} : Effect).food = 0) :=
  ⟨⟨rfl, rfl, rfl, rfl⟩, ⟨rfl, rfl, rfl, rfl⟩, ⟨rfl, rfl, rfl, rfl⟩, ⟨rfl, rfl, rfl, rfl⟩,
    ⟨rfl, rfl, rfl, rfl⟩⟩

/-- C26: in every state `getBuildings` returns the concatenation, over the
provinces in collection order, over each province's regions in order, of each
region's buildings in order; its length is the sum of the regions' building
counts; `Region::addBuilding`, `Province::addRegion` and
`Problem::addProvince` append at the end and keep the earlier elements. -/
theorem getBuildings_flattens (p : Problem) (r : Region) (b : Building) (q : Province)
    (g : Region) :
    p.getBuildings.result
      = .ok (p.provinces_.map
          (fun province => (province.regions_.map (fun region => region.buildings_)).flatten)).flatten ∧
    (∃ bs, p.getBuildings.result = .ok bs ∧
      bs.length
        = (p.provinces_.map
            (fun province =>
              (province.regions_.map (fun region => region.buildings_.length)).sum)).sum) ∧
    (r.addBuilding b).getBuildings = r.getBuildings ++ [b] ∧
    (q.addRegion g).getRegions = q.getRegions ++ [g] ∧
    (p.addProvince q).after.provinces_ = p.provinces_ ++ [q] := by
  refine ⟨getBuildings_result p, ⟨_, getBuildings_result p, ?_⟩, rfl, rfl, rfl⟩
  simp only [Problem.hierarchyBuildings, Province.getRegions, Region.getBuildings,
    List.length_flatten, List.map_map]
  congr 1
  apply List.map_congr_left
  intro province _
  simp only [Function.comp, List.length_flatten, List.map_map]
  rfl

theorem step_constraints (p : Problem) (op : Problem.Op) :
    (p.step op).solver_.solver_.constraints = p.solver_.solver_.constraints ∧
    (p.step op).solver_.solver_.variables_ = p.solver_.solver_.variables_ := by
  cases op with
  | addProvince q => exact ⟨rfl, rfl⟩
  | addProvinces qs =>
    have h := (addProvinces_loop_provinces { result := .ok (), after := p } rfl qs).2
    simp only [Problem.step, Problem.addProvinces, h, and_self]
  | addBuildings =>
    simp only [Problem.step, Problem.addBuildings]
    split_ifs <;> exact ⟨rfl, rfl⟩
  | addObjective =>
    simp only [Problem.step, Problem.addObjective]
    split_ifs <;> exact ⟨rfl, rfl⟩
  | solve backend verbose =>
    simp only [Problem.step, Problem.solve]
    split_ifs <;> exact ⟨rfl, rfl⟩
  | getBuildings => exact ⟨rfl, rfl⟩
  | getObjectiveValue =>
    simp only [Problem.step, Problem.getObjectiveValue]
    split_ifs <;> exact ⟨rfl, rfl⟩

theorem step_not_constraints_added (p : Problem) (op : Problem.Op)
    (h : p.state_ ≠ .CONSTRAINTS_ADDED) : (p.step op).state_ ≠ .CONSTRAINTS_ADDED := by
  cases op with
  | addProvince q => simp [Problem.step, Problem.addProvince]
  | addProvinces qs =>
    simp only [Problem.step, addProvinces_state]
    split_ifs
    · exact h
    · simp
  | addBuildings =>
    simp only [Problem.step, Problem.addBuildings]
    split_ifs
    · exact h
    · simp
  | addObjective =>
    simp only [Problem.step, Problem.addObjective]
    split_ifs
    · exact h
    · simp
  | solve backend verbose =>
    simp only [Problem.step, Problem.solve]
    split_ifs
    · exact h
    · exact h
    · simp
  | getBuildings => exact h
  | getObjectiveValue =>
    simp only [Problem.step, Problem.getObjectiveValue]
    split_ifs <;> exact h

theorem run_invariant (p : Problem) (ops : List Problem.Op)
    (h : p.state_ ≠ .CONSTRAINTS_ADDED) :
    (p.run ops).state_ ≠ .CONSTRAINTS_ADDED ∧
    (p.run ops).solver_.solver_.constraints = p.solver_.solver_.constraints ∧
    (p.run ops).solver_.solver_.variables_ = p.solver_.solver_.variables_ := by
  induction ops generalizing p with
  | nil => exact ⟨h, rfl, rfl⟩
  | cons op ops ih =>
    have hstep := ih (p.step op) (step_not_constraints_added p op h)
    unfold Problem.run at hstep ⊢
    rw [List.foldl_cons]
    exact ⟨hstep.1, hstep.2.1.trans (step_constraints p op).1,
      hstep.2.2.trans (step_constraints p op).2⟩

/-- C28: after every finite sequence of public operations on a freshly
constructed Problem, and after every initial part of it, the state is not
CONSTRAINTS_ADDED and the solver holds no constraint (and no variable); no
operation changes the rows of the solver, and `SolverOrTools::addConstraint`
itself registers nothing. -/
theorem constraints_added_unreachable (ops : List Problem.Op) :
    (Problem.create.run ops).state_ ≠ .CONSTRAINTS_ADDED ∧
    (∀ k, (Problem.create.run (ops.take k)).state_ ≠ .CONSTRAINTS_ADDED) ∧
    (Problem.create.run ops).numConstraints = 0 ∧
    (Problem.create.run ops).numVariables = 0 ∧
    (∀ (p : Problem) (op : Problem.Op),
      (p.step op).solver_.solver_.constraints = p.solver_.solver_.constraints) ∧
    (∀ (s : SolverOrTools) (name : String), s.addConstraint name = s) := by
  have hinit : Problem.create.state_ ≠ .CONSTRAINTS_ADDED := by decide
  refine ⟨(run_invariant _ ops hinit).1, fun k => (run_invariant _ _ hinit).1, ?_, ?_,
    fun p op => (step_constraints p op).1, fun _ _ => rfl⟩
  · simp only [Problem.numConstraints, SolverOrTools.numConstraints,
      (run_invariant _ ops hinit).2.1]
    rfl
  · simp only [Problem.numVariables, SolverOrTools.numVariables,
      (run_invariant _ ops hinit).2.2]
    rfl

/-! ## `Problem::addObjective`: the direction only -/

theorem createVariable_numVariables (s : SolverOrTools) (name category : String) :
    (s.createVariable name category).2.numVariables = s.numVariables + 1 ∧
    (s.createVariable name category).1 = s.numVariables ∧
    ((s.createVariable name category).2.solver_.variables_.get?
        (s.createVariable name category).1).map (fun v => v.name) = some name := by
  unfold SolverOrTools.createVariable
  split_ifs <;>
    simp [SolverOrTools.numVariables, MPSolver.MakeBoolVar, MPSolver.MakeIntVar,
      MPSolver.MakeNumVar]

theorem createAll_numVariables (s : SolverOrTools) (calls : List (String × String)) :
    (createAll s calls).numVariables = s.numVariables + calls.length := by
  induction calls generalizing s with
  | nil => rfl
  | cons call calls ih =>
    unfold createAll at ih ⊢
    rw [List.foldl_cons, ih, (createVariable_numVariables s call.1 call.2).1, List.length_cons]
    omega

/-- C24 (counterexample): on a fresh solver, `createVariable("x", "Binary")`
twice adds two variables, both named x; the second call returns the handle 1
like any other creation. -/
theorem createVariable_accepts_duplicate :
    (createAll SolverOrTools.create [("x", "Binary"), ("x", "Binary")]).numVariables = 2 ∧
    (createAll SolverOrTools.create [("x", "Binary"), ("x", "Binary")]).solver_.variables_.map
        (fun v => v.name) = ["x", "x"] ∧
    ((createAll SolverOrTools.create [("x", "Binary")]).createVariable "x" "Binary").1 = 1 := by
  decide

/-- C24 (amended): `createVariable` makes no uniqueness check: for every
solver and every name, used or not, it adds exactly one variable, named as
asked, and returns its handle; so after n creations on a fresh solver
`numVariables()` is n, whether or not the names are distinct. -/
theorem createVariable_always_adds (s : SolverOrTools) (name category : String)
    (calls : List (String × String)) :
    (s.createVariable name category).2.numVariables = s.numVariables + 1 ∧
    (s.createVariable name category).1 = s.numVariables ∧
    ((s.createVariable name category).2.solver_.variables_.get?
        (s.createVariable name category).1).map (fun v => v.name) = some name ∧
    (createAll s calls).numVariables = s.numVariables + calls.length ∧
    (createAll SolverOrTools.create calls).numVariables = calls.length := by
  obtain ⟨h1, h2, h3⟩ := createVariable_numVariables s name category
  refine ⟨h1, h2, h3, createAll_numVariables s calls, ?_⟩
  rw [createAll_numVariables]
  simp [SolverOrTools.numVariables, SolverOrTools.create, MPSolver.create]

end tw

namespace smite

open GodBuilder

/-! ## The two DPS implementations -/

theorem getDpsBasicAttackBuild_eq (god : God) (pool : List (Option Item)) (b : Build) :
    god.getDpsBasicAttackBuild b
      = GodBuilder.calculateDps { god_ := god, available_items_ := pool } b.slots := rfl

/-- C27: for every god and every build, `God::getDpsBasicAttack(build)` equals
`GodBuilder::calculateDps` of the six slots of the build for a builder made
from the same god (empty slots skipped by both); `God::getDpsBasicAttack()`
equals `getDpsBasicAttack` of the empty build; and the dps returned by
`optimizeBuild` equals `God::getDpsBasicAttack` of the returned build. -/
theorem dps_implementations_agree (god : God) (candidates : List (Option Item)) (b : Build)
    (pool : List Item) (backend : Backend) (build : Build) (dps : ℚ)
    (h : GodBuilder.optimizeBuild { god_ := god, available_items_ := pool.map some } backend
      = .ok (some (build, dps))) :
    god.getDpsBasicAttackBuild b
      = GodBuilder.calculateDps { god_ := god, available_items_ := candidates }
          [b.item1, b.item2, b.item3, b.item4, b.item5, b.item6] ∧
    god.getDpsBasicAttack = god.getDpsBasicAttackBuild {} ∧
    dps = god.getDpsBasicAttackBuild build := by
  refine ⟨rfl, rfl, ?_⟩
  obtain ⟨_, _, hc, hb, hd⟩ := optimizeBuild_some god pool backend build dps h
  rw [getDpsBasicAttackBuild_eq god (pool.map some), calculateDps_eq, hd, hb,
    (makeBuild_of_six _ hc).2]
  simp

/-- C27 at the pool of the test with candidates 8 and 9 flagged as starters,
a backend reporting the selection 3 to 7 and 9, and the build holding only
candidate 0. -/
theorem dps_implementations_agree_witness :
    testGod.getDpsBasicAttackBuild { item1 := some (testItem 0) }
      = GodBuilder.calculateDps { god_ := testGod, available_items_ := fivePool }
          [({ item1 := some (testItem 0) } : Build).item1,
           ({ item1 := some (testItem 0) } : Build).item2,
           ({ item1 := some (testItem 0) } : Build).item3,
           ({ item1 := some (testItem 0) } : Build).item4,
           ({ item1 := some (testItem 0) } : Build).item5,
           ({ item1 := some (testItem 0) } : Build).item6] ∧
    testGod.getDpsBasicAttack = testGod.getDpsBasicAttackBuild {} ∧
    exactMetric testGod (chosenItems substitutedSix (flaggedPool [8, 9]))
      = testGod.getDpsBasicAttackBuild
          (makeBuild (chosenItems substitutedSix (flaggedPool [8, 9]))) :=
  dps_implementations_agree testGod fivePool { item1 := some (testItem 0) }
    (flaggedPool [8, 9]) (optimalBackend 0 substitutedSix)
    (makeBuild (chosenItems substitutedSix (flaggedPool [8, 9])))
    (exactMetric testGod (chosenItems substitutedSix (flaggedPool [8, 9])))
    substituted_result

end smite

namespace tw

/-! ## Identity tokens of buildings -/

theorem digitValue_digitChar (k : Nat) (h : k < 10) : digitValue (Nat.digitChar k) = k := by
  interval_cases k <;> rfl

theorem toDigitsCore_append (fuel n : Nat) (ds : List Char) :
    Nat.toDigitsCore 10 fuel n ds = Nat.toDigitsCore 10 fuel n [] ++ ds := by
  induction fuel generalizing n ds with
  | zero => simp [Nat.toDigitsCore]
  | succ fuel ih =>
    simp only [Nat.toDigitsCore]
    split_ifs
    · simp
    · rw [ih (n / 10) (Nat.digitChar (n % 10) :: ds), ih (n / 10) [Nat.digitChar (n % 10)]]
      simp

theorem decodeDigits_toDigitsCore (fuel n : Nat) (h : n < fuel) :
    decodeDigits 0 (Nat.toDigitsCore 10 fuel n []) = n := by
  induction fuel generalizing n with
  | zero => omega
  | succ fuel ih =>
    simp only [Nat.toDigitsCore]
    split_ifs with h0
    · simp only [decodeDigits, List.foldl_cons, List.foldl_nil, Nat.mul_zero, Nat.zero_add]
      rw [digitValue_digitChar _ (Nat.mod_lt _ (by norm_num))]
      have := Nat.div_add_mod n 10
      omega
    · rw [toDigitsCore_append]
      have hlt : n / 10 < fuel := by omega
      have := ih (n / 10) hlt
      unfold decodeDigits at this ⊢
      rw [List.foldl_append, this]
      simp only [List.foldl_cons, List.foldl_nil]
      rw [digitValue_digitChar _ (Nat.mod_lt _ (by norm_num))]
      exact Nat.div_add_mod n 10

theorem toString_nat_injective (n m : Nat) (h : toString n = toString m) : n = m := by
  have h' : (Nat.toDigits 10 n).asString = (Nat.toDigits 10 m).asString := h
  have hd : Nat.toDigits 10 n = Nat.toDigits 10 m := by
    have := congrArg String.data h'
    simpa using this
  have hn := decodeDigits_toDigitsCore (n + 1) n (Nat.lt_succ_self n)
  have hm := decodeDigits_toDigitsCore (m + 1) m (Nat.lt_succ_self m)
  unfold Nat.toDigits at hd
  rw [hd] at hn
  exact hn.symm.trans hm

theorem token_injective (n m : Nat) (h : "B" ++ toString n = "B" ++ toString m) : n = m := by
  apply toString_nat_injective
  have := congrArg String.data h
  simp only [String.data_append] at this
  exact String.ext (List.append_cancel_left this)

theorem construct_ok (c : Nat) (name printName hashName : String) (b : Building) (c1 : Nat)
    (h : Building.construct c name printName hashName = .ok (b, c1)) :
    (hashName = "" ∧ b.hash_name_ = "B" ++ toString c ∧ c1 = c + 1 ∧ c < INT_MAX) ∨
    (hashName ≠ "" ∧ b.hash_name_ = hashName ∧ c1 = c) := by
  unfold Building.construct at h
  by_cases hh : hashName = ""
  · by_cases hc : c ≥ INT_MAX
    · simp [hh, hc] at h
    · simp only [hh, hc, if_true, if_false, Except.ok.injEq, Prod.mk.injEq] at h
      exact Or.inl ⟨hh, by rw [← h.1], h.2.symm, Nat.lt_of_not_le hc⟩
  · simp only [hh, if_false, Except.ok.injEq, Prod.mk.injEq] at h
    exact Or.inr ⟨hh, by rw [← h.1], h.2.symm⟩

theorem constructAll_cons (c : Nat) (args : BuildingArgs) (rest : List BuildingArgs)
    (bs : List Building) (last : Nat) (h : constructAll c (args :: rest) = .ok (bs, last)) :
    ∃ b c1 bs', Building.construct c args.name args.printName args.hashName = .ok (b, c1) ∧
      constructAll c1 rest = .ok (bs', last) ∧ bs = b :: bs' := by
  unfold constructAll at h
  cases h1 : Building.construct c args.name args.printName args.hashName with
  | error e => rw [h1] at h; cases h
  | ok r =>
    obtain ⟨b, c1⟩ := r
    rw [h1] at h
    dsimp only at h
    cases h2 : constructAll c1 rest with
    | error e => rw [h2] at h; cases h
    | ok r2 =>
      obtain ⟨bs', last'⟩ := r2
      rw [h2] at h
      simp only [Except.ok.injEq, Prod.mk.injEq] at h
      exact ⟨b, c1, bs', rfl, by rw [h2, h.2], h.1.symm⟩

theorem constructAll_tokens (c : Nat) (reqs : List BuildingArgs) (bs : List Building)
    (last : Nat) (h : constructAll c reqs = .ok (bs, last)) :
    bs.length = reqs.length ∧
    (generated reqs bs).map (fun p => p.2.getHashName)
      = (List.range' c (generated reqs bs).length).map (fun k => "B" ++ toString k) ∧
    last = c + (generated reqs bs).length ∧
    (∀ p ∈ reqs.zip bs, p.1.hashName ≠ "" → p.2.getHashName = p.1.hashName) := by
  induction reqs generalizing c bs last with
  | nil =>
    simp only [constructAll, Except.ok.injEq, Prod.mk.injEq] at h
    rw [← h.1, ← h.2]
    simp [generated]
  | cons args rest ih =>
    obtain ⟨b, c1, bs', hb, hrest, rfl⟩ := constructAll_cons c args rest bs last h
    obtain ⟨hlen, htok, hlast, hexp⟩ := ih c1 bs' last hrest
    rcases construct_ok c _ _ _ b c1 hb with ⟨hh, hname, hc1, _⟩ | ⟨hh, hname, hc1⟩
    · have hgen : generated (args :: rest) (b :: bs') = (args, b) :: generated rest bs' := by
        simp [generated, List.filter_cons, hh]
      rw [hgen]
      refine ⟨by simp [hlen], ?_, ?_, ?_⟩
      · simp only [List.map_cons, List.length_cons, List.range'_succ, Building.getHashName,
          hname]
        rw [← hc1]
        exact congrArg _ htok
      · rw [hlast, hc1, List.length_cons]; omega
      · intro p hp hne
        rcases List.mem_cons.1 (by simpa using hp) with hp | hp
        · rw [hp] at hne; exact absurd hh hne
        · exact hexp p hp hne
    · have hgen : generated (args :: rest) (b :: bs') = generated rest bs' := by
        simp [generated, List.filter_cons, hh]
      rw [hgen]
      refine ⟨by simp [hlen], ?_, ?_, ?_⟩
      · rw [← hc1]; exact htok
      · rw [hlast, hc1]
      · intro p hp hne
        rcases List.mem_cons.1 (by simpa using hp) with hp | hp
        · rw [hp]; exact hname
        · exact hexp p hp hne

/-- C22 (counterexample): two constructions with the same explicit hash name
give two distinct buildings with the same identity token; an explicit hash
name can also coincide with a token taken from the counter; and a copy has the
token of its source. -/
theorem identity_token_shared :
    constructAll 0 [{ name := "Farm", hashName := "X" }, { name := "Mine", hashName := "X" }]
      = .ok ([{ name_ := "Farm", print_name_ := "Farm", hash_name_ := "X" },
              { name_ := "Mine", print_name_ := "Mine", hash_name_ := "X" }], 0) ∧
    ({ name_ := "Farm", print_name_ := "Farm", hash_name_ := "X" } : Building)
      ≠ { name_ := "Mine", print_name_ := "Mine", hash_name_ := "X" } ∧
    ({ name_ := "Farm", print_name_ := "Farm", hash_name_ := "X" } : Building).getHashName
      = ({ name_ := "Mine", print_name_ := "Mine", hash_name_ := "X" } : Building).getHashName ∧
    constructAll 0 [{ name := "Farm" }, { name := "Mine", hashName := "B0" }]
      = .ok ([{ name_ := "Farm", print_name_ := "Farm", hash_name_ := "B0" },
              { name_ := "Mine", print_name_ := "Mine", hash_name_ := "B0" }], 1) ∧
    (Building.copy farm).getHashName = farm.getHashName :=
  ⟨rfl, by decide, rfl, rfl, rfl⟩

/-- C22 (amended): in every sequence of constructions that starts with the
counter at `c` and completes, the buildings constructed without an explicit
hash name receive, in construction order, the tokens B`c`, B`c+1`, ...: the
counter values are strictly increasing, never reused, and these tokens are
pairwise distinct; the counter ends at `c` plus their number. A building
constructed with an explicit hash name has that name as its token, and a copy
has the token of its source. -/
theorem generated_tokens_unique (c : Nat) (reqs : List BuildingArgs) (bs : List Building)
    (last : Nat) (h : constructAll c reqs = .ok (bs, last)) :
    bs.length = reqs.length ∧
    (generated reqs bs).map (fun p => p.2.getHashName)
      = (List.range' c (generated reqs bs).length).map (fun k => "B" ++ toString k) ∧
    ((generated reqs bs).map (fun p => p.2.getHashName)).Nodup ∧
    last = c + (generated reqs bs).length ∧
    (∀ p ∈ reqs.zip bs, p.1.hashName ≠ "" → p.2.getHashName = p.1.hashName) ∧
    (∀ b : Building, (Building.copy b).getHashName = b.getHashName) := by
  obtain ⟨hlen, htok, hlast, hexp⟩ := constructAll_tokens c reqs bs last h
  refine ⟨hlen, htok, ?_, hlast, hexp, fun _ => rfl⟩
  rw [htok]
  exact (List.nodup_range' c _).map (fun n m hnm => token_injective n m hnm)

/-- C22 (amended) at a fresh process constructing Farm, Mine with the explicit
hash name X, and Port. -/
theorem generated_tokens_unique_witness :
    sampleBuildings.length = sampleArgs.length ∧
    (generated sampleArgs sampleBuildings).map (fun p => p.2.getHashName)
      = (List.range' 0 (generated sampleArgs sampleBuildings).length).map
          (fun k => "B" ++ toString k) ∧
    ((generated sampleArgs sampleBuildings).map (fun p => p.2.getHashName)).Nodup ∧
    2 = 0 + (generated sampleArgs sampleBuildings).length ∧
    (∀ p ∈ sampleArgs.zip sampleBuildings,
      p.1.hashName ≠ "" → p.2.getHashName = p.1.hashName) ∧
    (∀ b : Building, (Building.copy b).getHashName = b.getHashName) :=
  generated_tokens_unique 0 sampleArgs sampleBuildings 2 rfl

end tw

namespace smite

open GodBuilder

/-! ## Adding a candidate to the pool -/

theorem sum_filter_map_eq (l : List (Nat × Item)) (g : Nat × Item → ℚ)
    (P : Nat × Item → Bool) :
    ((l.filter P).map g).sum = (l.map (fun e => if P e = true then g e else 0)).sum := by
  induction l with
  | nil => rfl
  | cons e l ih =>
    by_cases h : P e = true
    · simp [List.filter_cons, h, ih]
    · simp [List.filter_cons, h, ih]

theorem finset_sum_range_eq_list (n : Nat) (f : Nat → ℚ) :
    Finset.sum (Finset.range n) f = ((List.range n).map f).sum := by
  induction n with
  | zero => rfl
  | succ n ih =>
    rw [Finset.sum_range_succ, List.range_succ, List.map_append, List.sum_append, ih]
    simp

theorem proxy_chosen_indicator (god : God) (pool : List Item) (S : Finset Nat)
    (hS : S ⊆ Finset.range pool.length) :
    ((chosenItems (indicator pool.length S) pool).map (coefficient god)).sum
      = S.sum (coefficientAt god pool) := by
  rw [chosenItems_indicator pool S hS, List.map_map, sum_filter_map_eq]
  have hcongr : pool.enum.map
      (fun e => if decide (e.1 ∈ S) = true then (coefficient god ∘ Prod.snd) e else 0)
        = pool.enum.map
            ((fun i => if i ∈ S then coefficientAt god pool i else 0) ∘ Prod.fst) := by
    apply List.map_congr_left
    intro e he
    have hget : pool[e.1]? = some e.2 :=
      List.mk_mem_enum_iff_getElem?.1 (show (e.1, e.2) ∈ pool.enum from he)
    simp [coefficientAt, hget]
  rw [hcongr, ← List.map_map, List.enum_map_fst, ← finset_sum_range_eq_list,
    Finset.sum_ite_mem, Finset.inter_eq_right.2 hS]

theorem proxyValue_makeBuild (god : God) (chosen : List Item) (h : chosen.length = 6) :
    proxyValue god (makeBuild chosen) = (chosen.map (coefficient god)).sum := by
  unfold proxyValue
  rw [(makeBuild_of_six chosen h).2]
  simp

theorem starterAt_append_left (pool : List Item) (d : Item) (i : Nat) (hi : i < pool.length) :
    starterAt (pool ++ [d]) i = starterAt pool i := by
  simp [starterAt, List.getElem?_append_left hi]

theorem coefficientAt_append_left (god : God) (pool : List Item) (d : Item) (i : Nat)
    (hi : i < pool.length) :
    coefficientAt god (pool ++ [d]) i = coefficientAt god pool i := by
  simp [coefficientAt, List.getElem?_append_left hi]

theorem optimum_monotone (god : God) (pool : List Item) (d : Item) (x1 x2 : List ℚ)
    (h1 : (closedModel god pool).Optimal x1)
    (h2 : (closedModel god (pool ++ [d])).Optimal x2) :
    (closedModel god pool).objectiveAt x1 ≤ (closedModel god (pool ++ [d])).objectiveAt x2 := by
  obtain ⟨S, hS, rfl⟩ := feasible_eq_indicator god pool x1 h1.1
  have hSf := (indicator_feasible_iff god pool S hS).1 h1.1
  have hlen : (pool ++ [d]).length = pool.length + 1 := by simp
  have hS' : S ⊆ Finset.range (pool ++ [d]).length := by
    intro i hi
    rw [hlen]
    exact Finset.mem_range.2 (Nat.lt_succ_of_lt (Finset.mem_range.1 (hS hi)))
  have hfilter : S.filter (fun i => starterAt (pool ++ [d]) i = true)
      = S.filter (fun i => starterAt pool i = true) := by
    apply Finset.filter_congr
    intro i hi
    rw [starterAt_append_left pool d i (Finset.mem_range.1 (hS hi))]
  have hfeas : (closedModel god (pool ++ [d])).Feasible (indicator (pool ++ [d]).length S) := by
    rw [indicator_feasible_iff god (pool ++ [d]) S hS', hfilter]
    exact hSf
  have hbest := h2.2 _ hfeas
  have hmax : (closedModel god (pool ++ [d])).objective.maximization = true := rfl
  rw [hmax] at hbest
  simp only [if_true] at hbest
  rw [indicator_objectiveAt god (pool ++ [d]) S hS'] at hbest
  rw [indicator_objectiveAt god pool S hS]
  have hsum : S.sum (coefficientAt god (pool ++ [d])) = S.sum (coefficientAt god pool) :=
    Finset.sum_congr rfl
      (fun i hi => coefficientAt_append_left god pool d i (Finset.mem_range.1 (hS hi)))
  rw [hsum] at hbest
  exact hbest

theorem proxy_of_optimal (god : God) (pool : List Item) (backend : Backend) (build : Build)
    (dps : ℚ)
    (hopt : (closedModel god pool).Optimal (backend (closedModel god pool)).values)
    (h : GodBuilder.optimizeBuild { god_ := god, available_items_ := pool.map some } backend
      = .ok (some (build, dps))) :
    proxyValue god build = (closedModel god pool).objectiveAt (backend (closedModel god pool)).values := by
  obtain ⟨_, _, hc, hb, _⟩ := optimizeBuild_some god pool backend build dps h
  obtain ⟨S, hS, hx⟩ := feasible_eq_indicator god pool _ hopt.1
  rw [hb, proxyValue_makeBuild god _ hc, hx, proxy_chosen_indicator god pool S hS,
    indicator_objectiveAt god pool S hS]

theorem starterAt_false_of_all (pool : List Item)
    (h : ∀ item ∈ pool, item.isStarter = false) (i : Nat) : starterAt pool i = false := by
  unfold starterAt
  cases hget : pool[i]? with
  | none => rfl
  | some item => exact h item (List.getElem?_mem hget)

theorem no_starter_feasible_iff (god : God) (pool : List Item)
    (h : ∀ item ∈ pool, item.isStarter = false) (x : List ℚ) :
    (closedModel god pool).Feasible x ↔
      (x.length = pool.length ∧
       (∀ i, i < pool.length → 0 ≤ x.getD i 0 ∧ x.getD i 0 ≤ 1 ∧ (x.getD i 0).den = 1) ∧
       Finset.sum (Finset.range pool.length) (fun i => x.getD i 0) = 6) := by
  rw [closedModel_feasible_iff]
  simp only [starterAt_false_of_all pool h, Bool.false_eq_true, if_false,
    Finset.sum_const_zero, le_refl, zero_le_one, and_true]

theorem basePool_no_starter : ∀ item ∈ basePool, item.isStarter = false := by
  intro item hitem
  simp only [basePool, List.mem_cons, List.mem_singleton, List.not_mem_nil, or_false] at hitem
  rcases hitem with h | h | h | h | h | h | h <;> rw [h] <;> rfl

theorem widenedPool_no_starter : ∀ item ∈ widenedPool, item.isStarter = false := by
  intro item hitem
  simp only [widenedPool, List.mem_append, List.mem_singleton] at hitem
  rcases hitem with h | h
  · exact basePool_no_starter item h
  · rw [h]; rfl

theorem basePool_objectiveAt (x : List ℚ) :
    (closedModel strongGod basePool).objectiveAt x
      = 100 * x.getD 0 0 + 100 * x.getD 1 0 + 100 * x.getD 2 0 + 100 * x.getD 3 0
        + 100 * x.getD 4 0 + 50 * x.getD 5 0 + 10 * x.getD 6 0 := by
  rw [closedModel_objectiveAt]
  have hlen : basePool.length = 7 := rfl
  have c0 : coefficientAt strongGod basePool 0 = 100 := by
    simp [coefficientAt, basePool, coefficient, strongGod, heavy, God.getPowerType,
      Item.getStats]
  have c1 : coefficientAt strongGod basePool 1 = 100 := by
    simp [coefficientAt, basePool, coefficient, strongGod, heavy, God.getPowerType,
      Item.getStats]
  have c2 : coefficientAt strongGod basePool 2 = 100 := by
    simp [coefficientAt, basePool, coefficient, strongGod, heavy, God.getPowerType,
      Item.getStats]
  have c3 : coefficientAt strongGod basePool 3 = 100 := by
    simp [coefficientAt, basePool, coefficient, strongGod, heavy, God.getPowerType,
      Item.getStats]
  have c4 : coefficientAt strongGod basePool 4 = 100 := by
    simp [coefficientAt, basePool, coefficient, strongGod, heavy, God.getPowerType,
      Item.getStats]
  have c5 : coefficientAt strongGod basePool 5 = 50 := by
    simp [coefficientAt, basePool, coefficient, strongGod, swift, God.getPowerType,
      Item.getStats]
    norm_num
  have c6 : coefficientAt strongGod basePool 6 = 10 := by
    simp [coefficientAt, basePool, coefficient, strongGod, weak, God.getPowerType,
      Item.getStats]
  rw [hlen]
  simp only [Finset.sum_range_succ, Finset.sum_range_zero, c0, c1, c2, c3, c4, c5, c6]
  ring

theorem widenedPool_objectiveAt (x : List ℚ) :
    (closedModel strongGod widenedPool).objectiveAt x
      = 100 * x.getD 0 0 + 100 * x.getD 1 0 + 100 * x.getD 2 0 + 100 * x.getD 3 0
        + 100 * x.getD 4 0 + 50 * x.getD 5 0 + 10 * x.getD 6 0 + 51 * x.getD 7 0 := by
  rw [closedModel_objectiveAt]
  have hlen : widenedPool.length = 8 := rfl
  have c0 : coefficientAt strongGod widenedPool 0 = 100 := by
    simp [coefficientAt, widenedPool, basePool, coefficient, strongGod, heavy,
      God.getPowerType, Item.getStats]
  have c1 : coefficientAt strongGod widenedPool 1 = 100 := by
    simp [coefficientAt, widenedPool, basePool, coefficient, strongGod, heavy,
      God.getPowerType, Item.getStats]
  have c2 : coefficientAt strongGod widenedPool 2 = 100 := by
    simp [coefficientAt, widenedPool, basePool, coefficient, strongGod, heavy,
      God.getPowerType, Item.getStats]
  have c3 : coefficientAt strongGod widenedPool 3 = 100 := by
    simp [coefficientAt, widenedPool, basePool, coefficient, strongGod, heavy,
      God.getPowerType, Item.getStats]
  have c4 : coefficientAt strongGod widenedPool 4 = 100 := by
    simp [coefficientAt, widenedPool, basePool, coefficient, strongGod, heavy,
      God.getPowerType, Item.getStats]
  have c5 : coefficientAt strongGod widenedPool 5 = 50 := by
    simp [coefficientAt, widenedPool, basePool, coefficient, strongGod, swift,
      God.getPowerType, Item.getStats]
    norm_num
  have c6 : coefficientAt strongGod widenedPool 6 = 10 := by
    simp [coefficientAt, widenedPool, basePool, coefficient, strongGod, weak,
      God.getPowerType, Item.getStats]
  have c7 : coefficientAt strongGod widenedPool 7 = 51 := by
    simp [coefficientAt, widenedPool, basePool, coefficient, strongGod, better,
      God.getPowerType, Item.getStats]
  rw [hlen]
  simp only [Finset.sum_range_succ, Finset.sum_range_zero, c0, c1, c2, c3, c4, c5, c6, c7]
  ring

theorem basePool_optimal :
    (closedModel strongGod basePool).Optimal [1, 1, 1, 1, 1, 1, 0] := by
  have hmax : (closedModel strongGod basePool).objective.maximization = true := rfl
  have hlen : basePool.length = 7 := rfl
  unfold MPSolver.Optimal
  simp only [hmax, if_true, basePool_objectiveAt, no_starter_feasible_iff _ _ basePool_no_starter,
    hlen]
  refine ⟨⟨rfl, fun i _ => binary_values _ (by simp) i, ?_⟩, ?_⟩
  · simp [Finset.sum_range_succ]
    norm_num
  · rintro y ⟨_, hvars, hsum⟩
    simp only [Finset.sum_range_succ, Finset.sum_range_zero] at hsum
    simp only [List.getD_cons_zero, List.getD_cons_succ]
    obtain ⟨l0, u0, _⟩ := hvars 0 (by norm_num)
    obtain ⟨l1, u1, _⟩ := hvars 1 (by norm_num)
    obtain ⟨l2, u2, _⟩ := hvars 2 (by norm_num)
    obtain ⟨l3, u3, _⟩ := hvars 3 (by norm_num)
    obtain ⟨l4, u4, _⟩ := hvars 4 (by norm_num)
    obtain ⟨l5, u5, _⟩ := hvars 5 (by norm_num)
    obtain ⟨l6, u6, _⟩ := hvars 6 (by norm_num)
    linarith

theorem widenedPool_optimal :
    (closedModel strongGod widenedPool).Optimal [1, 1, 1, 1, 1, 0, 0, 1] := by
  have hmax : (closedModel strongGod widenedPool).objective.maximization = true := rfl
  have hlen : widenedPool.length = 8 := rfl
  unfold MPSolver.Optimal
  simp only [hmax, if_true, widenedPool_objectiveAt,
    no_starter_feasible_iff _ _ widenedPool_no_starter, hlen]
  refine ⟨⟨rfl, fun i _ => binary_values _ (by simp) i, ?_⟩, ?_⟩
  · simp [Finset.sum_range_succ]
    norm_num
  · rintro y ⟨_, hvars, hsum⟩
    simp only [Finset.sum_range_succ, Finset.sum_range_zero] at hsum
    simp only [List.getD_cons_zero, List.getD_cons_succ]
    obtain ⟨l0, u0, _⟩ := hvars 0 (by norm_num)
    obtain ⟨l1, u1, _⟩ := hvars 1 (by norm_num)
    obtain ⟨l2, u2, _⟩ := hvars 2 (by norm_num)
    obtain ⟨l3, u3, _⟩ := hvars 3 (by norm_num)
    obtain ⟨l4, u4, _⟩ := hvars 4 (by norm_num)
    obtain ⟨l5, u5, _⟩ := hvars 5 (by norm_num)
    obtain ⟨l6, u6, _⟩ := hvars 6 (by norm_num)
    obtain ⟨l7, u7, _⟩ := hvars 7 (by norm_num)
    linarith

theorem dominanceBackend_base :
    dominanceBackend (closedModel strongGod basePool)
      = { status := .OPTIMAL, objectiveValue := 550, values := [1, 1, 1, 1, 1, 1, 0] } := rfl

theorem dominanceBackend_widened :
    dominanceBackend (closedModel strongGod widenedPool)
      = { status := .OPTIMAL, objectiveValue := 551, values := [1, 1, 1, 1, 1, 0, 0, 1] } := rfl

theorem basePool_chosen :
    chosenItems [1, 1, 1, 1, 1, 1, 0] basePool
      = [heavy 0, heavy 1, heavy 2, heavy 3, heavy 4, swift] := by
  simp [chosenItems, basePool, List.enum, List.enumFrom]
  norm_num

theorem widenedPool_chosen :
    chosenItems [1, 1, 1, 1, 1, 0, 0, 1] widenedPool
      = [heavy 0, heavy 1, heavy 2, heavy 3, heavy 4, better] := by
  simp [chosenItems, widenedPool, basePool, List.enum, List.enumFrom]
  norm_num

theorem basePool_result :
    GodBuilder.optimizeBuild { god_ := strongGod, available_items_ := basePool.map some }
        dominanceBackend
      = .ok (some (makeBuild [heavy 0, heavy 1, heavy 2, heavy 3, heavy 4, swift], 3000)) := by
  have h := optimizeBuild_of_optimal strongGod basePool dominanceBackend (by decide)
    (by rw [dominanceBackend_base])
    (by rw [dominanceBackend_base]; show (chosenItems _ _).length = 6; rw [basePool_chosen]; rfl)
  rw [dominanceBackend_base] at h
  dsimp only at h
  rw [basePool_chosen] at h
  rw [h]
  have : exactMetric strongGod [heavy 0, heavy 1, heavy 2, heavy 3, heavy 4, swift] = 3000 := by
    simp [exactMetric, relevantPower, strongGod, heavy, swift]
    norm_num
  rw [this]

theorem widenedPool_result :
    GodBuilder.optimizeBuild { god_ := strongGod, available_items_ := widenedPool.map some }
        dominanceBackend
      = .ok (some (makeBuild [heavy 0, heavy 1, heavy 2, heavy 3, heavy 4, better], 1551)) := by
  have h := optimizeBuild_of_optimal strongGod widenedPool dominanceBackend (by decide)
    (by rw [dominanceBackend_widened])
    (by
      rw [dominanceBackend_widened]
      show (chosenItems _ _).length = 6
      rw [widenedPool_chosen]
      rfl)
  rw [dominanceBackend_widened] at h
  dsimp only at h
  rw [widenedPool_chosen] at h
  rw [h]
  have : exactMetric strongGod [heavy 0, heavy 1, heavy 2, heavy 3, heavy 4, better]
      = 1551 := by
    simp [exactMetric, relevantPower, strongGod, heavy, better]
    norm_num
  rw [this]

theorem better_dominates_weak : better.stats_.dominates weak.stats_ := by
  unfold Stats.dominates
  simp only [better, weak, le_refl, lt_self_iff_false, and_true, or_false, true_and]
  norm_num

/-- C21 (counterexample): for the god with base power 1000 and the pool of
five items of power 100, one of attack speed 100 and one of power 10, adding
the non-starter item of power 51, which dominates the item of power 10, makes
`optimizeBuild` report dps 1551 instead of 3000, the backend returning an
optimal solution of the model both times. -/
theorem dps_drops_under_dominant_addition :
    weak ∈ basePool ∧ better.isStarter = false ∧ better.stats_.dominates weak.stats_ ∧
    (buildModel strongGod basePool).1.Optimal
      (dominanceBackend (buildModel strongGod basePool).1).values ∧
    (buildModel strongGod (basePool ++ [better])).1.Optimal
      (dominanceBackend (buildModel strongGod (basePool ++ [better])).1).values ∧
    GodBuilder.optimizeBuild { god_ := strongGod, available_items_ := basePool.map some }
        dominanceBackend
      = .ok (some (makeBuild [heavy 0, heavy 1, heavy 2, heavy 3, heavy 4, swift], 3000)) ∧
    GodBuilder.optimizeBuild
        { god_ := strongGod, available_items_ := (basePool ++ [better]).map some }
        dominanceBackend
      = .ok (some (makeBuild [heavy 0, heavy 1, heavy 2, heavy 3, heavy 4, better], 1551)) ∧
    (1551 : ℚ) < 3000 := by
  refine ⟨by simp [basePool], rfl, better_dominates_weak, ?_, ?_, basePool_result,
    widenedPool_result, by norm_num⟩
  · rw [buildModel_eq]
    exact basePool_optimal
  · rw [buildModel_eq]
    exact widenedPool_optimal

/-- C21 (amended): for every god, every pool P on which `optimizeBuild`
succeeds and every non-starter item d that dominates some item of P, the
backend returning an optimal solution of the model both times,
`optimizeBuild` succeeds on P plus d and the value of its linear objective
(the sum of the coefficients power + 0.5 × attack speed of the six items) on
the build reported for P plus d is not smaller than on the build reported for
P; nothing is said of the reported dps. -/
theorem proxy_monotone_under_dominant_addition (god : God) (pool : List Item) (d e : Item)
    (backend : Backend) (build1 : Build) (dps1 : ℚ)
    (_he : e ∈ pool) (_hstarter : d.isStarter = false)
    (_hdominates : d.stats_.dominates e.stats_)
    (h1 : GodBuilder.optimizeBuild { god_ := god, available_items_ := pool.map some } backend
      = .ok (some (build1, dps1)))
    (hopt1 : (buildModel god pool).1.Optimal (backend (buildModel god pool).1).values)
    (hstatus2 : (backend (buildModel god (pool ++ [d])).1).status = .OPTIMAL)
    (hopt2 : (buildModel god (pool ++ [d])).1.Optimal
      (backend (buildModel god (pool ++ [d])).1).values) :
    ∃ build2 dps2,
      GodBuilder.optimizeBuild { god_ := god, available_items_ := (pool ++ [d]).map some }
          backend = .ok (some (build2, dps2)) ∧
      proxyValue god build1 ≤ proxyValue god build2 := by
  rw [buildModel_eq] at hopt1 hstatus2 hopt2
  dsimp only at hopt1 hstatus2 hopt2
  obtain ⟨h6, _, _, _, _⟩ := optimizeBuild_some god pool backend build1 dps1 h1
  obtain ⟨S, hS, hx⟩ := feasible_eq_indicator god (pool ++ [d]) _ hopt2.1
  have hSf : S.card = 6 := by
    have := hopt2.1
    rw [hx] at this
    exact ((indicator_feasible_iff god (pool ++ [d]) S hS).1 this).1
  have hlen : (chosenItems (backend (closedModel god (pool ++ [d]))).values
      (pool ++ [d])).length = 6 := by
    rw [hx, chosenItems_indicator_length _ S hS, hSf]
  have h2 := optimizeBuild_of_optimal god (pool ++ [d]) backend
    (by rw [List.length_append]; omega) hstatus2 hlen
  refine ⟨_, _, h2, ?_⟩
  rw [proxy_of_optimal god pool backend build1 dps1 hopt1 h1,
    proxy_of_optimal god (pool ++ [d]) backend _ _ hopt2 h2]
  exact optimum_monotone god pool d _ _ hopt1 hopt2

/-- C21 (amended) at the god with base power 1000, the pool of seven and the
added item of power 51. -/
theorem proxy_monotone_under_dominant_addition_witness :
    ∃ build2 dps2,
      GodBuilder.optimizeBuild
          { god_ := strongGod, available_items_ := (basePool ++ [better]).map some }
          dominanceBackend = .ok (some (build2, dps2)) ∧
      proxyValue strongGod (makeBuild [heavy 0, heavy 1, heavy 2, heavy 3, heavy 4, swift])
        ≤ proxyValue strongGod build2 :=
  proxy_monotone_under_dominant_addition strongGod basePool better weak dominanceBackend
    (makeBuild [heavy 0, heavy 1, heavy 2, heavy 3, heavy 4, swift]) 3000
    (by simp [basePool]) rfl better_dominates_weak basePool_result
    (by rw [buildModel_eq]; exact basePool_optimal)
    (by rw [buildModel_eq]; rfl)
    (by rw [buildModel_eq]; exact widenedPool_optimal)

end smite

end twoptimizer
